import Mathlib

/-!
# Fuse on OpenShift reconciler: a shallow embedding

The development embeds `pkg/controller/installation/products/fuseonopenshift/reconciler.go`
and, from `pkg/apis/integreatly/v1alpha1/installation_types.go`, the status types and
`GetProductStatusObject`.

* Go `error` values are `GoError` (message plus the `k8errors.IsNotFound` flag); a `nil`
  error is `none`.  A function that may panic returns an `Outcome`.
* The cluster behind `pkgclient.Client` is a `World`: one store per API type that the
  reconciler touches (the typed `ConfigMap`, the samples operator `Config`, and the
  unstructured manifests keyed by kind, name and namespace) and the log of every call
  issued so far, fetches included.  A store maps an identity to the content kept under it,
  so a stored object always has the identity it is stored under.  `Get` answers not-found
  exactly when the store has no entry, `Create` refuses an existing identity, `Delete` and
  `Update` refuse a missing one.  On top of that any call may fail with an injected error
  (`Env.fault`, a function of the log so far and the call), which is never a not-found
  error.
* Go map iteration order is not fixed; every `range` over a map goes through a
  `MapOrder`, an arbitrary permutation of the entries.
* Library functions that are not part of the repository sources (the HTTP client, the JSON
  and YAML codecs, `resources.LoadKubernetesResource`, the failure of
  `resources.UnstructuredFromRuntimeObject`) are fields of `Reconciler`.
* In the statements, "the object exists" and "the object is absent" are what the lookup of
  the code returns: the store has (or lacks) the entry and the `Get` is not refused.
-/

namespace Fuse

/-! ## Status phases (`installation_types.go`) -/

abbrev StatusPhase := String
abbrev ProductName := String
abbrev ProductVersion := String
abbrev OperatorVersion := String
abbrev StageName := String

def PhaseNone : StatusPhase := ""
def PhaseCompleted : StatusPhase := "completed"
def PhaseFailed : StatusPhase := "failed"

structure InstallationProductStatus where
  Name : ProductName
  OperatorVersion : OperatorVersion
  Version : ProductVersion
  Host : String
  Type_ : String
  Mobile : Bool
  Status : StatusPhase
  deriving DecidableEq

/-- The field `Products` is a `map[ProductName]*InstallationProductStatus`: an entry may
hold the nil pointer (`none`). -/
structure InstallationStageStatus where
  Name : StageName
  Phase : StatusPhase
  Products : List (ProductName × Option InstallationProductStatus)
  deriving DecidableEq

/-- The field `Stages` is a `map[StageName]*InstallationStageStatus`: an entry may hold
the nil pointer (`none`). -/
structure InstallationStatus where
  Stages : List (StageName × Option InstallationStageStatus)
  LastError : String
  deriving DecidableEq

structure Installation where
  Status : InstallationStatus
  deriving DecidableEq

/-! ## Errors -/

structure GoError where
  msg : String
  notFound : Bool
  deriving DecidableEq

/-- The `errors.Errorf` / `errors.New` constructor: a fresh error, not an API status. -/
def Errorf (m : String) : GoError := ⟨m, false⟩

/-- The `errors.Wrap` / `errors.Wrapf` constructor: `message: cause`. -/
def Wrap (e : GoError) (m : String) : GoError := ⟨m ++ ": " ++ e.msg, false⟩

/-- The `k8errors.IsNotFound` test on an optional error. -/
def IsNotFound : Option GoError → Bool
  | some e => e.notFound
  | none => false

/-- A Go function that either returns a value or panics. -/
inductive Outcome (α : Type) where
  | ret (a : α)
  | panic (msg : String)
  deriving DecidableEq

/-! ## Go maps as association lists -/

/-- The `m[k]` lookup with presence flag. -/
def GoMap.get? {α : Type} : List (String × α) → String → Option α
  | [], _ => none
  | (k', v) :: rest, k => if k' = k then some v else GoMap.get? rest k

/-- The `m[k] = v` assignment: overwrite in place or add a new entry. -/
def GoMap.set {α : Type} : List (String × α) → String → α → List (String × α)
  | [], k, v => [(k, v)]
  | (k', v') :: rest, k, v =>
    if k' = k then (k, v) :: rest else (k', v') :: GoMap.set rest k v

/-- The `m[k]` lookup of a `map[string]string`: the empty string when absent. -/
def GoMap.getD (m : List (String × String)) (k : String) : String :=
  (GoMap.get? m k).getD ""

/-- One iteration order of a Go map: some permutation of its entries. -/
structure MapOrder (α : Type) where
  order : List (String × α) → List (String × α)
  isPerm : ∀ l : List (String × α), (order l).Perm l

/-! ## Cluster objects -/

structure ConfigMap where
  Name : String
  Namespace : String
  Data : List (String × String)
  deriving DecidableEq

/-- The spec of the samples operator `Config`, reduced to the fields the reconciler edits. -/
structure ConfigSpec where
  SkippedImagestreams : List String
  SkippedTemplates : List String
  deriving DecidableEq

/-- The samples operator `Config` resource (cluster scoped). -/
structure SamplesConfig where
  Name : String
  Spec : ConfigSpec
  deriving DecidableEq

/-- A manifest as `runtime.Object` / `unstructured.Unstructured`. -/
structure Resource where
  Kind : String
  Name : String
  Namespace : String
  Labels : List (String × String)
  Body : String
  deriving DecidableEq

inductive Object where
  | configMap (c : ConfigMap)
  | samplesConfig (s : SamplesConfig)
  | resource (r : Resource)
  deriving DecidableEq

inductive Event where
  | get (kind name ns : String)
  | create (o : Object)
  | delete (o : Object)
  | update (o : Object)
  | httpGet (url : String)
  deriving DecidableEq

def Event.isCreate : Event → Bool
  | .create _ => true
  | _ => false

def Event.isDelete : Event → Bool
  | .delete _ => true
  | _ => false

def Event.isUpdate : Event → Bool
  | .update _ => true
  | _ => false

def Event.isFetch : Event → Bool
  | .httpGet _ => true
  | _ => false

/-- A call that changes the cluster store. -/
def Event.isMutating (e : Event) : Bool := e.isCreate || e.isDelete || e.isUpdate

/-- The cluster store and the call log.  Each store maps an identity to the content kept
under it (`Data` of a config map, `Spec` of the samples config, labels and body of a
manifest); a read rebuilds the object from identity and content. -/
structure World where
  configMaps : String × String → Option (List (String × String))
  samples : String → Option ConfigSpec
  resources : String × String × String → Option (List (String × String) × String)
  log : List Event

/-- The events appended to the log between `w` and a later world `w'`. -/
def eventsSince (w w' : World) : List Event := w'.log.drop w.log.length

structure Response where
  StatusCode : Nat
  Body : Except GoError String

/-- What is outside the reconciler during one pass: injected store failures and the
iteration orders of the two kinds of `range` over a map. -/
structure Env where
  fault : List Event → Event → Option String
  keysOrder : MapOrder Resource
  rangeOrder : MapOrder Resource

structure FuseOnOpenshift where
  ProductVersion : ProductVersion
  OperatorVersion : OperatorVersion
  Namespace : String

/-- A decoded JSON value (`interface{}` after `json.Unmarshal`); a number keeps its
literal text. -/
inductive Json where
  | null
  | bool (b : Bool)
  | num (lit : String)
  | str (s : String)
  | arr (xs : List Json)
  | obj (kvs : List (String × Json))

structure Reconciler where
  Config : FuseOnOpenshift
  OperatorNamespace : String
  httpClient : String → Except GoError Response
  jsonUnmarshal : String → Except GoError (List (String × Json))
  jsonMarshal : Json → Except GoError String
  yamlToJSON : String → Except GoError String
  LoadKubernetesResource : String → String → Installation → Except GoError Resource
  unstructuredErr : Resource → Option GoError

/-! ## The cluster client -/

def logCall (w : World) (ev : Event) : World := { w with log := w.log ++ [ev] }

def notFoundError (kind name : String) : GoError := ⟨kind ++ " " ++ name ++ " not found", true⟩

def alreadyExistsError (kind name : String) : GoError :=
  ⟨kind ++ " " ++ name ++ " already exists", false⟩

def resKey (res : Resource) : String × String × String := (res.Kind, res.Name, res.Namespace)

/-- The call `serverClient.Get` into a `*corev1.ConfigMap`. -/
def GetConfigMap (env : Env) (w : World) (name ns : String) : Except GoError ConfigMap × World :=
  let ev := Event.get "ConfigMap" name ns
  match env.fault w.log ev with
  | some m => (.error (Errorf m), logCall w ev)
  | none =>
    match w.configMaps (name, ns) with
    | some data => (.ok { Name := name, Namespace := ns, Data := data }, logCall w ev)
    | none => (.error (notFoundError "ConfigMap" name), logCall w ev)

/-- The call `serverClient.Create` of a `*corev1.ConfigMap`. -/
def CreateConfigMap (env : Env) (w : World) (c : ConfigMap) : Option GoError × World :=
  let ev := Event.create (.configMap c)
  match env.fault w.log ev with
  | some m => (some (Errorf m), logCall w ev)
  | none =>
    match w.configMaps (c.Name, c.Namespace) with
    | some _ => (some (alreadyExistsError "ConfigMap" c.Name), logCall w ev)
    | none =>
      (none, { logCall w ev with
        configMaps := Function.update w.configMaps (c.Name, c.Namespace) (some c.Data) })

/-- The call `serverClient.Get` into a `*samplesv1.Config` (cluster scoped). -/
def GetSamplesConfig (env : Env) (w : World) (name : String) :
    Except GoError SamplesConfig × World :=
  let ev := Event.get "Config" name ""
  match env.fault w.log ev with
  | some m => (.error (Errorf m), logCall w ev)
  | none =>
    match w.samples name with
    | some spec => (.ok { Name := name, Spec := spec }, logCall w ev)
    | none => (.error (notFoundError "Config" name), logCall w ev)

/-- The call `serverClient.Update` of a `*samplesv1.Config`. -/
def UpdateSamplesConfig (env : Env) (w : World) (c : SamplesConfig) : Option GoError × World :=
  let ev := Event.update (.samplesConfig c)
  match env.fault w.log ev with
  | some m => (some (Errorf m), logCall w ev)
  | none =>
    match w.samples c.Name with
    | none => (some (notFoundError "Config" c.Name), logCall w ev)
    | some _ =>
      (none, { logCall w ev with samples := Function.update w.samples c.Name (some c.Spec) })

/-- The call `serverClient.Get` into an unstructured object with the identity of `u`. -/
def GetResource (env : Env) (w : World) (u : Resource) : Except GoError Resource × World :=
  let ev := Event.get u.Kind u.Name u.Namespace
  match env.fault w.log ev with
  | some m => (.error (Errorf m), logCall w ev)
  | none =>
    match w.resources (resKey u) with
    | some (labels, body) => (.ok { u with Labels := labels, Body := body }, logCall w ev)
    | none => (.error (notFoundError u.Kind u.Name), logCall w ev)

/-- The call `serverClient.Create` of a manifest. -/
def CreateResource (env : Env) (w : World) (res : Resource) : Option GoError × World :=
  let ev := Event.create (.resource res)
  match env.fault w.log ev with
  | some m => (some (Errorf m), logCall w ev)
  | none =>
    match w.resources (resKey res) with
    | some _ => (some (alreadyExistsError res.Kind res.Name), logCall w ev)
    | none =>
      (none, { logCall w ev with
        resources := Function.update w.resources (resKey res) (some (res.Labels, res.Body)) })

/-- The call `serverClient.Delete` of the object with the identity of a manifest. -/
def DeleteResource (env : Env) (w : World) (res : Resource) : Option GoError × World :=
  let ev := Event.delete (.resource res)
  match env.fault w.log ev with
  | some m => (some (Errorf m), logCall w ev)
  | none =>
    match w.resources (resKey res) with
    | none => (some (notFoundError res.Kind res.Name), logCall w ev)
    | some _ =>
      (none, { logCall w ev with resources := Function.update w.resources (resKey res) none })

/-! ## The reconciler (`reconciler.go`) -/

def fuseOnOpenshiftNs : String := "openshift"
def TemplatesBaseURL : String := "https://raw.githubusercontent.com/jboss-fuse/application-templates/"
def templatesConfigMapName : String := "fuse-on-openshift-templates"
def imageStreamFileName : String := "fis-image-streams.json"

def quickstartTemplates : List String :=
  [ "eap-camel-amq-template.json",
    "eap-camel-cdi-template.json",
    "eap-camel-cxf-jaxrs-template.json",
    "eap-camel-cxf-jaxws-template.json",
    "eap-camel-jpa-template.json",
    "karaf-camel-amq-template.json",
    "karaf-camel-log-template.json",
    "karaf-camel-rest-sql-template.json",
    "karaf-cxf-rest-template.json",
    "spring-boot-camel-amq-template.json",
    "spring-boot-camel-config-template.json",
    "spring-boot-camel-drools-template.json",
    "spring-boot-camel-infinispan-template.json",
    "spring-boot-camel-rest-3scale-template.json",
    "spring-boot-camel-rest-sql-template.json",
    "spring-boot-camel-teiid-template.json",
    "spring-boot-camel-template.json",
    "spring-boot-camel-xa-template.json",
    "spring-boot-camel-xml-template.json",
    "spring-boot-cxf-jaxrs-template.json",
    "spring-boot-cxf-jaxws-template.json" ]

def consoleTemplates : List String :=
  [ "fuse-console-cluster-os4.json",
    "fuse-console-namespace-os4.json",
    "fuse-apicurito.yml" ]

/-- The function `strings.TrimPrefix`. -/
def TrimPrefix (s pre : String) : String :=
  if pre.data.isPrefixOf s.data then ⟨s.data.drop pre.data.length⟩ else s

/-- The scan of `filepath.Ext` over the reversed path. -/
def extRev : List Char → List Char → List Char
  | [], _ => []
  | c :: rest, acc =>
    if c = '/' then [] else if c = '.' then '.' :: acc else extRev rest (c :: acc)

/-- The function `filepath.Ext`: the suffix from the last dot of the last path element. -/
def Ext (path : String) : String := ⟨extRev path.data.reverse []⟩

/-- The function `resources.UnstructuredFromRuntimeObject`: a re-encoding that keeps the
object or fails. -/
def UnstructuredFromRuntimeObject (r : Reconciler) (res : Resource) : Except GoError Resource :=
  match r.unstructuredErr res with
  | some e => .error e
  | none => .ok res

def getTemplatesConfigMap (r : Reconciler) (env : Env) (w : World) :
    (ConfigMap × Option GoError) × World :=
  let cfgMap : ConfigMap :=
    { Name := templatesConfigMapName, Namespace := r.OperatorNamespace, Data := [] }
  match GetConfigMap env w cfgMap.Name cfgMap.Namespace with
  | (.ok c, w') => ((c, none), w')
  | (.error e, w') => ((cfgMap, some e), w')

def getFileContentFromURL (r : Reconciler) (w : World) (url : String) :
    Except GoError (Except GoError String) × World :=
  let w' := logCall w (Event.httpGet url)
  match r.httpClient url with
  | .error err => (.error err, w')
  | .ok resp =>
    if resp.StatusCode = 200 then (.ok resp.Body, w')
    else
      (.error (Errorf ("failed to get file content from " ++ url ++ ". Status: "
        ++ toString resp.StatusCode)), w')

/-- The file list built at the top of the cache-miss branch of `reconcileConfigMap`. -/
def fileNames : List String :=
  ([imageStreamFileName] ++ consoleTemplates) ++ quickstartTemplates.map ("quickstarts/" ++ ·)

def fileURL (r : Reconciler) (fn : String) : String :=
  TemplatesBaseURL ++ r.Config.ProductVersion ++ "/" ++ fn

/-- The `for _, fn := range fileNames` loop of `reconcileConfigMap`. -/
def fetchFiles (r : Reconciler) :
    List String → List (String × String) → World → Except GoError (List (String × String)) × World
  | [], configMapData, w => (.ok configMapData, w)
  | fn :: rest, configMapData, w =>
    match getFileContentFromURL r w (fileURL r fn) with
    | (.error err, w') => (.error (Wrap err ("failed to get file contents of " ++ fn)), w')
    | (.ok content, w') =>
      match content with
      | .error err => (.error (Wrap err ("failed to read contents of " ++ fn)), w')
      | .ok data =>
        let key := TrimPrefix fn "quickstarts/"
        fetchFiles r rest (GoMap.set configMapData key data) w'

def reconcileConfigMap (r : Reconciler) (env : Env) (w : World) :
    (StatusPhase × Option GoError) × World :=
  match getTemplatesConfigMap r env w with
  | ((cfgMap, some err), w1) =>
    if !err.notFound then
      ((PhaseFailed, some (Wrap err ("failed to get config map " ++ cfgMap.Name ++ " from "
        ++ cfgMap.Namespace ++ " namespace"))), w1)
    else
      match fetchFiles r fileNames [] w1 with
      | (.error e, w2) => ((PhaseFailed, some e), w2)
      | (.ok configMapData, w2) =>
        let cfgMap := { cfgMap with Data := configMapData }
        match CreateConfigMap env w2 cfgMap with
        | (some e, w3) =>
          ((PhaseFailed, some (Wrap e ("failed to create configmap " ++ cfgMap.Name ++ " in "
            ++ cfgMap.Namespace ++ " namespace"))), w3)
        | (none, w3) => ((PhaseCompleted, none), w3)
  | ((_, none), w1) => ((PhaseCompleted, none), w1)

def resourceHasLabel (labels : List (String × String)) (key value : String) : Bool :=
  match GoMap.get? labels key with
  | some val => val = value
  | none => false

def contains (list : List String) (value : String) : Bool :=
  match list with
  | [] => false
  | v :: rest => if v = value then true else contains rest value

def getKeysFromMap (env : Env) (mapObj : List (String × Resource)) : List String :=
  (env.keysOrder.order mapObj).map Prod.fst

def createResourceIfNotExist (r : Reconciler) (env : Env) (w : World) (resource : Resource) :
    Option GoError × World :=
  match UnstructuredFromRuntimeObject r resource with
  | .error _ =>
    -- the `%T` and `%s` renderings of the object are abbreviated to its name
    (some (Errorf ("failed to get unstructured object of type Unstructured from resource "
      ++ resource.Name)), w)
  | .ok u =>
    match GetResource env w u with
    | (.error err, w1) =>
      if !err.notFound then (some (Wrap err "failed to get resource"), w1)
      else
        match CreateResource env w1 resource with
        | (some e, w2) => (some (Wrap e "failed to create resource"), w2)
        | (none, w2) => (none, w2)
    | (.ok live, w1) =>
      if !resourceHasLabel live.Labels "integreatly" "true" then
        match DeleteResource env w1 resource with
        | (some e, w2) => (some (Wrap e "failed to delete resource"), w2)
        | (none, w2) =>
          match CreateResource env w2 resource with
          | (some e, w3) => (some (Wrap e "failed to create resource"), w3)
          | (none, w3) => (none, w3)
      else (none, w1)

/-- The function `getResourcesFromList`: `reflect.ValueOf(listObj["items"])`, then `Len`
and `Index`.  `Len` panics on a nil interface, a number or a boolean; `Index` panics on a
map; a string yields its bytes. -/
def getResourcesFromList (listObj : List (String × Json)) : Outcome (List Json) :=
  match GoMap.get? listObj "items" with
  | none => .panic "reflect: call of reflect.Value.Len on zero Value"
  | some .null => .panic "reflect: call of reflect.Value.Len on zero Value"
  | some (.bool _) => .panic "reflect: call of reflect.Value.Len on bool Value"
  | some (.num _) => .panic "reflect: call of reflect.Value.Len on float64 Value"
  | some (.str v) =>
    .ret ((v.data.flatMap String.utf8EncodeChar).map (fun b => Json.num (toString b.toNat)))
  | some (.arr xs) => .ret xs
  | some (.obj []) => .ret []
  | some (.obj (_ :: _)) => .panic "reflect: call of reflect.Value.Index on map Value"

/-- One `for _, v := range value` loop of `updateClusterSampleCR`. -/
def appendMissing : List String → List String → List String
  | list, [] => list
  | list, v :: rest =>
    if !contains list v then appendMissing (list ++ [v]) rest else appendMissing list rest

/-- The two `if key == ...` blocks of `updateClusterSampleCR`. -/
def skipNames (key : String) (value : List String) (clusterSampleCR : SamplesConfig) :
    SamplesConfig :=
  let cr1 : SamplesConfig :=
    if key = "SkippedImagestreams" then
      { clusterSampleCR with Spec := { clusterSampleCR.Spec with
          SkippedImagestreams := appendMissing clusterSampleCR.Spec.SkippedImagestreams value } }
    else clusterSampleCR
  if key = "SkippedTemplates" then
    { cr1 with Spec := { cr1.Spec with
        SkippedTemplates := appendMissing cr1.Spec.SkippedTemplates value } }
  else cr1

def updateClusterSampleCR (env : Env) (w : World) (key : String) (value : List String) :
    Option GoError × World :=
  match GetSamplesConfig env w "cluster" with
  | (.error err, w1) => if err.notFound then (none, w1) else (some err, w1)
  | (.ok clusterSampleCR, w1) =>
    match UpdateSamplesConfig env w1 (skipNames key value clusterSampleCR) with
    | (some err, w2) => (some err, w2)
    | (none, w2) => (none, w2)

/-- The body of the `for _, is := range isList` loop of `reconcileImageStreams`: the name
and the object that the iteration stores in the `imageStreams` map. -/
def loadImageStream (r : Reconciler) (inst : Installation) (is : Json) :
    Except GoError (String × Resource) :=
  match r.jsonMarshal is with
  | .error err => .error (Wrap err ("failed to marshal data " ++ imageStreamFileName))
  | .ok jsonData =>
    match r.LoadKubernetesResource jsonData r.Config.Namespace inst with
    | .error err => .error (Wrap err "failed to load kubernetes imagestream resource")
    | .ok imageStreamRuntimeObj =>
      match UnstructuredFromRuntimeObject r imageStreamRuntimeObj with
      | .error err =>
        .error (Wrap err "failed to parse runtime object to unstructured for imagestream")
      | .ok imageStreamUnstructured => .ok (imageStreamUnstructured.Name, imageStreamRuntimeObj)

/-- The `for _, is := range isList` loop of `reconcileImageStreams`. -/
def loadImageStreams (r : Reconciler) (inst : Installation) :
    List Json → List (String × Resource) → Except GoError (List (String × Resource))
  | [], imageStreams => .ok imageStreams
  | is :: rest, imageStreams =>
    match loadImageStream r inst is with
    | .error err => .error err
    | .ok (imageStreamName, imageStreamRuntimeObj) =>
      loadImageStreams r inst rest (GoMap.set imageStreams imageStreamName imageStreamRuntimeObj)

/-- The `for name, obj := range` loops that close `reconcileImageStreams` and
`reconcileTemplates` (both wrap the error with the same message). -/
def createResources (r : Reconciler) (env : Env) :
    List (String × Resource) → World → Option GoError × World
  | [], w => (none, w)
  | (name, obj) :: rest, w =>
    match createResourceIfNotExist r env w obj with
    | (some err, w') => (some (Wrap err ("failed to create image stream " ++ name)), w')
    | (none, w') => createResources r env rest w'

def reconcileImageStreams (r : Reconciler) (env : Env) (inst : Installation) (w : World) :
    Outcome (StatusPhase × Option GoError) × World :=
  match getTemplatesConfigMap r env w with
  | ((cfgMap, some err), w1) =>
    (.ret (PhaseFailed, some (Wrap err ("failed to get configmap " ++ cfgMap.Name
      ++ " from map[] namespace"))), w1)
  | ((cfgMap, none), w1) =>
    let content := GoMap.getD cfgMap.Data imageStreamFileName
    match r.jsonUnmarshal content with
    | .error err =>
      (.ret (PhaseFailed, some (Wrap err ("failed to unmarshal contents of "
        ++ imageStreamFileName))), w1)
    | .ok fileContent =>
      match getResourcesFromList fileContent with
      | .panic m => (.panic m, w1)
      | .ret isList =>
        match loadImageStreams r inst isList [] with
        | .error err => (.ret (PhaseFailed, some err), w1)
        | .ok imageStreams =>
          let imageStreamNames := getKeysFromMap env imageStreams
          match updateClusterSampleCR env w1 "SkippedImagestreams" imageStreamNames with
          | (some err, w2) =>
            (.ret (PhaseFailed, some (Wrap err
              "failed to update SkippedImagestreams in cluster sample custom resource")), w2)
          | (none, w2) =>
            match createResources r env (env.rangeOrder.order imageStreams) w2 with
            | (some err, w3) => (.ret (PhaseFailed, some err), w3)
            | (none, w3) => (.ret (PhaseCompleted, none), w3)

/-- The body of the `for _, fileName := range templateFiles` loop of `reconcileTemplates`
after the config map has been read: the name and the object that the iteration stores in
the `templates` map. -/
def loadTemplate (r : Reconciler) (inst : Installation) (cfgMap : ConfigMap)
    (fileName : String) : Except GoError (String × Resource) :=
  let content := GoMap.getD cfgMap.Data fileName
  let converted : Except GoError String :=
    if Ext fileName = ".yml" ∨ Ext fileName = ".yaml" then
      match r.yamlToJSON content with
      | .error err => .error (Wrap err ("failed to convert yaml to json " ++ fileName))
      | .ok json => .ok json
    else .ok content
  match converted with
  | .error err => .error err
  | .ok content =>
    match r.LoadKubernetesResource content r.Config.Namespace inst with
    | .error err => .error (Wrap err ("failed to load resource " ++ fileName))
    | .ok templateRuntimeObj =>
      match UnstructuredFromRuntimeObject r templateRuntimeObj with
      | .error err => .error (Wrap err "failed to parse object")
      | .ok templateUnstructured => .ok (templateUnstructured.Name, templateRuntimeObj)

/-- The `for _, fileName := range templateFiles` loop of `reconcileTemplates`. -/
def loadTemplates (r : Reconciler) (env : Env) (inst : Installation) :
    List String → List (String × Resource) → World →
      Except GoError (List (String × Resource)) × World
  | [], templates, w => (.ok templates, w)
  | fileName :: rest, templates, w =>
    match getTemplatesConfigMap r env w with
    | ((cfgMap, some err), w1) =>
      (.error (Wrap err ("failed to get configmap " ++ cfgMap.Name ++ " from map[] namespace")),
        w1)
    | ((cfgMap, none), w1) =>
      match loadTemplate r inst cfgMap fileName with
      | .error err => (.error err, w1)
      | .ok (templateName, templateRuntimeObj) =>
        loadTemplates r env inst rest (GoMap.set templates templateName templateRuntimeObj) w1

def reconcileTemplates (r : Reconciler) (env : Env) (inst : Installation) (w : World) :
    (StatusPhase × Option GoError) × World :=
  let templateFiles := consoleTemplates ++ quickstartTemplates
  match loadTemplates r env inst templateFiles [] w with
  | (.error err, w1) => ((PhaseFailed, some err), w1)
  | (.ok templates, w1) =>
    let templateNames := getKeysFromMap env templates
    match updateClusterSampleCR env w1 "SkippedTemplates" templateNames with
    | (some err, w2) =>
      ((PhaseFailed, some (Wrap err
        "failed to update SkippedTemplates in cluster sample custom resource")), w2)
    | (none, w2) =>
      match createResources r env (env.rangeOrder.order templates) w2 with
      | (some err, w3) => ((PhaseFailed, some err), w3)
      | (none, w3) => ((PhaseCompleted, none), w3)

/-- The result of one `Reconcile` call: what it returns (or the panic), the product status
behind the `product` pointer, and the cluster afterwards. -/
structure Pass where
  result : Outcome (StatusPhase × Option GoError)
  product : InstallationProductStatus
  world : World

def Reconcile (r : Reconciler) (env : Env) (inst : Installation)
    (product : InstallationProductStatus) (w : World) : Pass :=
  match reconcileConfigMap r env w with
  | ((phase, err), w1) =>
    if err ≠ none ∨ phase ≠ PhaseCompleted then ⟨.ret (phase, err), product, w1⟩
    else
      match reconcileImageStreams r env inst w1 with
      | (.panic m, w2) => ⟨.panic m, product, w2⟩
      | (.ret (phase, err), w2) =>
        if err ≠ none ∨ phase ≠ PhaseCompleted then ⟨.ret (phase, err), product, w2⟩
        else
          match reconcileTemplates r env inst w2 with
          | ((phase, err), w3) =>
            if err ≠ none ∨ phase ≠ PhaseCompleted then ⟨.ret (phase, err), product, w3⟩
            else
              ⟨.ret (PhaseCompleted, none),
                { product with
                  Version := r.Config.ProductVersion
                  OperatorVersion := r.Config.OperatorVersion }, w3⟩

/-! ## Product status lookup (`installation_types.go`) -/

/-- The `for _, stage := range i.Status.Stages` loop of `GetProductStatusObject`, over the
stages in iteration order.  Each round evaluates `stage.Products[product]`, which
dereferences the stage pointer without a nil test: a nil stage panics.  The first entry
that is present is returned as it is stored, the nil pointer included; `none` means that
the loop ran to its end. -/
def findProductStatus :
    List (StageName × Option InstallationStageStatus) → ProductName →
      Outcome (Option (Option InstallationProductStatus))
  | [], _ => .ret none
  | (_, none) :: _, _ =>
    .panic "runtime error: invalid memory address or nil pointer dereference"
  | (_, some stage) :: rest, product =>
    match GoMap.get? stage.Products product with
    | some found => .ret (some found)
    | none => findProductStatus rest product

/-- The method `GetProductStatusObject` on a non-nil receiver: the pointer it returns
(`none` is the nil pointer) or its panic, and the installation behind the receiver after
the call. -/
def GetProductStatusObject (ord : MapOrder (Option InstallationStageStatus))
    (i : Installation) (product : ProductName) :
    Outcome (Option InstallationProductStatus) × Installation :=
  match findProductStatus (ord.order i.Status.Stages) product with
  | .panic m => (.panic m, i)
  | .ret (some found) => (.ret found, i)
  | .ret none =>
    (.ret (some { Name := product, OperatorVersion := "", Version := "", Host := "",
                  Type_ := "", Mobile := false, Status := "" }), i)

/-! ## Predicates used in the statements, and sample inputs -/

/-- The fetch of file `fn` fails: transport error, a status other than 200, or a body
that cannot be read. -/
def fetchFails (r : Reconciler) (fn : String) : Prop :=
  (∃ e, r.httpClient (fileURL r fn) = .error e) ∨
  (∃ resp, r.httpClient (fileURL r fn) = .ok resp ∧ resp.StatusCode ≠ 200) ∨
  (∃ resp e, r.httpClient (fileURL r fn) = .ok resp ∧ resp.Body = .error e)

/-- The stores of `w'` are those of `w` (the log may have grown). -/
def sameStore (w w' : World) : Prop :=
  w'.configMaps = w.configMaps ∧ w'.samples = w.samples ∧ w'.resources = w.resources

/-- An environment without injected faults that iterates maps in insertion order. -/
def quietEnv : Env :=
  { fault := fun _ _ => none
    keysOrder := ⟨id, fun l => List.Perm.refl l⟩
    rangeOrder := ⟨id, fun l => List.Perm.refl l⟩ }

/-- An environment in which every `Delete` is refused. -/
def deleteRefusedEnv : Env :=
  { quietEnv with fault := fun _ ev => if ev.isDelete then some "forbidden" else none }

def emptyWorld : World :=
  { configMaps := fun _ => none, samples := fun _ => none, resources := fun _ => none, log := [] }

/-- A reconciler whose remote source answers every URL with status 200 and the URL as
body, and whose loader stamps the namespace and the ownership label. -/
def sampleReconciler : Reconciler :=
  { Config := { ProductVersion := "master", OperatorVersion := "1.5.0", Namespace := "openshift" }
    OperatorNamespace := "integreatly"
    httpClient := fun url => .ok { StatusCode := 200, Body := .ok url }
    jsonUnmarshal := fun _ => .ok [("items", Json.arr [])]
    jsonMarshal := fun _ => .ok ""
    yamlToJSON := fun s => .ok s
    LoadKubernetesResource := fun content ns _ =>
      .ok { Kind := "Template", Name := content, Namespace := ns,
            Labels := [("integreatly", "true")], Body := content }
    unstructuredErr := fun _ => none }

/-- The sample reconciler with a remote source that answers every URL with status 500. -/
def offlineReconciler : Reconciler :=
  { sampleReconciler with httpClient := fun _ => .ok { StatusCode := 500, Body := .ok "" } }

def fooManifest : Resource :=
  { Kind := "ImageStream", Name := "foo", Namespace := "openshift",
    Labels := [("integreatly", "true")], Body := "canonical" }

/-- A cluster in which `foo` exists without the ownership label. -/
def fooUnownedWorld : World :=
  { emptyWorld with
    resources := fun k =>
      if k = ("ImageStream", "foo", "openshift") then some ([], "sample") else none }

/-- A cluster in which `foo` exists with the ownership label. -/
def fooOwnedWorld : World :=
  { emptyWorld with
    resources := fun k =>
      if k = ("ImageStream", "foo", "openshift") then some ([("integreatly", "true")], "mine")
      else none }

/-- The names of `l`, each once, in the order of their first occurrence. -/
def firstOccurrences : List String → List String
  | [] => []
  | v :: rest => v :: (firstOccurrences rest).filter (fun x => decide (x ≠ v))

/-- The list of one category of the shared registry object. -/
def skipped (key : String) (spec : ConfigSpec) : List String :=
  if key = "SkippedImagestreams" then spec.SkippedImagestreams
  else if key = "SkippedTemplates" then spec.SkippedTemplates
  else []

/-- A cluster in which the shared registry object exists and already lists one image
stream and one template. -/
def registryWorld : World :=
  { emptyWorld with
    samples := fun k =>
      if k = "cluster" then
        some { SkippedImagestreams := ["jenkins"], SkippedTemplates := ["nodejs-example"] }
      else none }

/-- The config map data expected after a cache miss: one entry per requested file, under
the file name without the `quickstarts/` grouping, holding the body fetched for it. -/
def cacheData (body : String → String) : List (String × String) :=
  fileNames.map (fun fn => (TrimPrefix fn "quickstarts/", body fn))

/-- The keys of the templates config map: the image stream file, the console templates and
the quickstart templates, all by base name. -/
def cacheKeys : List String :=
  [ "fis-image-streams.json",
    "fuse-console-cluster-os4.json",
    "fuse-console-namespace-os4.json",
    "fuse-apicurito.yml",
    "eap-camel-amq-template.json",
    "eap-camel-cdi-template.json",
    "eap-camel-cxf-jaxrs-template.json",
    "eap-camel-cxf-jaxws-template.json",
    "eap-camel-jpa-template.json",
    "karaf-camel-amq-template.json",
    "karaf-camel-log-template.json",
    "karaf-camel-rest-sql-template.json",
    "karaf-cxf-rest-template.json",
    "spring-boot-camel-amq-template.json",
    "spring-boot-camel-config-template.json",
    "spring-boot-camel-drools-template.json",
    "spring-boot-camel-infinispan-template.json",
    "spring-boot-camel-rest-3scale-template.json",
    "spring-boot-camel-rest-sql-template.json",
    "spring-boot-camel-teiid-template.json",
    "spring-boot-camel-template.json",
    "spring-boot-camel-xa-template.json",
    "spring-boot-camel-xml-template.json",
    "spring-boot-cxf-jaxrs-template.json",
    "spring-boot-cxf-jaxws-template.json" ]

/-- The text `sub` occurs in `s`. -/
def hasSubstring (s sub : String) : Prop := ∃ pre post : String, s = pre ++ sub ++ post

/-- A cluster in which the templates config map exists with one stale entry. -/
def cachedWorld : World :=
  { emptyWorld with
    configMaps := fun k =>
      if k = ("fuse-on-openshift-templates", "integreatly") then some [("stale", "data")]
      else none }

/-- The error of `getFileContentFromURL` for a response with a status other than 200. -/
def statusError (url : String) (status : Nat) : GoError :=
  Errorf ("failed to get file content from " ++ url ++ ". Status: " ++ toString status)

def sampleInstallation : Installation :=
  { Status := { Stages := [], LastError := "" } }

def sampleProduct : InstallationProductStatus :=
  { Name := "fuse-on-openshift", OperatorVersion := "", Version := "", Host := "", Type_ := "",
    Mobile := false, Status := PhaseNone }

/-- The store holds, under identity `k`, an object carrying the label `integreatly=true`. -/
def ownedAt (w : World) (k : String × String × String) : Prop :=
  ∃ labels body, w.resources k = some (labels, body) ∧
    resourceHasLabel labels "integreatly" "true" = true

/-- Every name of `names` is listed under category `key` of the shared registry object,
if that object exists. -/
def registryCovers (w : World) (key : String) (names : List String) : Prop :=
  ∀ spec, w.samples "cluster" = some spec → ∀ n ∈ names, n ∈ skipped key spec

/-- The lookup of the templates config map, as logged. -/
def cacheLookup (r : Reconciler) : Event :=
  Event.get "ConfigMap" templatesConfigMapName r.OperatorNamespace

/-- The events of a quiet `updateClusterSampleCR` that finds nothing to add. -/
def registryEvents (w : World) : List Event :=
  match w.samples "cluster" with
  | none => [Event.get "Config" "cluster" ""]
  | some spec => [Event.get "Config" "cluster" "", Event.update (.samplesConfig ⟨"cluster", spec⟩)]

/-- The lookups of a `createResources` loop that finds every resource owned. -/
def lookupEvents (l : List (String × Resource)) : List Event :=
  l.map (fun p => Event.get p.2.Kind p.2.Name p.2.Namespace)

/-- The events of a pass over a settled cluster: the cache lookup of `reconcileConfigMap`,
then for each of the two batches its cache lookups, the registry declaration and one
lookup per resource. -/
def settledEvents (r : Reconciler) (w : World) (imageStreams templates : List (String × Resource)) :
    List Event :=
  cacheLookup r ::
    ((cacheLookup r :: registryEvents w ++ lookupEvents imageStreams) ++
      (List.replicate (consoleTemplates ++ quickstartTemplates).length (cacheLookup r) ++
        registryEvents w ++ lookupEvents templates))

/-! ## A remote source with manifests -/

/-- The compact JSON text of a manifest that has an API version, a kind and a name, with
the keys in the order written by `json.Marshal`. -/
def manifestText (apiVersion kind name : String) : String :=
  "\x7b\x22apiVersion\x22:\x22" ++ apiVersion ++ "\x22,\x22kind\x22:\x22" ++ kind ++
    "\x22,\x22metadata\x22:\x7b\x22name\x22:\x22" ++ name ++ "\x22\x7d\x7d"

/-- The file name without its extension. -/
def stem (fileName : String) : String :=
  ⟨fileName.data.take (fileName.data.length - (Ext fileName).data.length)⟩

/-- The text of the image stream `fuse7-java-openshift`. -/
def javaImageStreamText : String :=
  manifestText "image.openshift.io/v1" "ImageStream" "fuse7-java-openshift"

/-- The decoding of `javaImageStreamText`. -/
def javaImageStream : Json :=
  .obj [("apiVersion", .str "image.openshift.io/v1"), ("kind", .str "ImageStream"),
        ("metadata", .obj [("name", .str "fuse7-java-openshift")])]

/-- The text of the image stream file: a `List` with the one image stream. -/
def imageStreamListText : String :=
  "\x7b\x22apiVersion\x22:\x22v1\x22,\x22kind\x22:\x22List\x22,\x22items\x22:["
    ++ javaImageStreamText ++ "]\x7d"

/-- The text served for a template file: a `Template` named after the file. -/
def templateText (fileName : String) : String :=
  manifestText "template.openshift.io/v1" "Template" (stem fileName)

/-- The files of the remote source under `master/`, by path. -/
def remoteFiles : List (String × String) :=
  (imageStreamFileName, imageStreamListText) ::
    (consoleTemplates.map (fun fn => (fn, templateText fn)) ++
      quickstartTemplates.map (fun fn => ("quickstarts/" ++ fn, templateText fn)))

/-- The manifests that the loader of `fuseReconciler` knows, by text: kind and name. -/
def knownManifests : List (String × (String × String)) :=
  (javaImageStreamText, ("ImageStream", "fuse7-java-openshift")) ::
    (consoleTemplates ++ quickstartTemplates).map
      (fun fn => (templateText fn, ("Template", stem fn)))

/-- A reconciler over a remote source that serves a `List` with one image stream and one
JSON `Template` per template file (the `.yml` file too: JSON text is YAML), and answers
404 to any other URL.  The codecs are tables over these texts and fail on anything else:
`jsonUnmarshal` decodes the list text, `jsonMarshal` encodes a manifest object with its
keys sorted, `yamlToJSON` returns a text that starts with an opening brace as it is, and
the loader reads kind and name, stamps the namespace and adds the label
`integreatly=true`. -/
def fuseReconciler : Reconciler :=
  { Config := { ProductVersion := "master", OperatorVersion := "1.5.0", Namespace := "openshift" }
    OperatorNamespace := "integreatly"
    httpClient := fun url =>
      match GoMap.get? remoteFiles (TrimPrefix url (TemplatesBaseURL ++ "master/")) with
      | some body => .ok { StatusCode := 200, Body := .ok body }
      | none => .ok { StatusCode := 404, Body := .ok "404: Not Found" }
    jsonUnmarshal := fun text =>
      if text = imageStreamListText then
        .ok [("apiVersion", .str "v1"), ("items", .arr [javaImageStream]), ("kind", .str "List")]
      else .error (Errorf "unexpected end of JSON input")
    jsonMarshal := fun value =>
      match value with
      | .obj [("apiVersion", .str a), ("kind", .str k), ("metadata", .obj [("name", .str n)])] =>
        .ok (manifestText a k n)
      | _ => .error (Errorf "json: unsupported value")
    yamlToJSON := fun text =>
      if text.data.head? = some (Char.ofNat 123) then .ok text
      else .error (Errorf "yaml: did not find expected key")
    LoadKubernetesResource := fun content ns _ =>
      match GoMap.get? knownManifests content with
      | some (kind, name) =>
        .ok { Kind := kind, Name := name, Namespace := ns,
              Labels := [("integreatly", "true")], Body := content }
      | none => .error (Errorf "unexpected end of JSON input")
    unstructuredErr := fun _ => none }

/-- The image stream that `fuseReconciler` loads from the image stream file. -/
def javaImageStreamResource : Resource :=
  { Kind := "ImageStream", Name := "fuse7-java-openshift", Namespace := "openshift",
    Labels := [("integreatly", "true")], Body := javaImageStreamText }

/-- The image streams of `fuseReconciler`, by name. -/
def fuseImageStreams : List (String × Resource) :=
  [("fuse7-java-openshift", javaImageStreamResource)]

/-- The templates that `fuseReconciler` loads, by name, in the order of the template
files. -/
def fuseTemplates : List (String × Resource) :=
  (consoleTemplates ++ quickstartTemplates).map (fun fn =>
    (stem fn, { Kind := "Template", Name := stem fn, Namespace := "openshift",
                Labels := [("integreatly", "true")], Body := templateText fn }))

/-- The data of the templates config map that a cache miss builds from the remote source of
`fuseReconciler`. -/
def fuseData : List (String × String) :=
  remoteFiles.map (fun p => (TrimPrefix p.1 "quickstarts/", p.2))

/-- The registry of `registryWorld` after the declaration of the image stream. -/
def declaredSpec : ConfigSpec :=
  { SkippedImagestreams := ["jenkins", "fuse7-java-openshift"],
    SkippedTemplates := ["nodejs-example"] }

/-- The registry of `registryWorld` after both declarations. -/
def settledSpec : ConfigSpec :=
  { SkippedImagestreams := ["jenkins", "fuse7-java-openshift"],
    SkippedTemplates := "nodejs-example" :: fuseTemplates.map Prod.fst }

/-- A first pass of `fuseReconciler` over a fresh cluster in which the shared registry
object exists: the 25 files are fetched and cached, the image stream and the 24 templates
are declared and created. -/
def firstPass : Pass :=
  Reconcile fuseReconciler quietEnv sampleInstallation sampleProduct registryWorld

/-- The pass that follows `firstPass` with nothing changed in between. -/
def secondPass : Pass :=
  Reconcile fuseReconciler quietEnv sampleInstallation firstPass.product firstPass.world

/-- The cluster of `firstPass` after its cache step: the templates config map is stored. -/
def fuseCachedWorld : World := (reconcileConfigMap fuseReconciler quietEnv registryWorld).2

/-- An environment in which every lookup is refused. -/
def getRefusedEnv : Env :=
  { quietEnv with
    fault := fun _ ev =>
      match ev with
      | .get _ _ _ => some "connection refused"
      | _ => none }

/-- The cluster after the cache step of the sample pass over `cachedWorld`. -/
def cachedWorld1 : World := (reconcileConfigMap sampleReconciler quietEnv cachedWorld).2

/-- The cluster after the config map read of the image stream step. -/
def cachedWorld2 : World := (getTemplatesConfigMap sampleReconciler quietEnv cachedWorld1).2

/-- The cluster after the image stream step (no image stream in the sample list). -/
def cachedWorld3 : World :=
  (createResources sampleReconciler quietEnv [] (logCall cachedWorld2
    (Event.get "Config" "cluster" ""))).2

/-- The cluster after the load loop of the template step. -/
def cachedWorld4 : World :=
  (loadTemplates sampleReconciler quietEnv sampleInstallation
    (consoleTemplates ++ quickstartTemplates) [] cachedWorld3).2

/-- The one template that the sample loader derives from a config map without the
template files. -/
def blankTemplate : Resource :=
  { Kind := "Template", Name := "", Namespace := "openshift",
    Labels := [("integreatly", "true")], Body := "" }

/-- The cluster after the create loop of the template step. -/
def cachedWorld5 : World :=
  (createResources sampleReconciler quietEnv [("", blankTemplate)] (logCall cachedWorld4
    (Event.get "Config" "cluster" ""))).2

/-- The sample reconciler with a decoder that yields a JSON object without an `items`
key. -/
def bareObjectReconciler : Reconciler :=
  { sampleReconciler with jsonUnmarshal := fun _ => .ok [("kind", Json.str "List")] }

/-- The panic of the Go runtime on a nil pointer dereference. -/
def nilDereference : String := "runtime error: invalid memory address or nil pointer dereference"

def rhssoStatus : InstallationProductStatus :=
  { Name := "rhsso", OperatorVersion := "8.0.1", Version := "7.3", Host := "sso.example",
    Type_ := "", Mobile := false, Status := PhaseCompleted }

/-- An installation with two stages; `rhsso` is a product of the second. -/
def stagedInstallation : Installation :=
  { Status :=
    { Stages :=
        [ ("bootstrap", some { Name := "bootstrap", Phase := PhaseCompleted, Products := [] }),
          ("authentication",
            some { Name := "authentication", Phase := PhaseCompleted,
                   Products := [("rhsso", some rhssoStatus)] }) ]
      LastError := "" } }

/-- The iteration order that visits the stages in reverse. -/
def reverseStages : MapOrder (Option InstallationStageStatus) :=
  ⟨List.reverse, fun l => List.reverse_perm l⟩

/-- The iteration order that visits the stages as they are listed. -/
def listedStages : MapOrder (Option InstallationStageStatus) :=
  ⟨id, fun l => List.Perm.refl l⟩

/-- An installation as decoded from a status whose `stages` object maps `bootstrap` to
`null`: the `bootstrap` entry of `Stages` holds the nil pointer. -/
def nilStageInstallation : Installation :=
  { Status :=
    { Stages :=
        [ ("bootstrap", none),
          ("authentication",
            some { Name := "authentication", Phase := PhaseCompleted,
                   Products := [("rhsso", some rhssoStatus)] }) ]
      LastError := "" } }

/-- An installation whose only stage holds the nil pointer. -/
def onlyNilStageInstallation : Installation :=
  { Status := { Stages := [("bootstrap", none)], LastError := "" } }

/-- An installation whose `authentication` stage holds a nil entry for `rhsso`. -/
def nilProductInstallation : Installation :=
  { Status :=
    { Stages :=
        [ ("authentication",
            some { Name := "authentication", Phase := PhaseCompleted,
                   Products := [("rhsso", none)] }) ]
      LastError := "" } }

/-- The sample reconciler with a YAML converter that rejects every input. -/
def yamlBrokenReconciler : Reconciler :=
  { sampleReconciler with
    yamlToJSON := fun _ => .error (Errorf "yaml: did not find expected key") }

/-- The cached templates of `templatesWorld`: the three console templates. -/
def consoleData : List (String × String) :=
  [ ("fuse-console-cluster-os4.json", "fuse-console-cluster"),
    ("fuse-console-namespace-os4.json", "fuse-console-namespace"),
    ("fuse-apicurito.yml", "apicurito: [") ]

/-- A cluster in which the templates config map holds the three console templates and no
template resource exists yet. -/
def templatesWorld : World :=
  { emptyWorld with
    configMaps := fun k =>
      if k = ("fuse-on-openshift-templates", "integreatly") then some consoleData else none }

/-- A call on the shared registry object: its lookup or its `Update`. -/
def Event.isRegistryCall : Event → Bool
  | .get kind name ns => decide (kind = "Config" ∧ name = "cluster" ∧ ns = "")
  | .update (.samplesConfig _) => true
  | _ => false

/-- A call of `createResourceIfNotExist`: a lookup, or the `Create` or `Delete` of a
manifest. -/
def Event.isResourceCall : Event → Bool
  | .get _ _ _ => true
  | .create (.resource _) => true
  | .delete (.resource _) => true
  | _ => false

/-- The `Create` or `Delete` of a manifest. -/
def Event.isResourceApply : Event → Bool
  | .create (.resource _) => true
  | .delete (.resource _) => true
  | _ => false

/-- The shape of the events of one batch: reads of the templates config map, then the
calls on the shared registry object, then the calls that apply the resources. -/
def declaredFirst (r : Reconciler) (evs : List Event) : Prop :=
  ∃ reads reg res, evs = reads ++ reg ++ res ∧
    (∀ e ∈ reads, e = cacheLookup r) ∧
    (∀ e ∈ reg, e.isRegistryCall = true) ∧
    (∀ e ∈ res, e.isResourceCall = true)

/-- No `Create` or `Delete` of a manifest comes before an `Update` in `evs`. -/
def noApplyBeforeUpdate (evs : List Event) : Prop :=
  evs.Pairwise (fun a u => ¬ (a.isResourceApply = true ∧ u.isUpdate = true))

/-- An environment in which every `Update` is refused. -/
def updateRefusedEnv : Env :=
  { quietEnv with fault := fun _ ev => if ev.isUpdate then some "forbidden" else none }

/-- An environment in which every `Create` is refused. -/
def createRefusedEnv : Env :=
  { quietEnv with fault := fun _ ev => if ev.isCreate then some "forbidden" else none }

/-- A call of `createResourceIfNotExist` for the manifest `obj`: its lookup, its `Create`
or its `Delete`. -/
def Event.appliesTo (e : Event) (obj : Resource) : Prop :=
  e = Event.get obj.Kind obj.Name obj.Namespace ∨ e = Event.create (.resource obj) ∨
    e = Event.delete (.resource obj)

/-- The calls of one registry declaration of `names` under category `key` on the cluster
`w`: the lookup of the registry object alone, or the lookup followed by the `Update` that
writes the registry found in `w` with `names` added to the list of `key`. -/
def declarationCalls (key : String) (names : List String) (w : World) (reg : List Event) :
    Prop :=
  reg = [Event.get "Config" "cluster" ""] ∨
  ∃ spec, w.samples "cluster" = some spec ∧
    reg = [Event.get "Config" "cluster" "",
      Event.update (.samplesConfig (skipNames key names ⟨"cluster", spec⟩))]

/-- The events `evs` of a batch of category `key` that has loaded the manifests `M` on the
cluster `w`: `reads` lookups of the templates config map, then the registry declaration of
the names of `M` under `key`, then calls of `createResourceIfNotExist` for manifests of
`M`.  A resource call is issued only when the declaration returned no error (`declared`),
hence, when the registry exists, after its `Update`; and a batch that completes
(`completed`) has looked up every manifest of `M` after the declaration. -/
def declaredThenApplied (r : Reconciler) (env : Env) (key : String)
    (M : List (String × Resource)) (w : World) (reads : Nat) (declared completed : Prop)
    (evs : List Event) : Prop :=
  ∃ reg res, evs = List.replicate reads (cacheLookup r) ++ reg ++ res ∧
    declarationCalls key (getKeysFromMap env M) w reg ∧
    (∀ e ∈ res, ∃ p ∈ M, e.appliesTo p.2) ∧
    (res ≠ [] → declared) ∧
    (res ≠ [] → ∀ spec, w.samples "cluster" = some spec →
      reg = [Event.get "Config" "cluster" "",
        Event.update (.samplesConfig
          (skipNames key (getKeysFromMap env M) ⟨"cluster", spec⟩))]) ∧
    (completed → ∀ p ∈ M, Event.get p.2.Kind p.2.Name p.2.Namespace ∈ res)

/-! ## Cache: `reconcileConfigMap` -/

theorem eventsSince_append (w w' : World) (evs : List Event) (h : w'.log = w.log ++ evs) :
    eventsSince w w' = evs := by
  simp [eventsSince, h]

theorem getFileContentFromURL_world (r : Reconciler) (w : World) (url : String) :
    (getFileContentFromURL r w url).2 = logCall w (Event.httpGet url) := by
  unfold getFileContentFromURL
  cases r.httpClient url with
  | error e => rfl
  | ok resp => by_cases h : resp.StatusCode = 200 <;> simp [h]

theorem fetchFiles_world (r : Reconciler) (l : List String) :
    ∀ (data : List (String × String)) (w : World),
      ∃ evs, (fetchFiles r l data w).2.log = w.log ++ evs ∧
        (∀ e ∈ evs, e.isFetch = true) ∧ sameStore w (fetchFiles r l data w).2 := by
  induction l with
  | nil => intro data w; exact ⟨[], by simp [fetchFiles], by simp, rfl, rfl, rfl⟩
  | cons fn rest ih =>
    intro data w
    have hw := getFileContentFromURL_world r w (fileURL r fn)
    unfold fetchFiles
    rcases hres : getFileContentFromURL r w (fileURL r fn) with ⟨res, w'⟩
    rw [hres] at hw
    simp only at hw
    subst hw
    cases res with
    | error err => exact ⟨[Event.httpGet (fileURL r fn)], rfl, by simp [Event.isFetch], rfl, rfl, rfl⟩
    | ok content =>
      cases content with
      | error err =>
        exact ⟨[Event.httpGet (fileURL r fn)], rfl, by simp [Event.isFetch], rfl, rfl, rfl⟩
      | ok body =>
        obtain ⟨evs, h1, h2, h3⟩ := ih (GoMap.set data (TrimPrefix fn "quickstarts/") body)
          (logCall w (Event.httpGet (fileURL r fn)))
        refine ⟨Event.httpGet (fileURL r fn) :: evs, ?_, ?_, ?_⟩
        · rw [h1]; simp [logCall]
        · intro e he
          rcases List.mem_cons.mp he with rfl | he
          · rfl
          · exact h2 e he
        · exact h3



theorem fetchFiles_fail (r : Reconciler) (l : List String) :
    ∀ (data : List (String × String)) (w : World),
      (∃ fn ∈ l, fetchFails r fn) → ∃ e, (fetchFiles r l data w).1 = .error e := by
  induction l with
  | nil => intro data w h; obtain ⟨fn, hfn, _⟩ := h; cases hfn
  | cons fn rest ih =>
    intro data w h
    unfold fetchFiles getFileContentFromURL
    cases hget : r.httpClient (fileURL r fn) with
    | error e => exact ⟨_, rfl⟩
    | ok resp =>
      by_cases hst : resp.StatusCode = 200
      · simp only [hst, if_true]
        cases hbody : resp.Body with
        | error e => exact ⟨_, rfl⟩
        | ok body =>
          simp only
          apply ih
          obtain ⟨k, hk, hfail⟩ := h
          rcases List.mem_cons.mp hk with rfl | hk
          · exfalso
            rcases hfail with ⟨e, he⟩ | ⟨resp', hr, hs⟩ | ⟨resp', e, hr, hb⟩
            · rw [hget] at he; cases he
            · rw [hget] at hr; cases hr; exact hs hst
            · rw [hget] at hr; cases hr; rw [hbody] at hb; cases hb
          · exact ⟨k, hk, hfail⟩
      · simp only [hst, if_false]
        exact ⟨_, rfl⟩

theorem getTemplatesConfigMap_world (r : Reconciler) (env : Env) (w : World) :
    (getTemplatesConfigMap r env w).2 =
      logCall w (Event.get "ConfigMap" templatesConfigMapName r.OperatorNamespace) := by
  unfold getTemplatesConfigMap GetConfigMap
  simp only
  cases env.fault w.log (Event.get "ConfigMap" templatesConfigMapName r.OperatorNamespace) with
  | some m => rfl
  | none =>
    cases w.configMaps (templatesConfigMapName, r.OperatorNamespace) with
    | none => rfl
    | some d => rfl

/-- C1 (cache atomicity).  When the templates config map is absent and the fetch of at
least one of the 25 requested files fails, `reconcileConfigMap` returns `PhaseFailed` with a
non-nil error, issues no `Create` (nor any other mutating call), and leaves every store as
it was, so the config map is still absent afterwards. -/
theorem C1_cache_atomicity (r : Reconciler) (env : Env) (w : World) (k : String)
    (hAbsent : w.configMaps (templatesConfigMapName, r.OperatorNamespace) = none)
    (hk : k ∈ fileNames) (hFail : fetchFails r k) :
    fileNames.length = 25 ∧
    (reconcileConfigMap r env w).1.1 = PhaseFailed ∧
    (reconcileConfigMap r env w).1.2 ≠ none ∧
    (∀ e ∈ eventsSince w (reconcileConfigMap r env w).2, e.isCreate = false) ∧
    (∀ e ∈ eventsSince w (reconcileConfigMap r env w).2, e.isMutating = false) ∧
    sameStore w (reconcileConfigMap r env w).2 ∧
    (reconcileConfigMap r env w).2.configMaps (templatesConfigMapName, r.OperatorNamespace)
      = none := by
  have hw := getTemplatesConfigMap_world r env w
  obtain ⟨e, he⟩ := fetchFiles_fail r fileNames []
    (logCall w (Event.get "ConfigMap" templatesConfigMapName r.OperatorNamespace)) ⟨k, hk, hFail⟩
  obtain ⟨evs, hlog, hfetch, hs1, hs2, hs3⟩ := fetchFiles_world r fileNames []
    (logCall w (Event.get "ConfigMap" templatesConfigMapName r.OperatorNamespace))
  have key : ∃ err evs', (reconcileConfigMap r env w).1 = (PhaseFailed, some err) ∧
      (reconcileConfigMap r env w).2.log = w.log ++ evs' ∧
      (∀ e ∈ evs', e.isMutating = false) ∧ sameStore w (reconcileConfigMap r env w).2 := by
    unfold reconcileConfigMap
    rcases hres : getTemplatesConfigMap r env w with ⟨⟨cfgMap, oerr⟩, w1⟩
    rw [hres] at hw
    simp only at hw
    subst hw
    cases oerr with
    | none =>
      exfalso
      unfold getTemplatesConfigMap GetConfigMap at hres
      simp only [hAbsent] at hres
      cases hf : env.fault w.log (Event.get "ConfigMap" templatesConfigMapName r.OperatorNamespace)
        <;> rw [hf] at hres <;> simp at hres
    | some err =>
      simp only
      by_cases hnf : err.notFound = true
      · simp only [hnf, Bool.not_true, Bool.false_eq_true, if_false]
        rcases hff : fetchFiles r fileNames []
          (logCall w (Event.get "ConfigMap" templatesConfigMapName r.OperatorNamespace))
          with ⟨res, w2⟩
        rw [hff] at he hlog hs1 hs2 hs3
        simp only at he hlog hs1 hs2 hs3
        subst he
        refine ⟨e, Event.get "ConfigMap" templatesConfigMapName r.OperatorNamespace :: evs,
          rfl, ?_, ?_, ?_⟩
        · simp only [hlog, logCall]; simp
        · intro ev hev
          rcases List.mem_cons.mp hev with rfl | hev
          · rfl
          · have := hfetch ev hev
            cases ev <;> simp_all [Event.isFetch, Event.isMutating, Event.isCreate,
              Event.isDelete, Event.isUpdate]
        · exact ⟨hs1, hs2, hs3⟩
      · simp only [hnf, Bool.not_false, if_true]
        exact ⟨_, [Event.get "ConfigMap" templatesConfigMapName r.OperatorNamespace], rfl, rfl,
          by simp [Event.isMutating, Event.isCreate, Event.isDelete, Event.isUpdate],
          rfl, rfl, rfl⟩
  obtain ⟨err, evs', h1, h2, h3, h4⟩ := key
  rw [eventsSince_append w _ evs' h2]
  refine ⟨rfl, by rw [h1], by rw [h1]; simp, ?_, h3, h4, ?_⟩
  · intro e he
    have := h3 e he
    cases e <;> simp_all [Event.isMutating, Event.isCreate]
  · rw [h4.1]; exact hAbsent


/-- Witness for C1: an empty cluster and a remote source that answers 500. -/
theorem C1_cache_atomicity_witness :
    emptyWorld.configMaps (templatesConfigMapName, offlineReconciler.OperatorNamespace) = none ∧
    imageStreamFileName ∈ fileNames ∧
    (reconcileConfigMap offlineReconciler quietEnv emptyWorld).1.1 = PhaseFailed ∧
    (reconcileConfigMap offlineReconciler quietEnv emptyWorld).2.configMaps
      (templatesConfigMapName, offlineReconciler.OperatorNamespace) = none :=
  have h := C1_cache_atomicity offlineReconciler quietEnv emptyWorld imageStreamFileName rfl
    (by decide) (Or.inr (Or.inl ⟨{ StatusCode := 500, Body := .ok "" }, rfl, by decide⟩))
  ⟨rfl, by decide, h.2.1, h.2.2.2.2.2.2⟩

/-! ## Ownership-safe apply: `createResourceIfNotExist` -/

theorem UnstructuredFromRuntimeObject_ok (r : Reconciler) (res : Resource)
    (h : r.unstructuredErr res = none) : UnstructuredFromRuntimeObject r res = .ok res := by
  simp [UnstructuredFromRuntimeObject, h]

theorem GetResource_found (env : Env) (w : World) (u : Resource) (labels : List (String × String))
    (body : String) (hFault : env.fault w.log (Event.get u.Kind u.Name u.Namespace) = none)
    (hLive : w.resources (resKey u) = some (labels, body)) :
    GetResource env w u =
      (.ok { u with Labels := labels, Body := body },
        logCall w (Event.get u.Kind u.Name u.Namespace)) := by
  simp [GetResource, hFault, hLive]

/-- C2 as amended (reclaim).  For a resource whose lookup finds a live object without the
label `integreatly=true`, `createResourceIfNotExist` issues one `Delete` for it.  If that
`Delete` fails it returns an error and issues nothing more; if it succeeds exactly one
`Create` of the manifest follows, and when the `Create` succeeds too the call returns no
error and the store holds the content of the manifest under its identity. -/
theorem C2_reclaim (r : Reconciler) (env : Env) (w : World) (resource : Resource)
    (labels : List (String × String)) (body : String)
    (hConv : r.unstructuredErr resource = none)
    (hFault : env.fault w.log (Event.get resource.Kind resource.Name resource.Namespace) = none)
    (hLive : w.resources (resKey resource) = some (labels, body))
    (hLabel : resourceHasLabel labels "integreatly" "true" = false) :
    let w1 := logCall w (Event.get resource.Kind resource.Name resource.Namespace)
    let del := DeleteResource env w1 resource
    let cre := CreateResource env del.2 resource
    let out := createResourceIfNotExist r env w resource
    (del.1 ≠ none →
      out.1 ≠ none ∧ sameStore w out.2 ∧
      eventsSince w out.2 =
        [Event.get resource.Kind resource.Name resource.Namespace,
         Event.delete (.resource resource)]) ∧
    (del.1 = none →
      eventsSince w out.2 =
        [Event.get resource.Kind resource.Name resource.Namespace,
         Event.delete (.resource resource), Event.create (.resource resource)] ∧
      (cre.1 = none →
        out.1 = none ∧
        out.2.resources (resKey resource) = some (resource.Labels, resource.Body) ∧
        (∀ k, k ≠ resKey resource → out.2.resources k = w.resources k) ∧
        out.2.configMaps = w.configMaps ∧ out.2.samples = w.samples) ∧
      (cre.1 ≠ none → out.1 ≠ none ∧ out.2.resources (resKey resource) = none)) := by
  intro w1 del cre out
  have hout : out = (match del with
      | (some e, w2) => (some (Wrap e "failed to delete resource"), w2)
      | (none, w2) =>
        match CreateResource env w2 resource with
        | (some e, w3) => (some (Wrap e "failed to create resource"), w3)
        | (none, w3) => (none, w3)) := by
    simp only [out, createResourceIfNotExist, UnstructuredFromRuntimeObject_ok r resource hConv,
      GetResource_found env w resource labels body hFault hLive, hLabel]
    rfl
  have hw1 : w1.resources (resKey resource) = some (labels, body) := hLive
  cases hdf : env.fault w1.log (Event.delete (.resource resource)) with
  | some m =>
    have hdel : del = (some (Errorf m), logCall w1 (Event.delete (.resource resource))) := by
      simp [del, DeleteResource, hdf]
    rw [hdel] at hout
    simp only at hout
    refine ⟨fun _ => ?_, fun h => ?_⟩
    · rw [hout]
      refine ⟨by simp, ⟨rfl, rfl, rfl⟩, ?_⟩
      apply eventsSince_append
      simp [logCall, w1]
    · rw [hdel] at h; simp at h
  | none =>
    have hdel : del = (none, { logCall w1 (Event.delete (.resource resource)) with
        resources := Function.update w1.resources (resKey resource) none }) := by
      simp [del, DeleteResource, hdf, hw1]
    refine ⟨fun h => ?_, fun _ => ?_⟩
    · rw [hdel] at h; simp at h
    · have hcre : cre = CreateResource env { logCall w1 (Event.delete (.resource resource)) with
          resources := Function.update w1.resources (resKey resource) none } resource := by
        simp only [cre, hdel]
      rw [hdel] at hout
      simp only at hout
      rw [← hcre] at hout
      cases hcf : env.fault (w1.log ++ [Event.delete (.resource resource)])
          (Event.create (.resource resource)) with
      | some m =>
        have hc : cre = (some (Errorf m),
            logCall { logCall w1 (Event.delete (.resource resource)) with
              resources := Function.update w1.resources (resKey resource) none }
              (Event.create (.resource resource))) := by
          rw [hcre]; simp [CreateResource, logCall, hcf]
        rw [hc] at hout
        simp only at hout
        refine ⟨?_, fun h => ?_, fun _ => ?_⟩
        · rw [hout]
          apply eventsSince_append
          simp [logCall, w1]
        · rw [hc] at h; simp at h
        · rw [hout]
          exact ⟨by simp, by simp [logCall]⟩
      | none =>
        have hc : cre = (none,
            { logCall { logCall w1 (Event.delete (.resource resource)) with
                resources := Function.update w1.resources (resKey resource) none }
                (Event.create (.resource resource)) with
              resources := Function.update (Function.update w1.resources (resKey resource) none)
                (resKey resource) (some (resource.Labels, resource.Body)) }) := by
          rw [hcre]; simp [CreateResource, logCall, hcf]
        rw [hc] at hout
        simp only at hout
        refine ⟨?_, fun _ => ?_, fun h => ?_⟩
        · rw [hout]
          apply eventsSince_append
          simp [logCall, w1]
        · rw [hout]
          refine ⟨rfl, by simp, ?_, rfl, rfl⟩
          intro k hk
          simp [Function.update, hk, w1, logCall]
        · rw [hc] at h; simp at h

/-- Witness for C2: `foo` exists without the label; no call is refused. -/
theorem C2_reclaim_witness :
    fooUnownedWorld.resources (resKey fooManifest) = some ([], "sample") ∧
    (createResourceIfNotExist sampleReconciler quietEnv fooUnownedWorld fooManifest).1 = none ∧
    (createResourceIfNotExist sampleReconciler quietEnv fooUnownedWorld fooManifest).2.resources
      (resKey fooManifest) = some (fooManifest.Labels, fooManifest.Body) :=
  have h := C2_reclaim sampleReconciler quietEnv fooUnownedWorld fooManifest [] "sample"
    rfl rfl (by decide) (by decide)
  ⟨by decide, ((h.2 rfl).2.1 rfl).1, ((h.2 rfl).2.1 rfl).2.1⟩

/-- Counterexample to C2 as stated: `foo` exists without the label and the `Delete` is
refused; the call issues the `Delete` and no `Create`, and returns an error. -/
theorem C2_reclaim_counterexample :
    fooUnownedWorld.resources (resKey fooManifest) = some ([], "sample") ∧
    resourceHasLabel [] "integreatly" "true" = false ∧
    (eventsSince fooUnownedWorld
      (createResourceIfNotExist sampleReconciler deleteRefusedEnv fooUnownedWorld fooManifest).2).filter
        Event.isMutating = [Event.delete (.resource fooManifest)] ∧
    ¬ ((eventsSince fooUnownedWorld
      (createResourceIfNotExist sampleReconciler deleteRefusedEnv fooUnownedWorld fooManifest).2).filter
        Event.isMutating
        = [Event.delete (.resource fooManifest), Event.create (.resource fooManifest)]) := by
  decide

/-- C3 (ownership stability).  For a resource whose lookup finds a live object carrying
the label `integreatly=true`, `createResourceIfNotExist` returns no error, issues the
lookup and no `Create`, `Delete` or `Update`, and leaves every store unchanged. -/
theorem C3_ownership_stability (r : Reconciler) (env : Env) (w : World) (resource : Resource)
    (labels : List (String × String)) (body : String)
    (hConv : r.unstructuredErr resource = none)
    (hFault : env.fault w.log (Event.get resource.Kind resource.Name resource.Namespace) = none)
    (hLive : w.resources (resKey resource) = some (labels, body))
    (hLabel : resourceHasLabel labels "integreatly" "true" = true) :
    (createResourceIfNotExist r env w resource).1 = none ∧
    eventsSince w (createResourceIfNotExist r env w resource).2 =
      [Event.get resource.Kind resource.Name resource.Namespace] ∧
    (∀ e ∈ eventsSince w (createResourceIfNotExist r env w resource).2, e.isMutating = false) ∧
    sameStore w (createResourceIfNotExist r env w resource).2 := by
  have hout : createResourceIfNotExist r env w resource =
      (none, logCall w (Event.get resource.Kind resource.Name resource.Namespace)) := by
    simp only [createResourceIfNotExist, UnstructuredFromRuntimeObject_ok r resource hConv,
      GetResource_found env w resource labels body hFault hLive, hLabel]
    rfl
  rw [hout]
  have hev : eventsSince w (logCall w (Event.get resource.Kind resource.Name resource.Namespace))
      = [Event.get resource.Kind resource.Name resource.Namespace] :=
    eventsSince_append _ _ _ rfl
  rw [hev]
  exact ⟨rfl, rfl, by simp [Event.isMutating, Event.isCreate, Event.isDelete, Event.isUpdate],
    rfl, rfl, rfl⟩

/-- Witness for C3: `foo` exists with the label. -/
theorem C3_ownership_stability_witness :
    fooOwnedWorld.resources (resKey fooManifest) = some ([("integreatly", "true")], "mine") ∧
    (createResourceIfNotExist sampleReconciler quietEnv fooOwnedWorld fooManifest).1 = none ∧
    sameStore fooOwnedWorld
      (createResourceIfNotExist sampleReconciler quietEnv fooOwnedWorld fooManifest).2 :=
  have h := C3_ownership_stability sampleReconciler quietEnv fooOwnedWorld fooManifest
    [("integreatly", "true")] "mine" rfl rfl (by decide) (by decide)
  ⟨by decide, h.1, h.2.2.2⟩

/-! ## Shared registry: `updateClusterSampleCR` -/

theorem contains_eq (l : List String) (v : String) : contains l v = decide (v ∈ l) := by
  induction l with
  | nil => simp [contains]
  | cons a rest ih =>
    unfold contains
    by_cases h : a = v
    · simp [h]
    · simp [h, ih, Ne.symm h]

theorem mem_firstOccurrences (l : List String) (v : String) :
    v ∈ firstOccurrences l ↔ v ∈ l := by
  induction l with
  | nil => simp [firstOccurrences]
  | cons a rest ih =>
    simp only [firstOccurrences, List.mem_cons, List.mem_filter, ih]
    by_cases h : v = a <;> simp [h]

theorem nodup_firstOccurrences (l : List String) : (firstOccurrences l).Nodup := by
  induction l with
  | nil => simp [firstOccurrences]
  | cons a rest ih =>
    simp only [firstOccurrences, List.nodup_cons]
    exact ⟨by simp [List.mem_filter], ih.filter _⟩

theorem firstOccurrences_filter (p : String → Bool) (l : List String) :
    firstOccurrences (l.filter p) = (firstOccurrences l).filter p := by
  induction l with
  | nil => simp [firstOccurrences]
  | cons a rest ih =>
    by_cases h : p a = true
    · simp only [List.filter_cons, h, if_true, firstOccurrences, ih, List.filter_filter]
      congr 1
      apply List.filter_congr
      intro x _
      exact Bool.and_comm _ _
    · simp only [List.filter_cons, h, firstOccurrences, ih, List.filter_filter]
      simp only [Bool.false_eq_true, if_false]
      rw [ih]
      apply List.filter_congr
      intro x _
      by_cases hx : x = a
      · subst hx; simp [h]
      · simp [hx]

theorem appendMissing_eq (value : List String) :
    ∀ list : List String,
      appendMissing list value =
        list ++ firstOccurrences (value.filter (fun v => decide (v ∉ list))) := by
  induction value with
  | nil => intro list; simp [appendMissing, firstOccurrences]
  | cons v rest ih =>
    intro list
    unfold appendMissing
    rw [contains_eq]
    by_cases h : v ∈ list
    · simp only [h, decide_True, Bool.not_true, Bool.false_eq_true, if_false, ih]
      simp [List.filter_cons, h]
    · simp only [h, decide_False, Bool.not_false, if_true, ih]
      simp only [List.filter_cons, h, not_false_eq_true, decide_True, if_true, firstOccurrences,
        List.append_assoc, List.singleton_append]
      congr 2
      rw [← firstOccurrences_filter, List.filter_filter]
      congr 1
      apply List.filter_congr
      intro x _
      by_cases hx : x = v <;> simp [hx, h]

theorem count_appendMissing (n : String) (old value : List String) :
    (appendMissing old value).count n =
      old.count n + (if n ∈ value ∧ n ∉ old then 1 else 0) := by
  rw [appendMissing_eq, List.count_append]
  congr 1
  by_cases h : n ∈ value ∧ n ∉ old
  · rw [if_pos h]
    apply List.count_eq_one_of_mem (nodup_firstOccurrences _)
    simpa [mem_firstOccurrences, List.mem_filter] using h
  · rw [if_neg h]
    apply List.count_eq_zero_of_not_mem
    simpa [mem_firstOccurrences, List.mem_filter] using h

theorem skipNames_Name (key : String) (value : List String) (cr : SamplesConfig) :
    (skipNames key value cr).Name = cr.Name := by
  unfold skipNames
  by_cases h1 : key = "SkippedImagestreams" <;> by_cases h2 : key = "SkippedTemplates" <;>
    simp [h1, h2]

theorem skipped_skipNames (key : String) (value : List String) (cr : SamplesConfig)
    (hKey : key = "SkippedImagestreams" ∨ key = "SkippedTemplates") :
    skipped key (skipNames key value cr).Spec = appendMissing (skipped key cr.Spec) value := by
  rcases hKey with rfl | rfl <;> simp [skipped, skipNames]

theorem skipped_skipNames_other (key key' : String) (value : List String) (cr : SamplesConfig)
    (h : key' ≠ key) : skipped key' (skipNames key value cr).Spec = skipped key' cr.Spec := by
  unfold skipped skipNames
  by_cases h1 : key = "SkippedImagestreams"
  · subst h1
    simp [h]
  · by_cases h2 : key = "SkippedTemplates"
    · subst h2
      simp [h]
    · simp [h1, h2]

theorem updateClusterSampleCR_found (env : Env) (w : World) (key : String) (value : List String)
    (spec : ConfigSpec)
    (hFault : env.fault w.log (Event.get "Config" "cluster" "") = none)
    (hLive : w.samples "cluster" = some spec) :
    updateClusterSampleCR env w key value =
      match env.fault (w.log ++ [Event.get "Config" "cluster" ""])
          (Event.update (.samplesConfig (skipNames key value ⟨"cluster", spec⟩))) with
      | some m =>
        (some (Errorf m),
          { w with log := w.log ++ [Event.get "Config" "cluster" "",
              Event.update (.samplesConfig (skipNames key value ⟨"cluster", spec⟩))] })
      | none =>
        (none,
          { w with
            log := w.log ++ [Event.get "Config" "cluster" "",
              Event.update (.samplesConfig (skipNames key value ⟨"cluster", spec⟩))]
            samples := Function.update w.samples "cluster"
              (some (skipNames key value ⟨"cluster", spec⟩).Spec) }) := by
  unfold updateClusterSampleCR GetSamplesConfig
  simp only [hFault, hLive]
  unfold UpdateSamplesConfig
  simp only [logCall, skipNames_Name]
  cases env.fault (w.log ++ [Event.get "Config" "cluster" ""])
      (Event.update (.samplesConfig (skipNames key value ⟨"cluster", spec⟩))) with
  | some m => simp
  | none => simp [hLive]

theorem updateClusterSampleCR_quiet (env : Env) (w : World) (key : String) (value : List String)
    (spec : ConfigSpec) (hNoFault : ∀ log ev, env.fault log ev = none)
    (hLive : w.samples "cluster" = some spec) :
    updateClusterSampleCR env w key value =
      (none,
        { w with
          log := w.log ++ [Event.get "Config" "cluster" "",
            Event.update (.samplesConfig (skipNames key value ⟨"cluster", spec⟩))]
          samples := Function.update w.samples "cluster"
            (some (skipNames key value ⟨"cluster", spec⟩).Spec) }) := by
  rw [updateClusterSampleCR_found env w key value spec (hNoFault _ _) hLive, hNoFault]

theorem updateClusterSampleCR_outcome (env : Env) (w : World) (key : String)
    (value : List String) (spec : ConfigSpec)
    (hGet : env.fault w.log (Event.get "Config" "cluster" "") = none)
    (hLive : w.samples "cluster" = some spec) :
    eventsSince w (updateClusterSampleCR env w key value).2 =
      [Event.get "Config" "cluster" "",
       Event.update (.samplesConfig (skipNames key value ⟨"cluster", spec⟩))] ∧
    (((updateClusterSampleCR env w key value).1 = none ∧
        (updateClusterSampleCR env w key value).2.samples "cluster"
          = some (skipNames key value ⟨"cluster", spec⟩).Spec) ∨
      ((updateClusterSampleCR env w key value).1 ≠ none ∧
        (updateClusterSampleCR env w key value).2.samples "cluster" = some spec)) := by
  rw [updateClusterSampleCR_found env w key value spec hGet hLive]
  cases env.fault (w.log ++ [Event.get "Config" "cluster" ""])
      (Event.update (.samplesConfig (skipNames key value ⟨"cluster", spec⟩))) with
  | some m =>
    exact ⟨eventsSince_append w _ _ rfl, Or.inr ⟨by simp, hLive⟩⟩
  | none =>
    exact ⟨eventsSince_append w _ _ rfl, Or.inl ⟨rfl, by simp⟩⟩

theorem count_skipped_skipNames (key n : String) (value : List String) (cr : SamplesConfig)
    (hKey : key = "SkippedImagestreams" ∨ key = "SkippedTemplates") (hn : n ∈ value)
    (hOld : n ∉ skipped key cr.Spec ∨ (skipped key cr.Spec).count n = 1) :
    (skipped key (skipNames key value cr).Spec).count n = 1 := by
  rw [skipped_skipNames key value cr hKey, count_appendMissing]
  rcases hOld with hnew | hone
  · rw [List.count_eq_zero_of_not_mem hnew, if_pos ⟨hn, hnew⟩]
  · have hmem : n ∈ skipped key cr.Spec :=
      List.count_pos_iff.mp (by rw [hone]; exact Nat.one_pos)
    rw [hone, if_neg (fun h => h.2 hmem)]

/-- C4 as amended (registry dedup).  Let the lookup of the shared registry object never be
refused and find the object, and let `n` be a name not yet in the list of category `key`.
One `updateClusterSampleCR` whose name list contains `n` (however often) issues one
`Update` whose list holds `n` exactly once; the stored list holds `n` exactly once when
that `Update` is accepted and is unchanged when it is refused.  After two successive calls
whose name lists both contain `n`, the second `Update` again carries `n` exactly once, the
stored list holds `n` exactly once when at least one of the two calls succeeded, and is
unchanged when both were refused. -/
theorem C4_registry_dedup (env : Env) (w : World) (key n : String) (spec : ConfigSpec)
    (hGet : ∀ log, env.fault log (Event.get "Config" "cluster" "") = none)
    (hLive : w.samples "cluster" = some spec)
    (hKey : key = "SkippedImagestreams" ∨ key = "SkippedTemplates")
    (hNew : n ∉ skipped key spec) :
    (∀ value : List String, n ∈ value →
      (∃ payload : SamplesConfig,
        eventsSince w (updateClusterSampleCR env w key value).2 =
          [Event.get "Config" "cluster" "", Event.update (.samplesConfig payload)] ∧
        (skipped key payload.Spec).count n = 1) ∧
      ((updateClusterSampleCR env w key value).1 = none →
        ∃ spec', (updateClusterSampleCR env w key value).2.samples "cluster" = some spec' ∧
          (skipped key spec').count n = 1) ∧
      ((updateClusterSampleCR env w key value).1 ≠ none →
        (updateClusterSampleCR env w key value).2.samples "cluster" = some spec)) ∧
    (∀ v1 v2 : List String, n ∈ v1 → n ∈ v2 →
      (∃ payload : SamplesConfig,
        eventsSince (updateClusterSampleCR env w key v1).2
          (updateClusterSampleCR env (updateClusterSampleCR env w key v1).2 key v2).2 =
          [Event.get "Config" "cluster" "", Event.update (.samplesConfig payload)] ∧
        (skipped key payload.Spec).count n = 1) ∧
      ((updateClusterSampleCR env w key v1).1 = none ∨
          (updateClusterSampleCR env (updateClusterSampleCR env w key v1).2 key v2).1 = none →
        ∃ spec',
          (updateClusterSampleCR env (updateClusterSampleCR env w key v1).2 key v2).2.samples
            "cluster" = some spec' ∧
          (skipped key spec').count n = 1) ∧
      ((updateClusterSampleCR env w key v1).1 ≠ none →
        (updateClusterSampleCR env (updateClusterSampleCR env w key v1).2 key v2).1 ≠ none →
        (updateClusterSampleCR env (updateClusterSampleCR env w key v1).2 key v2).2.samples
          "cluster" = some spec)) := by
  have one : ∀ value : List String, n ∈ value →
      (skipped key (skipNames key value ⟨"cluster", spec⟩).Spec).count n = 1 :=
    fun value hn => count_skipped_skipNames key n value _ hKey hn (Or.inl hNew)
  constructor
  · intro value hn
    obtain ⟨hev, hcase⟩ := updateClusterSampleCR_outcome env w key value spec (hGet _) hLive
    refine ⟨⟨_, hev, one value hn⟩, fun hok => ?_, fun herr => ?_⟩
    · rcases hcase with ⟨_, hs⟩ | ⟨hne, _⟩
      · exact ⟨_, hs, one value hn⟩
      · exact (hne hok).elim
    · rcases hcase with ⟨hnone, _⟩ | ⟨_, hs⟩
      · exact (herr hnone).elim
      · exact hs
  · intro v1 v2 hn1 hn2
    obtain ⟨-, hcase1⟩ := updateClusterSampleCR_outcome env w key v1 spec (hGet _) hLive
    rcases hcase1 with ⟨hok1, hs1⟩ | ⟨herr1, hs1⟩
    · -- the first call was accepted: the list already holds `n` once
      have hcount2 : (skipped key (skipNames key v2
          ⟨"cluster", (skipNames key v1 ⟨"cluster", spec⟩).Spec⟩).Spec).count n = 1 :=
        count_skipped_skipNames key n v2 _ hKey hn2 (Or.inr (one v1 hn1))
      obtain ⟨hev2, hcase2⟩ := updateClusterSampleCR_outcome env
        (updateClusterSampleCR env w key v1).2 key v2 _ (hGet _) hs1
      refine ⟨⟨_, hev2, hcount2⟩, fun _ => ?_, fun herr1 => (herr1 hok1).elim⟩
      rcases hcase2 with ⟨_, hs2⟩ | ⟨_, hs2⟩
      · exact ⟨_, hs2, hcount2⟩
      · exact ⟨_, hs2, one v1 hn1⟩
    · -- the first call was refused: the second starts from the old list
      obtain ⟨hev2, hcase2⟩ := updateClusterSampleCR_outcome env
        (updateClusterSampleCR env w key v1).2 key v2 spec (hGet _) hs1
      refine ⟨⟨_, hev2, one v2 hn2⟩, fun hor => ?_, fun _ herr2 => ?_⟩
      · rcases hcase2 with ⟨_, hs2⟩ | ⟨herr2, _⟩
        · exact ⟨_, hs2, one v2 hn2⟩
        · rcases hor with h | h
          · exact (herr1 h).elim
          · exact (herr2 h).elim
      · rcases hcase2 with ⟨hok2, _⟩ | ⟨_, hs2⟩
        · exact (herr2 hok2).elim
        · exact hs2

/-- Witness for C4 as amended: `fuse7-java-openshift` declared twice in one call, the
store accepting the `Update`. -/
theorem C4_registry_dedup_witness :
    registryWorld.samples "cluster" =
      some { SkippedImagestreams := ["jenkins"], SkippedTemplates := ["nodejs-example"] } ∧
    "fuse7-java-openshift" ∉ ["jenkins"] ∧
    (∃ spec', (updateClusterSampleCR quietEnv registryWorld "SkippedImagestreams"
        ["fuse7-java-openshift", "fuse7-java-openshift"]).2.samples "cluster" = some spec' ∧
      (skipped "SkippedImagestreams" spec').count "fuse7-java-openshift" = 1) :=
  have h := C4_registry_dedup quietEnv registryWorld "SkippedImagestreams" "fuse7-java-openshift"
    { SkippedImagestreams := ["jenkins"], SkippedTemplates := ["nodejs-example"] }
    (fun _ => rfl) (by decide) (Or.inl rfl) (by decide)
  ⟨by decide, by decide,
    (h.1 ["fuse7-java-openshift", "fuse7-java-openshift"] (by decide)).2.1 (by decide)⟩

/-- Counterexample to C4 as stated: the registry object exists, `fuse7-java-openshift` is
not listed, and every `Update` is refused; after declaring the name twice in one call and
again in a second call the stored list still does not hold it. -/
theorem C4_registry_dedup_counterexample :
    registryWorld.samples "cluster" =
      some { SkippedImagestreams := ["jenkins"], SkippedTemplates := ["nodejs-example"] } ∧
    (updateClusterSampleCR updateRefusedEnv registryWorld "SkippedImagestreams"
        ["fuse7-java-openshift", "fuse7-java-openshift"]).1 = some (Errorf "forbidden") ∧
    (updateClusterSampleCR updateRefusedEnv
      (updateClusterSampleCR updateRefusedEnv registryWorld "SkippedImagestreams"
        ["fuse7-java-openshift", "fuse7-java-openshift"]).2
      "SkippedImagestreams" ["fuse7-java-openshift"]).2.samples "cluster" =
      some { SkippedImagestreams := ["jenkins"], SkippedTemplates := ["nodejs-example"] } ∧
    (skipped "SkippedImagestreams"
      { SkippedImagestreams := ["jenkins"], SkippedTemplates := ["nodejs-example"] }).count
        "fuse7-java-openshift" = 0 := by
  decide

/-- C5 (registry monotonic growth).  When the lookup finds the shared registry object,
`updateClusterSampleCR` issues the lookup and exactly one `Update`.  The updated object
keeps the old list of the category as the front of the new list, followed by the names of
the input that were not listed, each once in the order of first occurrence; the other
category is unchanged, and the store holds the updated spec when the `Update` succeeds. -/
theorem C5_registry_monotone (env : Env) (w : World) (key : String) (value : List String)
    (spec : ConfigSpec)
    (hFault : env.fault w.log (Event.get "Config" "cluster" "") = none)
    (hLive : w.samples "cluster" = some spec) :
    let payload := skipNames key value ⟨"cluster", spec⟩
    let out := updateClusterSampleCR env w key value
    eventsSince w out.2 =
      [Event.get "Config" "cluster" "", Event.update (.samplesConfig payload)] ∧
    ((eventsSince w out.2).filter Event.isUpdate).length = 1 ∧
    payload.Name = "cluster" ∧
    (key = "SkippedImagestreams" ∨ key = "SkippedTemplates" →
      skipped key payload.Spec =
        skipped key spec ++
          firstOccurrences (value.filter (fun v => decide (v ∉ skipped key spec)))) ∧
    (∀ key', key' ≠ key → skipped key' payload.Spec = skipped key' spec) ∧
    (out.1 = none → out.2.samples "cluster" = some payload.Spec) ∧
    (out.1 ≠ none → out.2.samples = w.samples) := by
  intro payload out
  have hout := updateClusterSampleCR_found env w key value spec hFault hLive
  have hev : eventsSince w out.2 =
      [Event.get "Config" "cluster" "", Event.update (.samplesConfig payload)] := by
    apply eventsSince_append
    simp only [out, hout]
    cases env.fault (w.log ++ [Event.get "Config" "cluster" ""])
        (Event.update (.samplesConfig (skipNames key value ⟨"cluster", spec⟩))) <;> rfl
  refine ⟨hev, ?_, skipNames_Name _ _ _, ?_, ?_, ?_, ?_⟩
  · rw [hev]; rfl
  · intro hKey
    rw [skipped_skipNames key value _ hKey, appendMissing_eq]
  · intro key' h
    exact skipped_skipNames_other key key' value _ h
  · simp only [out, hout]
    cases env.fault (w.log ++ [Event.get "Config" "cluster" ""])
        (Event.update (.samplesConfig (skipNames key value ⟨"cluster", spec⟩))) with
    | some m => simp
    | none => intro _; simp [payload]
  · simp only [out, hout]
    cases env.fault (w.log ++ [Event.get "Config" "cluster" ""])
        (Event.update (.samplesConfig (skipNames key value ⟨"cluster", spec⟩))) with
    | some m => simp
    | none => simp

/-- Witness for C5: two new template names, one of them repeated, and one name that is
already listed. -/
theorem C5_registry_monotone_witness :
    registryWorld.samples "cluster" =
      some { SkippedImagestreams := ["jenkins"], SkippedTemplates := ["nodejs-example"] } ∧
    skipped "SkippedTemplates"
      (skipNames "SkippedTemplates" ["b", "nodejs-example", "a", "b"]
        ⟨"cluster", { SkippedImagestreams := ["jenkins"],
                      SkippedTemplates := ["nodejs-example"] }⟩).Spec
      = ["nodejs-example", "b", "a"] ∧
    ((eventsSince registryWorld (updateClusterSampleCR quietEnv registryWorld "SkippedTemplates"
      ["b", "nodejs-example", "a", "b"]).2).filter Event.isUpdate).length = 1 :=
  have h := C5_registry_monotone quietEnv registryWorld "SkippedTemplates"
    ["b", "nodejs-example", "a", "b"]
    { SkippedImagestreams := ["jenkins"], SkippedTemplates := ["nodejs-example"] } rfl (by decide)
  ⟨by decide, by decide, h.2.1⟩

/-! ## Cache miss and cache hit -/

theorem GoMap_set_fresh {α : Type} (m : List (String × α)) (k : String) (v : α)
    (h : k ∉ m.map Prod.fst) : GoMap.set m k v = m ++ [(k, v)] := by
  induction m with
  | nil => rfl
  | cons p rest ih =>
    obtain ⟨k', v'⟩ := p
    simp only [List.map_cons, List.mem_cons, not_or] at h
    simp only [GoMap.set, Ne.symm h.1, if_false, ih h.2, List.cons_append]

theorem fetchFiles_ok (r : Reconciler) (body : String → String) (l : List String) :
    ∀ (data : List (String × String)) (w : World),
      (∀ fn ∈ l, ∃ resp, r.httpClient (fileURL r fn) = .ok resp ∧ resp.StatusCode = 200 ∧
        resp.Body = .ok (body fn)) →
      (l.map (fun fn => TrimPrefix fn "quickstarts/")).Nodup →
      (∀ fn ∈ l, TrimPrefix fn "quickstarts/" ∉ data.map Prod.fst) →
      fetchFiles r l data w =
        (.ok (data ++ l.map (fun fn => (TrimPrefix fn "quickstarts/", body fn))),
          { w with log := w.log ++ l.map (fun fn => Event.httpGet (fileURL r fn)) }) := by
  induction l with
  | nil => intro data w _ _ _; simp [fetchFiles]
  | cons fn rest ih =>
    intro data w hok hnd hfresh
    obtain ⟨resp, hresp, hst, hbody⟩ := hok fn (List.mem_cons_self _ _)
    have hget : getFileContentFromURL r w (fileURL r fn) =
        (.ok (.ok (body fn)), logCall w (Event.httpGet (fileURL r fn))) := by
      simp [getFileContentFromURL, hresp, hst, hbody]
    simp only [List.map_cons, List.nodup_cons] at hnd
    unfold fetchFiles
    rw [hget]
    simp only
    rw [GoMap_set_fresh data _ _ (hfresh fn (List.mem_cons_self _ _))]
    rw [ih _ _ (fun f hf => hok f (List.mem_cons_of_mem _ hf)) hnd.2]
    · simp [logCall]
    · intro f hf
      simp only [List.map_append, List.map_cons, List.map_nil, List.mem_append,
        List.mem_singleton, not_or]
      refine ⟨hfresh f (List.mem_cons_of_mem _ hf), fun heq => hnd.1 ?_⟩
      rw [← heq]
      exact List.mem_map_of_mem _ hf

theorem cacheKeys_eq : fileNames.map (fun fn => TrimPrefix fn "quickstarts/") = cacheKeys := by
  decide

theorem cacheKeys_nodup : cacheKeys.Nodup := by decide

theorem GoMap_get?_map {α : Type} (key : String → String) (val : String → α) (l : List String)
    (hnd : (l.map key).Nodup) (fn : String) (hfn : fn ∈ l) :
    GoMap.get? (l.map (fun f => (key f, val f))) (key fn) = some (val fn) := by
  induction l with
  | nil => cases hfn
  | cons a rest ih =>
    simp only [List.map_cons, List.nodup_cons] at hnd
    simp only [List.map_cons, GoMap.get?]
    rcases List.mem_cons.mp hfn with rfl | hmem
    · simp
    · have hne : key a ≠ key fn := fun h => hnd.1 (h ▸ List.mem_map_of_mem key hmem)
      simp only [hne, if_false]
      exact ih hnd.2 hmem

theorem filter_isCreate_fetches (urls : List String) :
    (urls.map Event.httpGet).filter Event.isCreate = [] := by
  induction urls with
  | nil => rfl
  | cons u rest ih => simp [List.filter_cons, Event.isCreate]

/-- C7 as amended (cache miss, every fetch successful).  When the templates config map is
absent and every requested file is fetched with status 200 and a readable body,
`reconcileConfigMap` issues the lookup, the 25 fetches and exactly one `Create`.  The data
of that `Create` has exactly the 25 keys of `cacheKeys` (the image stream file, the console
templates and the quickstart templates, by base name), and the value under the key of file
`fn` is the body fetched from `TemplatesBaseURL ++ version ++ "/" ++ fn`.  When the store
accepts the `Create` the call returns `PhaseCompleted` without error and the config map is
stored; when the store refuses it the call returns `PhaseFailed` with the wrapped error
and the config map is still absent. -/
theorem C7_cache_miss (r : Reconciler) (env : Env) (w : World) (body : String → String)
    (hAbsent : w.configMaps (templatesConfigMapName, r.OperatorNamespace) = none)
    (hGet : env.fault w.log
      (Event.get "ConfigMap" templatesConfigMapName r.OperatorNamespace) = none)
    (hFetch : ∀ fn ∈ fileNames, ∃ resp,
      r.httpClient (TemplatesBaseURL ++ r.Config.ProductVersion ++ "/" ++ fn) = .ok resp ∧
      resp.StatusCode = 200 ∧ resp.Body = .ok (body fn)) :
    eventsSince w (reconcileConfigMap r env w).2 =
      Event.get "ConfigMap" templatesConfigMapName r.OperatorNamespace ::
        fileNames.map (fun fn => Event.httpGet (fileURL r fn)) ++
        [Event.create (.configMap
          ⟨templatesConfigMapName, r.OperatorNamespace, cacheData body⟩)] ∧
    (eventsSince w (reconcileConfigMap r env w).2).filter Event.isCreate =
      [Event.create (.configMap
        ⟨templatesConfigMapName, r.OperatorNamespace, cacheData body⟩)] ∧
    (cacheData body).map Prod.fst = cacheKeys ∧
    cacheKeys = imageStreamFileName :: (consoleTemplates ++ quickstartTemplates) ∧
    (cacheData body).length = 25 ∧
    (∀ fn ∈ fileNames,
      GoMap.get? (cacheData body) (TrimPrefix fn "quickstarts/") = some (body fn)) ∧
    (env.fault
        (w.log ++ Event.get "ConfigMap" templatesConfigMapName r.OperatorNamespace ::
          fileNames.map (fun fn => Event.httpGet (fileURL r fn)))
        (Event.create (.configMap
          ⟨templatesConfigMapName, r.OperatorNamespace, cacheData body⟩)) = none →
      (reconcileConfigMap r env w).1 = (PhaseCompleted, none) ∧
      (reconcileConfigMap r env w).2.configMaps (templatesConfigMapName, r.OperatorNamespace)
        = some (cacheData body)) ∧
    (∀ m, env.fault
        (w.log ++ Event.get "ConfigMap" templatesConfigMapName r.OperatorNamespace ::
          fileNames.map (fun fn => Event.httpGet (fileURL r fn)))
        (Event.create (.configMap
          ⟨templatesConfigMapName, r.OperatorNamespace, cacheData body⟩)) = some m →
      (reconcileConfigMap r env w).1 =
        (PhaseFailed, some (Wrap (Errorf m) ("failed to create configmap "
          ++ templatesConfigMapName ++ " in " ++ r.OperatorNamespace ++ " namespace"))) ∧
      (reconcileConfigMap r env w).2.configMaps (templatesConfigMapName, r.OperatorNamespace)
        = none) := by
  have hkeys : (cacheData body).map Prod.fst = cacheKeys := by
    rw [← cacheKeys_eq]
    simp [cacheData, Function.comp_def]
  have hnd : (fileNames.map (fun fn => TrimPrefix fn "quickstarts/")).Nodup := by
    rw [cacheKeys_eq]; exact cacheKeys_nodup
  have hget : getTemplatesConfigMap r env w =
      ((⟨templatesConfigMapName, r.OperatorNamespace, []⟩,
        some (notFoundError "ConfigMap" templatesConfigMapName)),
        logCall w (Event.get "ConfigMap" templatesConfigMapName r.OperatorNamespace)) := by
    simp [getTemplatesConfigMap, GetConfigMap, hGet, hAbsent]
  have hff := fetchFiles_ok r body fileNames []
    (logCall w (Event.get "ConfigMap" templatesConfigMapName r.OperatorNamespace))
    hFetch hnd (by simp)
  have hlog : (logCall w (Event.get "ConfigMap" templatesConfigMapName r.OperatorNamespace)).log
      ++ fileNames.map (fun fn => Event.httpGet (fileURL r fn)) =
      w.log ++ Event.get "ConfigMap" templatesConfigMapName r.OperatorNamespace ::
        fileNames.map (fun fn => Event.httpGet (fileURL r fn)) := by
    simp [logCall]
  have hfilter :
      (Event.get "ConfigMap" templatesConfigMapName r.OperatorNamespace ::
        fileNames.map (fun fn => Event.httpGet (fileURL r fn)) ++
        [Event.create (.configMap
          ⟨templatesConfigMapName, r.OperatorNamespace, cacheData body⟩)]).filter Event.isCreate =
      [Event.create (.configMap
        ⟨templatesConfigMapName, r.OperatorNamespace, cacheData body⟩)] := by
    have h := filter_isCreate_fetches (fileNames.map (fun fn => fileURL r fn))
    rw [List.map_map] at h
    simp only [List.cons_append, List.filter_cons, List.filter_append, Event.isCreate,
      Bool.false_eq_true, if_false, if_true, List.filter_nil]
    rw [show (Event.httpGet ∘ fun fn => fileURL r fn) = (fun fn => Event.httpGet (fileURL r fn))
      from rfl] at h
    rw [h]
    rfl
  have hlen : (cacheData body).length = 25 := by
    simp [cacheData, fileNames, consoleTemplates, quickstartTemplates]
  have hvals : ∀ fn ∈ fileNames,
      GoMap.get? (cacheData body) (TrimPrefix fn "quickstarts/") = some (body fn) :=
    fun fn hfn => GoMap_get?_map (fun f => TrimPrefix f "quickstarts/") body fileNames hnd fn hfn
  cases hc : env.fault
      (w.log ++ Event.get "ConfigMap" templatesConfigMapName r.OperatorNamespace ::
        fileNames.map (fun fn => Event.httpGet (fileURL r fn)))
      (Event.create (.configMap
        ⟨templatesConfigMapName, r.OperatorNamespace, cacheData body⟩)) with
  | none =>
    have hout : reconcileConfigMap r env w =
        ((PhaseCompleted, none),
          { w with
            log := w.log ++ (Event.get "ConfigMap" templatesConfigMapName r.OperatorNamespace ::
              fileNames.map (fun fn => Event.httpGet (fileURL r fn)) ++
              [Event.create (.configMap
                ⟨templatesConfigMapName, r.OperatorNamespace, cacheData body⟩)])
            configMaps := Function.update w.configMaps
              (templatesConfigMapName, r.OperatorNamespace) (some (cacheData body)) }) := by
      unfold reconcileConfigMap
      rw [hget]
      simp only [notFoundError, Bool.not_true, Bool.false_eq_true, if_false]
      rw [hff]
      simp only [List.nil_append]
      unfold CreateConfigMap
      simp only [hlog]
      simp only [cacheData] at hc ⊢
      rw [hc]
      simp [logCall, hAbsent]
    rw [hout]
    have hev := eventsSince_append w
      { w with
        log := w.log ++ (Event.get "ConfigMap" templatesConfigMapName r.OperatorNamespace ::
          fileNames.map (fun fn => Event.httpGet (fileURL r fn)) ++
          [Event.create (.configMap
            ⟨templatesConfigMapName, r.OperatorNamespace, cacheData body⟩)])
        configMaps := Function.update w.configMaps (templatesConfigMapName, r.OperatorNamespace)
          (some (cacheData body)) } _ rfl
    refine ⟨hev, ?_, hkeys, rfl, hlen, hvals, fun _ => ⟨rfl, by simp⟩,
      fun m hm => by cases hm⟩
    rw [hev]; exact hfilter
  | some m =>
    have hout : reconcileConfigMap r env w =
        ((PhaseFailed, some (Wrap (Errorf m) ("failed to create configmap "
            ++ templatesConfigMapName ++ " in " ++ r.OperatorNamespace ++ " namespace"))),
          { w with
            log := w.log ++ (Event.get "ConfigMap" templatesConfigMapName r.OperatorNamespace ::
              fileNames.map (fun fn => Event.httpGet (fileURL r fn)) ++
              [Event.create (.configMap
                ⟨templatesConfigMapName, r.OperatorNamespace, cacheData body⟩)]) }) := by
      unfold reconcileConfigMap
      rw [hget]
      simp only [notFoundError, Bool.not_true, Bool.false_eq_true, if_false]
      rw [hff]
      simp only [List.nil_append]
      unfold CreateConfigMap
      simp only [hlog]
      simp only [cacheData] at hc ⊢
      rw [hc]
      simp [logCall]
    rw [hout]
    have hev := eventsSince_append w
      { w with
        log := w.log ++ (Event.get "ConfigMap" templatesConfigMapName r.OperatorNamespace ::
          fileNames.map (fun fn => Event.httpGet (fileURL r fn)) ++
          [Event.create (.configMap
            ⟨templatesConfigMapName, r.OperatorNamespace, cacheData body⟩)]) } _ rfl
    refine ⟨hev, ?_, hkeys, rfl, hlen, hvals, fun h => (by cases h), fun m1 hm1 => ?_⟩
    · rw [hev]; exact hfilter
    · cases hm1
      exact ⟨rfl, hAbsent⟩

/-- Witness for C7 as amended: an empty cluster and a remote source that answers every URL
with status 200 and the URL as body; the store accepts the `Create`. -/
theorem C7_cache_miss_witness :
    emptyWorld.configMaps (templatesConfigMapName, sampleReconciler.OperatorNamespace) = none ∧
    (reconcileConfigMap sampleReconciler quietEnv emptyWorld).1 = (PhaseCompleted, none) ∧
    (reconcileConfigMap sampleReconciler quietEnv emptyWorld).2.configMaps
      (templatesConfigMapName, sampleReconciler.OperatorNamespace)
      = some (cacheData (fun fn => fileURL sampleReconciler fn)) :=
  have h := C7_cache_miss sampleReconciler quietEnv emptyWorld
    (fun fn => fileURL sampleReconciler fn) rfl rfl (fun _ _ => ⟨_, rfl, rfl, rfl⟩)
  ⟨rfl, h.2.2.2.2.2.2.1 rfl⟩

set_option maxRecDepth 100000 in
/-- Counterexample to C7 as stated: the templates config map is absent and every one of
the 25 fetches succeeds with status 200, yet the store refuses the `Create` and
`reconcileConfigMap` returns `PhaseFailed` with an error, the config map still absent. -/
theorem C7_cache_miss_counterexample :
    emptyWorld.configMaps (templatesConfigMapName, sampleReconciler.OperatorNamespace) = none ∧
    (∀ fn ∈ fileNames, ∃ resp,
      sampleReconciler.httpClient (fileURL sampleReconciler fn) = .ok resp ∧
      resp.StatusCode = 200 ∧ resp.Body = .ok (fileURL sampleReconciler fn)) ∧
    (reconcileConfigMap sampleReconciler createRefusedEnv emptyWorld).1 =
      (PhaseFailed, some (Wrap (Errorf "forbidden")
        "failed to create configmap fuse-on-openshift-templates in integreatly namespace")) ∧
    ((reconcileConfigMap sampleReconciler createRefusedEnv emptyWorld).2.log.filter
      Event.isCreate).length = 1 ∧
    (reconcileConfigMap sampleReconciler createRefusedEnv emptyWorld).2.configMaps
      (templatesConfigMapName, sampleReconciler.OperatorNamespace) = none := by
  refine ⟨rfl, fun _ _ => ⟨_, rfl, rfl, rfl⟩, ?_, ?_, ?_⟩ <;> decide

/-- C8 (cache hit).  When the lookup finds the templates config map, whatever its data,
`reconcileConfigMap` returns `PhaseCompleted` without error, issues the lookup only (no
fetch, no `Create`, `Update` or `Delete`), and leaves every store unchanged. -/
theorem C8_cache_hit (r : Reconciler) (env : Env) (w : World) (data : List (String × String))
    (hLive : w.configMaps (templatesConfigMapName, r.OperatorNamespace) = some data)
    (hGet : env.fault w.log
      (Event.get "ConfigMap" templatesConfigMapName r.OperatorNamespace) = none) :
    (reconcileConfigMap r env w).1 = (PhaseCompleted, none) ∧
    eventsSince w (reconcileConfigMap r env w).2 =
      [Event.get "ConfigMap" templatesConfigMapName r.OperatorNamespace] ∧
    (∀ e ∈ eventsSince w (reconcileConfigMap r env w).2,
      e.isFetch = false ∧ e.isMutating = false) ∧
    sameStore w (reconcileConfigMap r env w).2 ∧
    (reconcileConfigMap r env w).2.configMaps (templatesConfigMapName, r.OperatorNamespace)
      = some data := by
  have hout : reconcileConfigMap r env w =
      ((PhaseCompleted, none),
        logCall w (Event.get "ConfigMap" templatesConfigMapName r.OperatorNamespace)) := by
    simp [reconcileConfigMap, getTemplatesConfigMap, GetConfigMap, hGet, hLive]
  rw [hout]
  have hev : eventsSince w
      (logCall w (Event.get "ConfigMap" templatesConfigMapName r.OperatorNamespace)) =
      [Event.get "ConfigMap" templatesConfigMapName r.OperatorNamespace] :=
    eventsSince_append _ _ _ rfl
  rw [hev]
  exact ⟨rfl, rfl,
    by simp [Event.isFetch, Event.isMutating, Event.isCreate, Event.isDelete, Event.isUpdate],
    ⟨rfl, rfl, rfl⟩, hLive⟩

/-- Witness for C8: the config map exists with stale data. -/
theorem C8_cache_hit_witness :
    cachedWorld.configMaps (templatesConfigMapName, sampleReconciler.OperatorNamespace)
      = some [("stale", "data")] ∧
    (reconcileConfigMap sampleReconciler quietEnv cachedWorld).1 = (PhaseCompleted, none) ∧
    sameStore cachedWorld (reconcileConfigMap sampleReconciler quietEnv cachedWorld).2 :=
  have h := C8_cache_hit sampleReconciler quietEnv cachedWorld [("stale", "data")]
    (by decide) rfl
  ⟨by decide, h.1, h.2.2.2.1⟩

/-! ## Fetch failure reporting -/

theorem String_append_left_cancel (a b c : String) (h : a ++ b = a ++ c) : b = c := by
  have h' := congrArg String.data h
  simp only [String.data_append] at h'
  exact String.ext (List.append_cancel_left h')

theorem fileURL_injective (r : Reconciler) (a b : String) (h : fileURL r a = fileURL r b) :
    a = b := by
  unfold fileURL at h
  exact String_append_left_cancel _ _ _ h

theorem getFileContentFromURL_status (r : Reconciler) (w : World) (url : String)
    (resp : Response) (hresp : r.httpClient url = .ok resp) (hne : resp.StatusCode ≠ 200) :
    getFileContentFromURL r w url =
      (.error (statusError url resp.StatusCode), logCall w (Event.httpGet url)) := by
  simp [getFileContentFromURL, hresp, hne, statusError]

theorem fetchFiles_reached (r : Reconciler) (k : String) (resp : Response)
    (hresp : r.httpClient (fileURL r k) = .ok resp) (hne : resp.StatusCode ≠ 200)
    (l : List String) :
    ∀ (data : List (String × String)) (w : World) (evs : List Event),
      (fetchFiles r l data w).2.log = w.log ++ evs →
      Event.httpGet (fileURL r k) ∈ evs →
      (fetchFiles r l data w).1 =
        .error (Wrap (statusError (fileURL r k) resp.StatusCode)
          ("failed to get file contents of " ++ k)) := by
  induction l with
  | nil =>
    intro data w evs hlog hmem
    simp only [fetchFiles] at hlog
    have : evs = [] := by simpa using hlog
    subst this
    cases hmem
  | cons fn rest ih =>
    intro data w evs hlog hmem
    by_cases hfn : fn = k
    · subst hfn
      unfold fetchFiles
      rw [getFileContentFromURL_status r w _ resp hresp hne]
    · have hurl : fileURL r fn ≠ fileURL r k := fun h => hfn (fileURL_injective r _ _ h)
      have hw := getFileContentFromURL_world r w (fileURL r fn)
      unfold fetchFiles at hlog ⊢
      rcases hres : getFileContentFromURL r w (fileURL r fn) with ⟨res, w'⟩
      rw [hres] at hw hlog
      simp only at hw
      subst hw
      have stop : ∀ evs' : List Event,
          (logCall w (Event.httpGet (fileURL r fn))).log = w.log ++ evs' →
          Event.httpGet (fileURL r k) ∈ evs' → False := by
        intro evs' h1 h2
        have hcat : w.log ++ evs' = w.log ++ [Event.httpGet (fileURL r fn)] := by
          rw [← h1]
          rfl
        have : evs' = [Event.httpGet (fileURL r fn)] := List.append_cancel_left hcat
        subst this
        simp at h2
        exact hurl h2.symm
      cases res with
      | error err => exact (stop evs hlog hmem).elim
      | ok content =>
        cases content with
        | error err => exact (stop evs hlog hmem).elim
        | ok body =>
          simp only at hlog ⊢
          obtain ⟨evs', h1, _, _⟩ := fetchFiles_world r rest
            (GoMap.set data (TrimPrefix fn "quickstarts/") body)
            (logCall w (Event.httpGet (fileURL r fn)))
          have hcat : w.log ++ evs = w.log ++ Event.httpGet (fileURL r fn) :: evs' := by
            rw [← hlog, h1]
            simp [logCall]
          have hevs : evs = Event.httpGet (fileURL r fn) :: evs' := List.append_cancel_left hcat
          subst hevs
          rcases List.mem_cons.mp hmem with heq | hmem'
          · exfalso
            injection heq with heq
            exact hurl heq.symm
          · exact ih _ _ evs' h1 hmem'

/-- C9 (fetch failure reporting).  For a requested file `k` whose URL answers with a status
`s` other than 200, `getFileContentFromURL` fails; and whenever `reconcileConfigMap` issues
the fetch of `k`, it returns `PhaseFailed` with the error
`failed to get file contents of k: failed to get file content from URL. Status: s`, whose
message contains the file name, the resolved URL and the decimal status. -/
theorem C9_fetch_failure_report (r : Reconciler) (env : Env) (w : World) (k : String) (s : Nat)
    (resp : Response)
    (hresp : r.httpClient (TemplatesBaseURL ++ r.Config.ProductVersion ++ "/" ++ k) = .ok resp)
    (hs : resp.StatusCode = s) (hne : s ≠ 200)
    (hIssued : Event.httpGet (TemplatesBaseURL ++ r.Config.ProductVersion ++ "/" ++ k) ∈
      eventsSince w (reconcileConfigMap r env w).2) :
    (∀ w0 : World, (getFileContentFromURL r w0 (fileURL r k)).1 =
      .error (Errorf ("failed to get file content from " ++ fileURL r k ++ ". Status: "
        ++ toString s))) ∧
    (∃ err : GoError,
      (reconcileConfigMap r env w).1 = (PhaseFailed, some err) ∧
      err.msg = "failed to get file contents of " ++ k ++ ": " ++
        ("failed to get file content from " ++ fileURL r k ++ ". Status: " ++ toString s) ∧
      hasSubstring err.msg k ∧
      hasSubstring err.msg (TemplatesBaseURL ++ r.Config.ProductVersion ++ "/" ++ k) ∧
      hasSubstring err.msg (toString s)) := by
  subst hs
  change r.httpClient (fileURL r k) = .ok resp at hresp
  change Event.httpGet (fileURL r k) ∈ _ at hIssued
  refine ⟨fun w0 => ?_, ?_⟩
  · rw [getFileContentFromURL_status r w0 _ resp hresp hne]
    rfl
  · have hmsg : ∀ err : GoError,
        err = Wrap (statusError (fileURL r k) resp.StatusCode)
          ("failed to get file contents of " ++ k) →
        err.msg = "failed to get file contents of " ++ k ++ ": " ++
          ("failed to get file content from " ++ fileURL r k ++ ". Status: "
            ++ toString resp.StatusCode) ∧
        hasSubstring err.msg k ∧ hasSubstring err.msg (fileURL r k) ∧
        hasSubstring err.msg (toString resp.StatusCode) := by
      intro err herr
      subst herr
      refine ⟨rfl, ?_, ?_, ?_⟩
      · exact ⟨"failed to get file contents of ",
          ": " ++ ("failed to get file content from " ++ fileURL r k ++ ". Status: "
            ++ toString resp.StatusCode), by simp only [Wrap, statusError, Errorf, String.append_assoc]⟩
      · exact ⟨"failed to get file contents of " ++ k ++ ": " ++ "failed to get file content from ",
          ". Status: " ++ toString resp.StatusCode,
          by simp only [Wrap, statusError, Errorf, String.append_assoc]⟩
      · exact ⟨"failed to get file contents of " ++ k ++ ": " ++
          ("failed to get file content from " ++ fileURL r k ++ ". Status: "), "",
          by simp only [Wrap, statusError, Errorf, String.append_assoc, String.append_empty]⟩
    have hw := getTemplatesConfigMap_world r env w
    obtain ⟨evs, hlog, hfetch, -⟩ := fetchFiles_world r fileNames []
      (logCall w (Event.get "ConfigMap" templatesConfigMapName r.OperatorNamespace))
    have hreach := fetchFiles_reached r k resp hresp hne fileNames []
      (logCall w (Event.get "ConfigMap" templatesConfigMapName r.OperatorNamespace)) evs hlog
    unfold reconcileConfigMap at hIssued ⊢
    rcases hres : getTemplatesConfigMap r env w with ⟨⟨cfgMap, oerr⟩, w1⟩
    rw [hres] at hw hIssued
    simp only at hw hIssued
    subst hw
    have hget : eventsSince w
        (logCall w (Event.get "ConfigMap" templatesConfigMapName r.OperatorNamespace)) =
        [Event.get "ConfigMap" templatesConfigMapName r.OperatorNamespace] :=
      eventsSince_append _ _ _ rfl
    cases oerr with
    | none =>
      simp only [hget] at hIssued
      simp at hIssued
    | some e =>
      simp only at hIssued ⊢
      by_cases hnf : e.notFound = true
      · simp only [hnf, Bool.not_true, Bool.false_eq_true, if_false] at hIssued ⊢
        rcases hff : fetchFiles r fileNames []
          (logCall w (Event.get "ConfigMap" templatesConfigMapName r.OperatorNamespace))
          with ⟨res, w2⟩
        rw [hff] at hlog hreach hIssued
        simp only at hlog hreach hIssued
        cases res with
        | error ferr =>
          simp only at hIssued ⊢
          have hev : eventsSince w w2 =
              Event.get "ConfigMap" templatesConfigMapName r.OperatorNamespace :: evs := by
            apply eventsSince_append
            rw [hlog]
            simp [logCall]
          rw [hev] at hIssued
          rcases List.mem_cons.mp hIssued with heq | hmem
          · cases heq
          · have := hreach hmem
            injection this with this
            exact ⟨ferr, rfl, hmsg ferr this⟩
        | ok configMapData =>
          exfalso
          have hmem : Event.httpGet (fileURL r k) ∈ evs := by
            simp only at hIssued
            rcases hc : CreateConfigMap env w2
              { cfgMap with Data := configMapData } with ⟨cres, w3⟩
            rw [hc] at hIssued
            have hw3 : w3.log = w2.log ++
                [Event.create (.configMap { cfgMap with Data := configMapData })] := by
              have : w3 = (CreateConfigMap env w2 { cfgMap with Data := configMapData }).2 := by
                rw [hc]
              rw [this]
              unfold CreateConfigMap
              simp only
              cases env.fault w2.log
                (Event.create (.configMap { cfgMap with Data := configMapData })) with
              | some m => rfl
              | none =>
                cases w2.configMaps (cfgMap.Name, cfgMap.Namespace) <;> rfl
            have hev : eventsSince w w3 =
                Event.get "ConfigMap" templatesConfigMapName r.OperatorNamespace :: evs ++
                  [Event.create (.configMap { cfgMap with Data := configMapData })] := by
              apply eventsSince_append
              rw [hw3, hlog]
              simp [logCall]
            have hin : Event.httpGet (fileURL r k) ∈ eventsSince w w3 := by
              cases cres <;> simpa using hIssued
            rw [hev] at hin
            simpa using hin
          have := hreach hmem
          cases this
      · simp only [hnf, Bool.not_false, if_true] at hIssued
        simp only [hget] at hIssued
        simp at hIssued

/-- Witness for C9: the remote source answers 500 for the first requested file. -/
theorem C9_fetch_failure_report_witness :
    Event.httpGet (TemplatesBaseURL ++ offlineReconciler.Config.ProductVersion ++ "/"
        ++ imageStreamFileName) ∈
      eventsSince emptyWorld (reconcileConfigMap offlineReconciler quietEnv emptyWorld).2 ∧
    (∃ err : GoError,
      (reconcileConfigMap offlineReconciler quietEnv emptyWorld).1 = (PhaseFailed, some err) ∧
      hasSubstring err.msg imageStreamFileName ∧
      hasSubstring err.msg (toString 500)) :=
  have h := C9_fetch_failure_report offlineReconciler quietEnv emptyWorld imageStreamFileName 500
    { StatusCode := 500, Body := .ok "" } rfl rfl (by decide) (by decide)
  ⟨by decide, h.2.elim fun err he => ⟨err, he.1, he.2.2.1, he.2.2.2.2⟩⟩

/-! ## The pass: `Reconcile` -/

theorem reconcileConfigMap_shape (r : Reconciler) (env : Env) (w : World) :
    (reconcileConfigMap r env w).1 = (PhaseCompleted, none) ∨
    ∃ e, (reconcileConfigMap r env w).1 = (PhaseFailed, some e) := by
  unfold reconcileConfigMap
  rcases getTemplatesConfigMap r env w with ⟨⟨cfgMap, oerr⟩, w1⟩
  cases oerr with
  | none => exact Or.inl rfl
  | some err =>
    simp only
    by_cases hnf : err.notFound = true
    · simp only [hnf, Bool.not_true, Bool.false_eq_true, if_false]
      rcases fetchFiles r fileNames [] w1 with ⟨res, w2⟩
      cases res with
      | error e => exact Or.inr ⟨_, rfl⟩
      | ok d =>
        simp only
        rcases CreateConfigMap env w2 { cfgMap with Data := d } with ⟨cres, w3⟩
        cases cres with
        | none => exact Or.inl rfl
        | some e => exact Or.inr ⟨_, rfl⟩
    · simp only [hnf, Bool.not_false, if_true]
      exact Or.inr ⟨_, rfl⟩

theorem reconcileImageStreams_shape (r : Reconciler) (env : Env) (inst : Installation)
    (w : World) :
    (reconcileImageStreams r env inst w).1 = .ret (PhaseCompleted, none) ∨
    (∃ e, (reconcileImageStreams r env inst w).1 = .ret (PhaseFailed, some e)) ∨
    ∃ m, (reconcileImageStreams r env inst w).1 = .panic m := by
  unfold reconcileImageStreams
  rcases getTemplatesConfigMap r env w with ⟨⟨cfgMap, oerr⟩, w1⟩
  cases oerr with
  | some err => exact Or.inr (Or.inl ⟨_, rfl⟩)
  | none =>
    simp only
    cases r.jsonUnmarshal (GoMap.getD cfgMap.Data imageStreamFileName) with
    | error e => exact Or.inr (Or.inl ⟨_, rfl⟩)
    | ok fileContent =>
      simp only
      cases getResourcesFromList fileContent with
      | panic m => exact Or.inr (Or.inr ⟨_, rfl⟩)
      | ret isList =>
        simp only
        cases loadImageStreams r inst isList [] with
        | error e => exact Or.inr (Or.inl ⟨_, rfl⟩)
        | ok imageStreams =>
          simp only
          rcases updateClusterSampleCR env w1 "SkippedImagestreams"
            (getKeysFromMap env imageStreams) with ⟨ures, w2⟩
          cases ures with
          | some e => exact Or.inr (Or.inl ⟨_, rfl⟩)
          | none =>
            simp only
            rcases createResources r env (env.rangeOrder.order imageStreams) w2 with ⟨cres, w3⟩
            cases cres with
            | some e => exact Or.inr (Or.inl ⟨_, rfl⟩)
            | none => exact Or.inl rfl

theorem reconcileTemplates_shape (r : Reconciler) (env : Env) (inst : Installation)
    (w : World) :
    (reconcileTemplates r env inst w).1 = (PhaseCompleted, none) ∨
    ∃ e, (reconcileTemplates r env inst w).1 = (PhaseFailed, some e) := by
  unfold reconcileTemplates
  simp only
  rcases loadTemplates r env inst (consoleTemplates ++ quickstartTemplates) [] w with ⟨res, w1⟩
  cases res with
  | error e => exact Or.inr ⟨_, rfl⟩
  | ok templates =>
    simp only
    rcases updateClusterSampleCR env w1 "SkippedTemplates"
      (getKeysFromMap env templates) with ⟨ures, w2⟩
    cases ures with
    | some e => exact Or.inr ⟨_, rfl⟩
    | none =>
      simp only
      rcases createResources r env (env.rangeOrder.order templates) w2 with ⟨cres, w3⟩
      cases cres with
      | some e => exact Or.inr ⟨_, rfl⟩
      | none => exact Or.inl rfl

theorem PhaseFailed_ne_PhaseCompleted : PhaseFailed ≠ PhaseCompleted := by decide

theorem Reconcile_steps (r : Reconciler) (env : Env) (inst : Installation)
    (product : InstallationProductStatus) (w : World) :
    Reconcile r env inst product w =
      if (reconcileConfigMap r env w).1.2 ≠ none ∨
          (reconcileConfigMap r env w).1.1 ≠ PhaseCompleted then
        ⟨.ret (reconcileConfigMap r env w).1, product, (reconcileConfigMap r env w).2⟩
      else
        match (reconcileImageStreams r env inst (reconcileConfigMap r env w).2).1 with
        | .panic m =>
          ⟨.panic m, product, (reconcileImageStreams r env inst (reconcileConfigMap r env w).2).2⟩
        | .ret (phase, err) =>
          if err ≠ none ∨ phase ≠ PhaseCompleted then
            ⟨.ret (phase, err), product,
              (reconcileImageStreams r env inst (reconcileConfigMap r env w).2).2⟩
          else if (reconcileTemplates r env inst
                (reconcileImageStreams r env inst (reconcileConfigMap r env w).2).2).1.2 ≠ none ∨
              (reconcileTemplates r env inst
                (reconcileImageStreams r env inst (reconcileConfigMap r env w).2).2).1.1
                ≠ PhaseCompleted then
            ⟨.ret (reconcileTemplates r env inst
                (reconcileImageStreams r env inst (reconcileConfigMap r env w).2).2).1, product,
              (reconcileTemplates r env inst
                (reconcileImageStreams r env inst (reconcileConfigMap r env w).2).2).2⟩
          else
            ⟨.ret (PhaseCompleted, none),
              { product with
                Version := r.Config.ProductVersion
                OperatorVersion := r.Config.OperatorVersion },
              (reconcileTemplates r env inst
                (reconcileImageStreams r env inst (reconcileConfigMap r env w).2).2).2⟩ := by
  simp only [Reconcile]
  rcases reconcileConfigMap r env w with ⟨⟨p1, e1⟩, w1⟩
  simp only
  rcases reconcileImageStreams r env inst w1 with ⟨o2, w2⟩
  cases o2 with
  | panic m => rfl
  | ret pe =>
    obtain ⟨p2, e2⟩ := pe
    simp only

theorem Reconcile_completed (r : Reconciler) (env : Env) (inst : Installation)
    (product : InstallationProductStatus) (w : World)
    (h : (Reconcile r env inst product w).result = .ret (PhaseCompleted, none)) :
    (reconcileConfigMap r env w).1 = (PhaseCompleted, none) ∧
    (reconcileImageStreams r env inst (reconcileConfigMap r env w).2).1
      = .ret (PhaseCompleted, none) ∧
    (reconcileTemplates r env inst
      (reconcileImageStreams r env inst (reconcileConfigMap r env w).2).2).1
      = (PhaseCompleted, none) ∧
    (Reconcile r env inst product w).world =
      (reconcileTemplates r env inst
        (reconcileImageStreams r env inst (reconcileConfigMap r env w).2).2).2 ∧
    (Reconcile r env inst product w).product =
      { product with
        Version := r.Config.ProductVersion, OperatorVersion := r.Config.OperatorVersion } := by
  have h1 := reconcileConfigMap_shape r env w
  have h2 := reconcileImageStreams_shape r env inst (reconcileConfigMap r env w).2
  have h3 := reconcileTemplates_shape r env inst
    (reconcileImageStreams r env inst (reconcileConfigMap r env w).2).2
  have hne := PhaseFailed_ne_PhaseCompleted
  rw [Reconcile_steps] at h ⊢
  rcases h1 with h1 | ⟨e, h1⟩
  · rcases h2 with h2 | ⟨e, h2⟩ | ⟨m, h2⟩
    · rcases h3 with h3 | ⟨e, h3⟩
      · simp [h1, h2, h3]
      · simp [h1, h2, h3, hne] at h
    · simp [h1, h2, hne] at h
    · simp [h1, h2] at h
  · simp [h1, hne] at h

/-- C10 (step order of `Reconcile`).  With `s1`, `s2`, `s3` the cache, image stream and
template steps run in this order, each on the cluster left by the one before:
`Reconcile` returns `PhaseCompleted` without error exactly when all three steps do, and
then stamps `Version` and `OperatorVersion` from the config; when a step returns
`PhaseFailed` with an error, `Reconcile` returns that phase and error, the cluster is the
one left by the failing step (no later step has issued a call), and the product status is
unchanged.  Every step returns either `PhaseCompleted` without error or `PhaseFailed` with
an error (the image stream step may also panic). -/
theorem C10_reconcile_order (r : Reconciler) (env : Env) (inst : Installation)
    (product : InstallationProductStatus) (w : World) :
    let s1 := reconcileConfigMap r env w
    let s2 := reconcileImageStreams r env inst s1.2
    let s3 := reconcileTemplates r env inst s2.2
    let out := Reconcile r env inst product w
    (∀ e, s1.1 = (PhaseFailed, some e) →
      out.result = .ret (PhaseFailed, some e) ∧ out.world = s1.2 ∧ out.product = product) ∧
    (s1.1 = (PhaseCompleted, none) → ∀ e, s2.1 = .ret (PhaseFailed, some e) →
      out.result = .ret (PhaseFailed, some e) ∧ out.world = s2.2 ∧ out.product = product) ∧
    (s1.1 = (PhaseCompleted, none) → s2.1 = .ret (PhaseCompleted, none) →
      ∀ e, s3.1 = (PhaseFailed, some e) →
      out.result = .ret (PhaseFailed, some e) ∧ out.world = s3.2 ∧ out.product = product) ∧
    (s1.1 = (PhaseCompleted, none) → s2.1 = .ret (PhaseCompleted, none) →
      s3.1 = (PhaseCompleted, none) →
      out.result = .ret (PhaseCompleted, none) ∧ out.world = s3.2 ∧
      out.product = { product with
        Version := r.Config.ProductVersion, OperatorVersion := r.Config.OperatorVersion }) ∧
    (out.result = .ret (PhaseCompleted, none) ↔
      s1.1 = (PhaseCompleted, none) ∧ s2.1 = .ret (PhaseCompleted, none) ∧
        s3.1 = (PhaseCompleted, none)) ∧
    (s1.1 = (PhaseCompleted, none) ∨ ∃ e, s1.1 = (PhaseFailed, some e)) ∧
    (s2.1 = .ret (PhaseCompleted, none) ∨ (∃ e, s2.1 = .ret (PhaseFailed, some e)) ∨
      ∃ m, s2.1 = .panic m) ∧
    (s3.1 = (PhaseCompleted, none) ∨ ∃ e, s3.1 = (PhaseFailed, some e)) := by
  intro s1 s2 s3 out
  have h1 : s1.1 = (PhaseCompleted, none) ∨ ∃ e, s1.1 = (PhaseFailed, some e) :=
    reconcileConfigMap_shape r env w
  have h2 : s2.1 = .ret (PhaseCompleted, none) ∨ (∃ e, s2.1 = .ret (PhaseFailed, some e)) ∨
      ∃ m, s2.1 = .panic m := reconcileImageStreams_shape r env inst s1.2
  have h3 : s3.1 = (PhaseCompleted, none) ∨ ∃ e, s3.1 = (PhaseFailed, some e) :=
    reconcileTemplates_shape r env inst s2.2
  have hne := PhaseFailed_ne_PhaseCompleted
  have hout : out =
      if s1.1.2 ≠ none ∨ s1.1.1 ≠ PhaseCompleted then ⟨.ret s1.1, product, s1.2⟩
      else
        match s2.1 with
        | .panic m => ⟨.panic m, product, s2.2⟩
        | .ret (phase, err) =>
          if err ≠ none ∨ phase ≠ PhaseCompleted then ⟨.ret (phase, err), product, s2.2⟩
          else if s3.1.2 ≠ none ∨ s3.1.1 ≠ PhaseCompleted then ⟨.ret s3.1, product, s3.2⟩
          else
            ⟨.ret (PhaseCompleted, none),
              { product with
                Version := r.Config.ProductVersion
                OperatorVersion := r.Config.OperatorVersion }, s3.2⟩ :=
    Reconcile_steps r env inst product w
  clear_value s1 s2 s3 out
  obtain ⟨⟨p1, e1⟩, w1⟩ := s1
  obtain ⟨o2, w2⟩ := s2
  obtain ⟨⟨p3, e3⟩, w3⟩ := s3
  simp only at h1 h2 h3 hout ⊢
  refine ⟨?_, ?_, ?_, ?_, ?_, h1, h2, h3⟩
  · intro e he
    cases he
    rw [hout]
    simp
  · intro hc e he
    cases hc
    cases he
    rw [hout]
    simp
  · intro hc1 hc2 e he
    cases hc1
    cases hc2
    cases he
    rw [hout]
    simp
  · intro hc1 hc2 hc3
    cases hc1
    cases hc2
    cases hc3
    rw [hout]
    simp
  · rw [hout]
    rcases h1 with h1 | ⟨e, h1⟩
    · cases h1
      rcases h2 with h2 | ⟨e, h2⟩ | ⟨m, h2⟩
      · cases h2
        rcases h3 with h3 | ⟨e, h3⟩
        · cases h3
          simp
        · cases h3
          simp [hne]
      · cases h2
        simp [hne]
      · cases h2
        simp
    · cases h1
      simp [hne]

/-! ## Idempotence of a completed pass -/

theorem createResourceIfNotExist_effect (r : Reconciler) (env : Env) (w : World)
    (res : Resource) :
    (createResourceIfNotExist r env w res).2.configMaps = w.configMaps ∧
    (createResourceIfNotExist r env w res).2.samples = w.samples ∧
    (∀ k, k ≠ resKey res → (createResourceIfNotExist r env w res).2.resources k = w.resources k) ∧
    (ownedAt w (resKey res) →
      (createResourceIfNotExist r env w res).2.resources (resKey res)
        = w.resources (resKey res)) ∧
    ((createResourceIfNotExist r env w res).1 = none →
      r.unstructuredErr res = none ∧
      (ownedAt w (resKey res) ∨
        (createResourceIfNotExist r env w res).2.resources (resKey res)
          = some (res.Labels, res.Body))) := by
  cases hconv : r.unstructuredErr res with
  | some e =>
    simp [createResourceIfNotExist, UnstructuredFromRuntimeObject, hconv]
  | none =>
    cases hf : env.fault w.log (Event.get res.Kind res.Name res.Namespace) with
    | some m =>
      simp [createResourceIfNotExist, UnstructuredFromRuntimeObject, GetResource, hconv, hf,
        logCall, Errorf]
    | none =>
      cases hl : w.resources (resKey res) with
      | none =>
        have hown : ¬ ownedAt w (resKey res) := by
          rintro ⟨l, b, h1, -⟩
          rw [hl] at h1
          cases h1
        cases hc : env.fault (w.log ++ [Event.get res.Kind res.Name res.Namespace])
            (Event.create (.resource res)) with
        | some m =>
          simp [createResourceIfNotExist, UnstructuredFromRuntimeObject, GetResource,
            CreateResource, hconv, hf, hl, hc, logCall, notFoundError]
        | none =>
          simp [createResourceIfNotExist, UnstructuredFromRuntimeObject, GetResource,
            CreateResource, hconv, hf, hl, hc, logCall, notFoundError, hown]
          intro a b c hk
          simp [Function.update, hk]
      | some live =>
        obtain ⟨labels, body⟩ := live
        cases hlab : resourceHasLabel labels "integreatly" "true" with
        | true =>
          simp [createResourceIfNotExist, UnstructuredFromRuntimeObject, GetResource, hconv, hf,
            hl, hlab, logCall, ownedAt]
        | false =>
          have hown : ¬ ownedAt w (resKey res) := by
            rintro ⟨l, b, h1, h2⟩
            rw [hl] at h1
            cases h1
            rw [hlab] at h2
            cases h2
          cases hd : env.fault (w.log ++ [Event.get res.Kind res.Name res.Namespace])
              (Event.delete (.resource res)) with
          | some m =>
            simp [createResourceIfNotExist, UnstructuredFromRuntimeObject, GetResource,
              DeleteResource, hconv, hf, hl, hlab, hd, logCall]
          | none =>
            cases hc : env.fault (w.log ++ [Event.get res.Kind res.Name res.Namespace,
                Event.delete (.resource res)]) (Event.create (.resource res)) with
            | some m =>
              simp [createResourceIfNotExist, UnstructuredFromRuntimeObject, GetResource,
                DeleteResource, CreateResource, hconv, hf, hl, hlab, hd, hc, logCall, hown]
              intro a b c hk
              simp [Function.update, hk]
            | none =>
              simp [createResourceIfNotExist, UnstructuredFromRuntimeObject, GetResource,
                DeleteResource, CreateResource, hconv, hf, hl, hlab, hd, hc, logCall, hown]
              intro a b c hk
              simp [Function.update, hk]

theorem createResourceIfNotExist_keeps_owned (r : Reconciler) (env : Env) (w : World)
    (res : Resource) (k : String × String × String) (h : ownedAt w k) :
    ownedAt (createResourceIfNotExist r env w res).2 k := by
  obtain ⟨_, _, hother, hsame, _⟩ := createResourceIfNotExist_effect r env w res
  by_cases hk : k = resKey res
  · subst hk
    obtain ⟨l, b, h1, h2⟩ := h
    exact ⟨l, b, by rw [hsame ⟨l, b, h1, h2⟩]; exact h1, h2⟩
  · obtain ⟨l, b, h1, h2⟩ := h
    exact ⟨l, b, by rw [hother k hk]; exact h1, h2⟩

theorem createResourceIfNotExist_settles (r : Reconciler) (env : Env) (w : World)
    (res : Resource) (hok : (createResourceIfNotExist r env w res).1 = none) :
    r.unstructuredErr res = none ∧
    (resourceHasLabel res.Labels "integreatly" "true" = true →
      ownedAt (createResourceIfNotExist r env w res).2 (resKey res)) := by
  obtain ⟨_, _, _, _, hsucc⟩ := createResourceIfNotExist_effect r env w res
  obtain ⟨hconv, hcases⟩ := hsucc hok
  refine ⟨hconv, fun hlab => ?_⟩
  rcases hcases with hown | hnew
  · exact createResourceIfNotExist_keeps_owned r env w res _ hown
  · exact ⟨res.Labels, res.Body, hnew, hlab⟩

theorem createResources_effect (r : Reconciler) (env : Env) (l : List (String × Resource)) :
    ∀ w : World,
      (createResources r env l w).2.configMaps = w.configMaps ∧
      (createResources r env l w).2.samples = w.samples ∧
      (∀ k, ownedAt w k → ownedAt (createResources r env l w).2 k) ∧
      ((createResources r env l w).1 = none → ∀ p ∈ l,
        r.unstructuredErr p.2 = none ∧
        (resourceHasLabel p.2.Labels "integreatly" "true" = true →
          ownedAt (createResources r env l w).2 (resKey p.2))) := by
  induction l with
  | nil => intro w; simp [createResources]
  | cons p rest ih =>
    intro w
    obtain ⟨name, obj⟩ := p
    obtain ⟨hc, hs, _, _, _⟩ := createResourceIfNotExist_effect r env w obj
    have hkeep := createResourceIfNotExist_keeps_owned r env w obj
    have hset := createResourceIfNotExist_settles r env w obj
    unfold createResources
    rcases hres : createResourceIfNotExist r env w obj with ⟨oerr, w'⟩
    rw [hres] at hc hs hkeep hset
    simp only at hc hs hkeep hset
    cases oerr with
    | some e =>
      simp only
      exact ⟨hc, hs, hkeep, fun h => by cases h⟩
    | none =>
      simp only
      obtain ⟨ic, is, ikeep, isucc⟩ := ih w'
      refine ⟨ic.trans hc, is.trans hs, fun k hk => ikeep k (hkeep k hk), fun hok q hq => ?_⟩
      rcases List.mem_cons.mp hq with rfl | hq
      · obtain ⟨hconv, hown⟩ := hset rfl
        exact ⟨hconv, fun hlab => ikeep _ (hown hlab)⟩
      · exact isucc hok q hq

theorem mem_appendMissing_left (old value : List String) (n : String) (h : n ∈ old) :
    n ∈ appendMissing old value := by
  rw [appendMissing_eq]
  exact List.mem_append_left _ h

theorem mem_appendMissing_right (old value : List String) (n : String) (h : n ∈ value) :
    n ∈ appendMissing old value := by
  rw [appendMissing_eq]
  by_cases hn : n ∈ old
  · exact List.mem_append_left _ hn
  · apply List.mem_append_right
    rw [mem_firstOccurrences]
    simp [List.mem_filter, h, hn]

theorem mem_skipped_skipNames (key key' : String) (value : List String) (cr : SamplesConfig)
    (n : String) (h : n ∈ skipped key' cr.Spec) :
    n ∈ skipped key' (skipNames key value cr).Spec := by
  by_cases hk : key' = key
  · subst hk
    by_cases hv : key' = "SkippedImagestreams" ∨ key' = "SkippedTemplates"
    · rw [skipped_skipNames key' value cr hv]
      exact mem_appendMissing_left _ _ _ h
    · simp only [not_or] at hv
      simp [skipped, hv.1, hv.2] at h
  · rw [skipped_skipNames_other key key' value cr hk]
    exact h

theorem updateClusterSampleCR_effect (env : Env) (w : World) (key : String)
    (value : List String) :
    (updateClusterSampleCR env w key value).2.configMaps = w.configMaps ∧
    (updateClusterSampleCR env w key value).2.resources = w.resources ∧
    (∀ key' names, registryCovers w key' names →
      registryCovers (updateClusterSampleCR env w key value).2 key' names) ∧
    ((updateClusterSampleCR env w key value).1 = none →
      key = "SkippedImagestreams" ∨ key = "SkippedTemplates" →
      registryCovers (updateClusterSampleCR env w key value).2 key value) := by
  cases hf : env.fault w.log (Event.get "Config" "cluster" "") with
  | some m =>
    have hout : updateClusterSampleCR env w key value =
        (some (Errorf m), logCall w (Event.get "Config" "cluster" "")) := by
      simp [updateClusterSampleCR, GetSamplesConfig, hf, Errorf]
    rw [hout]
    exact ⟨rfl, rfl, fun _ _ h => h, fun h => by cases h⟩
  | none =>
    cases hl : w.samples "cluster" with
    | none =>
      have hout : updateClusterSampleCR env w key value =
          (none, logCall w (Event.get "Config" "cluster" "")) := by
        simp [updateClusterSampleCR, GetSamplesConfig, hf, hl, notFoundError]
      rw [hout]
      refine ⟨rfl, rfl, fun _ _ h => h, fun _ _ spec hs => ?_⟩
      simp only [logCall] at hs
      rw [hl] at hs
      cases hs
    | some spec =>
      rw [updateClusterSampleCR_found env w key value spec hf hl]
      cases env.fault (w.log ++ [Event.get "Config" "cluster" ""])
          (Event.update (.samplesConfig (skipNames key value ⟨"cluster", spec⟩))) with
      | some m =>
        exact ⟨rfl, rfl, fun _ _ h => h, fun h => by cases h⟩
      | none =>
        refine ⟨rfl, rfl, fun key' names h spec' hs n hn => ?_, fun _ hkey spec' hs n hn => ?_⟩
        · simp only [Function.update_same] at hs
          cases hs
          exact mem_skipped_skipNames key key' value ⟨"cluster", spec⟩ n (h spec hl n hn)
        · simp only [Function.update_same] at hs
          cases hs
          rw [skipped_skipNames key value _ hkey]
          exact mem_appendMissing_right _ _ _ hn

theorem getTemplatesConfigMap_ok (r : Reconciler) (env : Env) (w : World) (cfgMap : ConfigMap)
    (w1 : World) (h : getTemplatesConfigMap r env w = ((cfgMap, none), w1)) :
    w.configMaps (templatesConfigMapName, r.OperatorNamespace) = some cfgMap.Data ∧
    cfgMap = ⟨templatesConfigMapName, r.OperatorNamespace, cfgMap.Data⟩ ∧
    w1 = logCall w (cacheLookup r) := by
  unfold getTemplatesConfigMap GetConfigMap at h
  simp only at h
  cases hf : env.fault w.log (Event.get "ConfigMap" templatesConfigMapName r.OperatorNamespace)
    with
  | some m => rw [hf] at h; simp at h
  | none =>
    rw [hf] at h
    cases hl : w.configMaps (templatesConfigMapName, r.OperatorNamespace) with
    | none => rw [hl] at h; simp at h
    | some data =>
      rw [hl] at h
      simp only [Prod.mk.injEq, and_true] at h
      obtain ⟨h1, h2⟩ := h
      subst h1
      exact ⟨rfl, rfl, h2.symm⟩

theorem getTemplatesConfigMap_quiet (r : Reconciler) (env : Env) (w : World)
    (data : List (String × String)) (hQuiet : ∀ log ev, env.fault log ev = none)
    (hLive : w.configMaps (templatesConfigMapName, r.OperatorNamespace) = some data) :
    getTemplatesConfigMap r env w =
      ((⟨templatesConfigMapName, r.OperatorNamespace, data⟩, none), logCall w (cacheLookup r)) := by
  simp [getTemplatesConfigMap, GetConfigMap, hQuiet, hLive, cacheLookup]

theorem GoMap_mem_set {α : Type} (m : List (String × α)) (k : String) (v : α)
    (p : String × α) (h : p ∈ GoMap.set m k v) : p ∈ m ∨ p = (k, v) := by
  induction m with
  | nil =>
    simp only [GoMap.set, List.mem_singleton] at h
    exact Or.inr h
  | cons q rest ih =>
    obtain ⟨k', v'⟩ := q
    unfold GoMap.set at h
    by_cases hk : k' = k
    · simp only [hk, if_true] at h
      rcases List.mem_cons.mp h with h | h
      · exact Or.inr h
      · exact Or.inl (List.mem_cons_of_mem _ h)
    · simp only [hk, if_false] at h
      rcases List.mem_cons.mp h with h | h
      · exact Or.inl (h ▸ List.mem_cons_self _ _)
      · rcases ih h with h | h
        · exact Or.inl (List.mem_cons_of_mem _ h)
        · exact Or.inr h

theorem loadImageStream_labelled (r : Reconciler) (inst : Installation)
    (hStamp : ∀ content ns res, r.LoadKubernetesResource content ns inst = .ok res →
      resourceHasLabel res.Labels "integreatly" "true" = true)
    (is : Json) (name : String) (obj : Resource)
    (h : loadImageStream r inst is = .ok (name, obj)) :
    resourceHasLabel obj.Labels "integreatly" "true" = true := by
  unfold loadImageStream at h
  cases hm : r.jsonMarshal is with
  | error e => rw [hm] at h; cases h
  | ok jsonData =>
    rw [hm] at h
    simp only at h
    cases hl : r.LoadKubernetesResource jsonData r.Config.Namespace inst with
    | error e => rw [hl] at h; cases h
    | ok res =>
      rw [hl] at h
      simp only at h
      cases hu : UnstructuredFromRuntimeObject r res with
      | error e => rw [hu] at h; cases h
      | ok u =>
        rw [hu] at h
        simp only [Except.ok.injEq, Prod.mk.injEq] at h
        rw [← h.2]
        exact hStamp _ _ _ hl

theorem loadImageStreams_labelled (r : Reconciler) (inst : Installation)
    (hStamp : ∀ content ns res, r.LoadKubernetesResource content ns inst = .ok res →
      resourceHasLabel res.Labels "integreatly" "true" = true)
    (l : List Json) :
    ∀ (acc M : List (String × Resource)),
      (∀ p ∈ acc, resourceHasLabel p.2.Labels "integreatly" "true" = true) →
      loadImageStreams r inst l acc = .ok M →
      ∀ p ∈ M, resourceHasLabel p.2.Labels "integreatly" "true" = true := by
  induction l with
  | nil =>
    intro acc M hacc h
    simp only [loadImageStreams, Except.ok.injEq] at h
    subst h
    exact hacc
  | cons is rest ih =>
    intro acc M hacc h
    unfold loadImageStreams at h
    cases hb : loadImageStream r inst is with
    | error e => rw [hb] at h; cases h
    | ok no =>
      obtain ⟨name, obj⟩ := no
      rw [hb] at h
      simp only at h
      refine ih _ M (fun p hp => ?_) h
      rcases GoMap_mem_set acc name obj p hp with hp | hp
      · exact hacc p hp
      · subst hp
        exact loadImageStream_labelled r inst hStamp is name obj hb

theorem loadTemplate_labelled (r : Reconciler) (inst : Installation)
    (hStamp : ∀ content ns res, r.LoadKubernetesResource content ns inst = .ok res →
      resourceHasLabel res.Labels "integreatly" "true" = true)
    (cfgMap : ConfigMap) (fileName name : String) (obj : Resource)
    (h : loadTemplate r inst cfgMap fileName = .ok (name, obj)) :
    resourceHasLabel obj.Labels "integreatly" "true" = true := by
  unfold loadTemplate at h
  simp only at h
  split at h
  · cases h
  · rename_i content _
    cases hl : r.LoadKubernetesResource content r.Config.Namespace inst with
    | error e => rw [hl] at h; cases h
    | ok res =>
      rw [hl] at h
      simp only at h
      cases hu : UnstructuredFromRuntimeObject r res with
      | error e => rw [hu] at h; cases h
      | ok u =>
        rw [hu] at h
        simp only [Except.ok.injEq, Prod.mk.injEq] at h
        rw [← h.2]
        exact hStamp _ _ _ hl

theorem loadTemplates_sameStore (r : Reconciler) (env : Env) (inst : Installation)
    (l : List String) :
    ∀ (acc : List (String × Resource)) (w : World),
      sameStore w (loadTemplates r env inst l acc w).2 := by
  induction l with
  | nil => intro acc w; exact ⟨rfl, rfl, rfl⟩
  | cons fileName rest ih =>
    intro acc w
    have hw := getTemplatesConfigMap_world r env w
    unfold loadTemplates
    rcases hres : getTemplatesConfigMap r env w with ⟨⟨cfgMap, oerr⟩, w1⟩
    rw [hres] at hw
    simp only at hw
    subst hw
    cases oerr with
    | some e => exact ⟨rfl, rfl, rfl⟩
    | none =>
      simp only
      cases loadTemplate r inst cfgMap fileName with
      | error e => exact ⟨rfl, rfl, rfl⟩
      | ok no =>
        obtain ⟨name, obj⟩ := no
        exact ih _ _

theorem loadTemplates_replay (r : Reconciler) (env env2 : Env) (inst : Installation)
    (hStamp : ∀ content ns res, r.LoadKubernetesResource content ns inst = .ok res →
      resourceHasLabel res.Labels "integreatly" "true" = true)
    (hQuiet : ∀ log ev, env2.fault log ev = none)
    (data : List (String × String)) (l : List String) :
    ∀ (acc M : List (String × Resource)) (w w2 : World),
      w.configMaps (templatesConfigMapName, r.OperatorNamespace) = some data →
      w2.configMaps (templatesConfigMapName, r.OperatorNamespace) = some data →
      (∀ p ∈ acc, resourceHasLabel p.2.Labels "integreatly" "true" = true) →
      (loadTemplates r env inst l acc w).1 = .ok M →
      loadTemplates r env2 inst l acc w2 =
        (.ok M, { w2 with log := w2.log ++ List.replicate l.length (cacheLookup r) }) ∧
      (∀ p ∈ M, resourceHasLabel p.2.Labels "integreatly" "true" = true) := by
  induction l with
  | nil =>
    intro acc M w w2 _ _ hacc h
    simp only [loadTemplates, Except.ok.injEq] at h
    subst h
    exact ⟨by simp [loadTemplates], hacc⟩
  | cons fileName rest ih =>
    intro acc M w w2 hw hw2 hacc h
    unfold loadTemplates at h ⊢
    rw [getTemplatesConfigMap_quiet r env2 w2 data hQuiet hw2]
    rcases hres : getTemplatesConfigMap r env w with ⟨⟨cfgMap, oerr⟩, w1⟩
    rw [hres] at h
    cases oerr with
    | some e => cases h
    | none =>
      obtain ⟨hd, hcm, hw1⟩ := getTemplatesConfigMap_ok r env w cfgMap w1 hres
      rw [hw] at hd
      cases hd
      rw [← hcm]
      simp only at h ⊢
      cases hb : loadTemplate r inst cfgMap fileName with
      | error e => rw [hb] at h; cases h
      | ok no =>
        obtain ⟨name, obj⟩ := no
        rw [hb] at h
        simp only at h ⊢
        subst hw1
        have hacc' : ∀ p ∈ GoMap.set acc name obj,
            resourceHasLabel p.2.Labels "integreatly" "true" = true := by
          intro p hp
          rcases GoMap_mem_set acc name obj p hp with hp | hp
          · exact hacc p hp
          · subst hp
            exact loadTemplate_labelled r inst hStamp cfgMap fileName name obj hb
        obtain ⟨h1, h2⟩ := ih (GoMap.set acc name obj) M (logCall w (cacheLookup r))
          (logCall w2 (cacheLookup r)) hw hw2 hacc' h
        refine ⟨?_, h2⟩
        rw [h1]
        simp [logCall, List.replicate_succ]

theorem createResourceIfNotExist_owned (r : Reconciler) (env : Env) (w : World)
    (res : Resource) (hQuiet : ∀ log ev, env.fault log ev = none)
    (hConv : r.unstructuredErr res = none) (hOwned : ownedAt w (resKey res)) :
    createResourceIfNotExist r env w res =
      (none, logCall w (Event.get res.Kind res.Name res.Namespace)) := by
  obtain ⟨labels, body, hLive, hLabel⟩ := hOwned
  simp only [createResourceIfNotExist, UnstructuredFromRuntimeObject_ok r res hConv,
    GetResource_found env w res labels body (hQuiet _ _) hLive, hLabel]
  rfl

theorem createResources_owned (r : Reconciler) (env : Env)
    (hQuiet : ∀ log ev, env.fault log ev = none) (l : List (String × Resource)) :
    ∀ w : World,
      (∀ p ∈ l, r.unstructuredErr p.2 = none ∧ ownedAt w (resKey p.2)) →
      createResources r env l w = (none, { w with log := w.log ++ lookupEvents l }) := by
  induction l with
  | nil => intro w _; simp [createResources, lookupEvents]
  | cons p rest ih =>
    intro w h
    obtain ⟨name, obj⟩ := p
    obtain ⟨hconv, hown⟩ := h (name, obj) (List.mem_cons_self _ _)
    unfold createResources
    rw [createResourceIfNotExist_owned r env w obj hQuiet hconv hown]
    simp only
    rw [ih]
    · simp [logCall, lookupEvents]
    · intro q hq
      obtain ⟨hc, ho⟩ := h q (List.mem_cons_of_mem _ hq)
      exact ⟨hc, ho⟩

theorem appendMissing_covered (old value : List String) (h : ∀ n ∈ value, n ∈ old) :
    appendMissing old value = old := by
  induction value with
  | nil => rfl
  | cons v rest ih =>
    unfold appendMissing
    rw [contains_eq]
    simp only [h v (List.mem_cons_self _ _), decide_True, Bool.not_true, Bool.false_eq_true,
      if_false]
    exact ih fun n hn => h n (List.mem_cons_of_mem _ hn)

theorem skipNames_covered (key : String) (value : List String) (spec : ConfigSpec)
    (h : ∀ n ∈ value, n ∈ skipped key spec)
    (hKey : key = "SkippedImagestreams" ∨ key = "SkippedTemplates") :
    skipNames key value ⟨"cluster", spec⟩ = ⟨"cluster", spec⟩ := by
  rcases hKey with rfl | rfl
  · have := appendMissing_covered spec.SkippedImagestreams value (by simpa [skipped] using h)
    simp [skipNames, this]
  · have := appendMissing_covered spec.SkippedTemplates value (by simpa [skipped] using h)
    simp [skipNames, this]

theorem updateClusterSampleCR_settled (env : Env) (w : World) (key : String)
    (value : List String) (hQuiet : ∀ log ev, env.fault log ev = none)
    (hKey : key = "SkippedImagestreams" ∨ key = "SkippedTemplates")
    (hCov : registryCovers w key value) :
    updateClusterSampleCR env w key value =
      (none, { w with log := w.log ++ registryEvents w }) := by
  cases hl : w.samples "cluster" with
  | none =>
    simp [updateClusterSampleCR, GetSamplesConfig, hQuiet, hl, notFoundError, registryEvents,
      logCall]
  | some spec =>
    rw [updateClusterSampleCR_quiet env w key value spec hQuiet hl,
      skipNames_covered key value spec (hCov spec hl) hKey]
    simp only [registryEvents, hl]
    congr 2
    rw [← hl]
    exact Function.update_eq_self _ _

theorem registryCovers_of_samples (w w' : World) (key : String) (names : List String)
    (hs : w'.samples = w.samples) (h : registryCovers w key names) :
    registryCovers w' key names := by
  intro spec hspec
  rw [hs] at hspec
  exact h spec hspec

theorem ownedAt_of_resources (w w' : World) (k : String × String × String)
    (hr : w'.resources = w.resources) (h : ownedAt w k) : ownedAt w' k := by
  obtain ⟨l, b, h1, h2⟩ := h
  exact ⟨l, b, by rw [hr]; exact h1, h2⟩

/-- What a completed batch (registry declaration, then the create loop) leaves behind. -/
theorem batch_completed (r : Reconciler) (env : Env) (w : World) (key : String)
    (M : List (String × Resource))
    (hKey : key = "SkippedImagestreams" ∨ key = "SkippedTemplates")
    (w2 w3 : World)
    (hU : updateClusterSampleCR env w key (getKeysFromMap env M) = (none, w2))
    (hC : createResources r env (env.rangeOrder.order M) w2 = (none, w3)) :
    w3.configMaps = w.configMaps ∧
    registryCovers w3 key (M.map Prod.fst) ∧
    (∀ key' names, registryCovers w key' names → registryCovers w3 key' names) ∧
    (∀ k, ownedAt w k → ownedAt w3 k) ∧
    (∀ p ∈ M, r.unstructuredErr p.2 = none ∧
      (resourceHasLabel p.2.Labels "integreatly" "true" = true → ownedAt w3 (resKey p.2))) := by
  obtain ⟨uc, ur, ukeep, ucov⟩ := updateClusterSampleCR_effect env w key (getKeysFromMap env M)
  rw [hU] at uc ur ukeep ucov
  simp only at uc ur ukeep ucov
  obtain ⟨cc, cs, ckeep, csucc⟩ := createResources_effect r env (env.rangeOrder.order M) w2
  rw [hC] at cc cs ckeep csucc
  simp only at cc cs ckeep csucc
  refine ⟨cc.trans uc, ?_, ?_, ?_, ?_⟩
  · apply registryCovers_of_samples w2 w3 _ _ cs
    intro spec hspec n hn
    apply ucov trivial hKey spec hspec
    unfold getKeysFromMap
    exact ((env.keysOrder.isPerm M).map Prod.fst).mem_iff.mpr hn
  · intro key' names h
    exact registryCovers_of_samples w2 w3 _ _ cs (ukeep key' names h)
  · intro k hk
    exact ckeep k (ownedAt_of_resources w w2 k ur hk)
  · intro p hp
    exact csucc trivial p ((env.rangeOrder.isPerm M).mem_iff.mpr hp)

/-- The replay of a settled batch under a quiet environment. -/
theorem batch_settled (r : Reconciler) (env : Env) (w : World) (key : String)
    (M : List (String × Resource)) (hQuiet : ∀ log ev, env.fault log ev = none)
    (hKey : key = "SkippedImagestreams" ∨ key = "SkippedTemplates")
    (hCov : registryCovers w key (M.map Prod.fst))
    (hOwn : ∀ p ∈ M, r.unstructuredErr p.2 = none ∧ ownedAt w (resKey p.2)) :
    updateClusterSampleCR env w key (getKeysFromMap env M) =
      (none, { w with log := w.log ++ registryEvents w }) ∧
    createResources r env (env.rangeOrder.order M) { w with log := w.log ++ registryEvents w } =
      (none, { w with
        log := (w.log ++ registryEvents w ++ lookupEvents (env.rangeOrder.order M)) }) := by
  constructor
  · apply updateClusterSampleCR_settled env w key _ hQuiet hKey
    intro spec hspec n hn
    apply hCov spec hspec
    unfold getKeysFromMap at hn
    exact ((env.keysOrder.isPerm M).map Prod.fst).mem_iff.mp hn
  · rw [createResources_owned r env hQuiet]
    intro p hp
    obtain ⟨hc, ho⟩ := hOwn p ((env.rangeOrder.isPerm M).mem_iff.mp hp)
    exact ⟨hc, ownedAt_of_resources w _ _ rfl ho⟩

theorem reconcileImageStreams_completed (r : Reconciler) (env : Env) (inst : Installation)
    (w : World)
    (h : (reconcileImageStreams r env inst w).1 = .ret (PhaseCompleted, none)) :
    ∃ data fc isList M,
      w.configMaps (templatesConfigMapName, r.OperatorNamespace) = some data ∧
      r.jsonUnmarshal (GoMap.getD data imageStreamFileName) = .ok fc ∧
      getResourcesFromList fc = .ret isList ∧
      loadImageStreams r inst isList [] = .ok M ∧
      (reconcileImageStreams r env inst w).2.configMaps = w.configMaps ∧
      registryCovers (reconcileImageStreams r env inst w).2 "SkippedImagestreams"
        (M.map Prod.fst) ∧
      (∀ key' names, registryCovers w key' names →
        registryCovers (reconcileImageStreams r env inst w).2 key' names) ∧
      (∀ k, ownedAt w k → ownedAt (reconcileImageStreams r env inst w).2 k) ∧
      (∀ p ∈ M, r.unstructuredErr p.2 = none ∧
        (resourceHasLabel p.2.Labels "integreatly" "true" = true →
          ownedAt (reconcileImageStreams r env inst w).2 (resKey p.2))) := by
  unfold reconcileImageStreams at h ⊢
  rcases hres : getTemplatesConfigMap r env w with ⟨⟨cfgMap, oerr⟩, w1⟩
  rw [hres] at h
  cases oerr with
  | some e => simp [PhaseFailed_ne_PhaseCompleted] at h
  | none =>
    obtain ⟨hd, -, hw1⟩ := getTemplatesConfigMap_ok r env w cfgMap w1 hres
    subst hw1
    simp only at h ⊢
    cases hu : r.jsonUnmarshal (GoMap.getD cfgMap.Data imageStreamFileName) with
    | error e => rw [hu] at h; simp [PhaseFailed_ne_PhaseCompleted] at h
    | ok fc =>
      rw [hu] at h
      simp only at h ⊢
      cases hg : getResourcesFromList fc with
      | panic m => rw [hg] at h; simp at h
      | ret isList =>
        rw [hg] at h
        simp only at h ⊢
        cases hM : loadImageStreams r inst isList [] with
        | error e => rw [hM] at h; simp [PhaseFailed_ne_PhaseCompleted] at h
        | ok M =>
          rw [hM] at h
          simp only at h ⊢
          rcases hU : updateClusterSampleCR env (logCall w (cacheLookup r)) "SkippedImagestreams"
            (getKeysFromMap env M) with ⟨ures, w2⟩
          rw [hU] at h
          cases ures with
          | some e => simp [PhaseFailed_ne_PhaseCompleted] at h
          | none =>
            simp only at h ⊢
            rcases hC : createResources r env (env.rangeOrder.order M) w2 with ⟨cres, w3⟩
            rw [hC] at h
            cases cres with
            | some e => simp [PhaseFailed_ne_PhaseCompleted] at h
            | none =>
              simp only
              obtain ⟨b1, b2, b3, b4, b5⟩ := batch_completed r env (logCall w (cacheLookup r))
                "SkippedImagestreams" M (Or.inl rfl) w2 w3 hU hC
              exact ⟨cfgMap.Data, fc, isList, M, hd, hu, hg, hM, b1, b2,
                fun key' names hc => b3 key' names (registryCovers_of_samples w _ _ _ rfl hc),
                fun k hk => b4 k (ownedAt_of_resources w _ k rfl hk), b5⟩

theorem reconcileImageStreams_settled (r : Reconciler) (env : Env) (inst : Installation)
    (w : World) (hQuiet : ∀ log ev, env.fault log ev = none)
    (data : List (String × String)) (fc : List (String × Json)) (isList : List Json)
    (M : List (String × Resource))
    (hd : w.configMaps (templatesConfigMapName, r.OperatorNamespace) = some data)
    (hu : r.jsonUnmarshal (GoMap.getD data imageStreamFileName) = .ok fc)
    (hg : getResourcesFromList fc = .ret isList)
    (hM : loadImageStreams r inst isList [] = .ok M)
    (hCov : registryCovers w "SkippedImagestreams" (M.map Prod.fst))
    (hOwn : ∀ p ∈ M, r.unstructuredErr p.2 = none ∧ ownedAt w (resKey p.2)) :
    reconcileImageStreams r env inst w =
      (.ret (PhaseCompleted, none),
        { w with log := (w.log ++ (cacheLookup r :: registryEvents w ++
            lookupEvents (env.rangeOrder.order M))) }) := by
  obtain ⟨hU, hC⟩ := batch_settled r env (logCall w (cacheLookup r)) "SkippedImagestreams" M
    hQuiet (Or.inl rfl) (registryCovers_of_samples w _ _ _ rfl hCov)
    (fun p hp => ⟨(hOwn p hp).1, ownedAt_of_resources w _ _ rfl (hOwn p hp).2⟩)
  unfold reconcileImageStreams
  rw [getTemplatesConfigMap_quiet r env w data hQuiet hd]
  simp only [hu, hg, hM, hU, hC]
  simp [logCall, registryEvents]

theorem reconcileTemplates_completed (r : Reconciler) (env : Env) (inst : Installation)
    (w : World) (h : (reconcileTemplates r env inst w).1 = (PhaseCompleted, none)) :
    ∃ M,
      (loadTemplates r env inst (consoleTemplates ++ quickstartTemplates) [] w).1 = .ok M ∧
      (reconcileTemplates r env inst w).2.configMaps = w.configMaps ∧
      registryCovers (reconcileTemplates r env inst w).2 "SkippedTemplates" (M.map Prod.fst) ∧
      (∀ key' names, registryCovers w key' names →
        registryCovers (reconcileTemplates r env inst w).2 key' names) ∧
      (∀ k, ownedAt w k → ownedAt (reconcileTemplates r env inst w).2 k) ∧
      (∀ p ∈ M, r.unstructuredErr p.2 = none ∧
        (resourceHasLabel p.2.Labels "integreatly" "true" = true →
          ownedAt (reconcileTemplates r env inst w).2 (resKey p.2))) := by
  obtain ⟨lc, ls, lr⟩ := loadTemplates_sameStore r env inst
    (consoleTemplates ++ quickstartTemplates) [] w
  unfold reconcileTemplates at h ⊢
  simp only at h ⊢
  rcases hL : loadTemplates r env inst (consoleTemplates ++ quickstartTemplates) [] w
    with ⟨lres, w1⟩
  rw [hL] at h lc ls lr
  simp only at lc ls lr
  cases lres with
  | error e => simp [PhaseFailed_ne_PhaseCompleted] at h
  | ok M =>
    simp only at h ⊢
    rcases hU : updateClusterSampleCR env w1 "SkippedTemplates" (getKeysFromMap env M)
      with ⟨ures, w2⟩
    rw [hU] at h
    cases ures with
    | some e => simp [PhaseFailed_ne_PhaseCompleted] at h
    | none =>
      simp only at h ⊢
      rcases hC : createResources r env (env.rangeOrder.order M) w2 with ⟨cres, w3⟩
      rw [hC] at h
      cases cres with
      | some e => simp [PhaseFailed_ne_PhaseCompleted] at h
      | none =>
        simp only
        obtain ⟨b1, b2, b3, b4, b5⟩ := batch_completed r env w1 "SkippedTemplates" M
          (Or.inr rfl) w2 w3 hU hC
        exact ⟨M, rfl, b1.trans lc, b2,
          fun key' names hc => b3 key' names (registryCovers_of_samples w _ _ _ ls hc),
          fun k hk => b4 k (ownedAt_of_resources w _ k lr hk), b5⟩

theorem reconcileTemplates_settled (r : Reconciler) (env : Env) (inst : Installation)
    (w : World) (hQuiet : ∀ log ev, env.fault log ev = none) (M : List (String × Resource))
    (hL : loadTemplates r env inst (consoleTemplates ++ quickstartTemplates) [] w =
      (.ok M, { w with log := (w.log ++
        List.replicate (consoleTemplates ++ quickstartTemplates).length (cacheLookup r)) }))
    (hCov : registryCovers w "SkippedTemplates" (M.map Prod.fst))
    (hOwn : ∀ p ∈ M, r.unstructuredErr p.2 = none ∧ ownedAt w (resKey p.2)) :
    reconcileTemplates r env inst w =
      ((PhaseCompleted, none),
        { w with log := (w.log ++
            (List.replicate (consoleTemplates ++ quickstartTemplates).length (cacheLookup r) ++
              registryEvents w ++ lookupEvents (env.rangeOrder.order M))) }) := by
  obtain ⟨hU, hC⟩ := batch_settled r env
    { w with log := (w.log ++
        List.replicate (consoleTemplates ++ quickstartTemplates).length (cacheLookup r)) }
    "SkippedTemplates" M hQuiet (Or.inr rfl) (registryCovers_of_samples w _ _ _ rfl hCov)
    (fun p hp => ⟨(hOwn p hp).1, ownedAt_of_resources w _ _ rfl (hOwn p hp).2⟩)
  unfold reconcileTemplates
  simp only [hL, hU, hC]
  simp [registryEvents]

theorem reconcileConfigMap_hit (r : Reconciler) (env : Env) (w : World)
    (data : List (String × String)) (hQuiet : ∀ log ev, env.fault log ev = none)
    (hLive : w.configMaps (templatesConfigMapName, r.OperatorNamespace) = some data) :
    reconcileConfigMap r env w = ((PhaseCompleted, none), logCall w (cacheLookup r)) := by
  simp [reconcileConfigMap, getTemplatesConfigMap_quiet r env w data hQuiet hLive]

theorem lookupEvents_not_mutating (l : List (String × Resource)) :
    ∀ e ∈ lookupEvents l, e.isMutating = false := by
  intro e he
  simp only [lookupEvents, List.mem_map] at he
  obtain ⟨p, _, rfl⟩ := he
  rfl

theorem settledEvents_facts (r : Reconciler) (w : World)
    (lis lt : List (String × Resource)) :
    (∀ e ∈ settledEvents r w lis lt, e.isCreate = false ∧ e.isDelete = false) ∧
    (w.samples "cluster" = none → ∀ e ∈ settledEvents r w lis lt, e.isMutating = false) ∧
    (∀ spec, w.samples "cluster" = some spec →
      (settledEvents r w lis lt).filter Event.isMutating =
        [Event.update (.samplesConfig ⟨"cluster", spec⟩),
         Event.update (.samplesConfig ⟨"cluster", spec⟩)]) := by
  have hlook : ∀ l : List (String × Resource), (lookupEvents l).filter Event.isMutating = [] := by
    intro l
    rw [List.filter_eq_nil_iff]
    intro e he
    rw [lookupEvents_not_mutating l e he]
    simp
  have hrep : ∀ n : Nat, (List.replicate n (cacheLookup r)).filter Event.isMutating = [] := by
    intro n
    rw [List.filter_eq_nil_iff]
    intro e he
    rw [List.eq_of_mem_replicate he]
    simp [cacheLookup, Event.isMutating, Event.isCreate, Event.isDelete, Event.isUpdate]
  have hcl : (cacheLookup r).isMutating = false := rfl
  have hget : ∀ a b c : String, (Event.get a b c).isMutating = false := fun _ _ _ => rfl
  have hupd : ∀ o : Object, (Event.update o).isMutating = true := fun _ => rfl
  refine ⟨?_, ?_, ?_⟩
  · intro e he
    simp only [settledEvents, List.mem_cons, List.mem_append, List.cons_append] at he
    have hreg : e ∈ registryEvents w → e.isCreate = false ∧ e.isDelete = false := by
      intro h
      cases hs : w.samples "cluster" with
      | none =>
        simp only [registryEvents, hs, List.mem_singleton] at h
        subst h
        exact ⟨rfl, rfl⟩
      | some spec =>
        simp only [registryEvents, hs, List.mem_cons, List.mem_singleton, List.not_mem_nil,
          or_false] at h
        rcases h with rfl | rfl <;> exact ⟨rfl, rfl⟩
    have hlk : ∀ l : List (String × Resource), e ∈ lookupEvents l →
        e.isCreate = false ∧ e.isDelete = false := by
      intro l h
      simp only [lookupEvents, List.mem_map] at h
      obtain ⟨p, _, rfl⟩ := h
      exact ⟨rfl, rfl⟩
    rcases he with rfl | rfl | (h | h) | ((h | h) | h)
    · exact ⟨rfl, rfl⟩
    · exact ⟨rfl, rfl⟩
    · exact hreg h
    · exact hlk _ h
    · rw [List.eq_of_mem_replicate h]
      exact ⟨rfl, rfl⟩
    · exact hreg h
    · exact hlk _ h
  · intro hnone e he
    have hall : (settledEvents r w lis lt).filter Event.isMutating = [] := by
      simp [settledEvents, registryEvents, hnone, List.filter_cons, List.filter_append, hlook,
        hrep, hcl, hget]
    rw [List.filter_eq_nil_iff] at hall
    simpa using hall e he
  · intro spec hspec
    simp [settledEvents, registryEvents, hspec, List.filter_cons, List.filter_append, hlook,
      hrep, hcl, hget, hupd]

/-- C6 as amended (idempotence).  Let a first `Reconcile` return `PhaseCompleted` without
error, and let every manifest loaded by `LoadKubernetesResource` carry the label
`integreatly=true`.  A second `Reconcile` on the resulting cluster, with no store call
refused, also returns `PhaseCompleted`, leaves every store and the product status
unchanged, and issues no `Create` and no `Delete`.  When the shared registry object is
absent it issues no mutating call at all; when the registry exists its only mutating calls
are two `Update`s (one per category), each writing the registry back as it is. -/
theorem C6_idempotence (r : Reconciler) (env env2 : Env) (inst : Installation)
    (product : InstallationProductStatus) (w : World)
    (hStamp : ∀ content ns res, r.LoadKubernetesResource content ns inst = .ok res →
      resourceHasLabel res.Labels "integreatly" "true" = true)
    (hFirst : (Reconcile r env inst product w).result = .ret (PhaseCompleted, none))
    (hQuiet : ∀ log ev, env2.fault log ev = none) :
    (Reconcile r env2 inst (Reconcile r env inst product w).product
      (Reconcile r env inst product w).world).result = .ret (PhaseCompleted, none) ∧
    sameStore (Reconcile r env inst product w).world
      (Reconcile r env2 inst (Reconcile r env inst product w).product
        (Reconcile r env inst product w).world).world ∧
    (Reconcile r env2 inst (Reconcile r env inst product w).product
      (Reconcile r env inst product w).world).product
      = (Reconcile r env inst product w).product ∧
    (∀ e ∈ eventsSince (Reconcile r env inst product w).world
        (Reconcile r env2 inst (Reconcile r env inst product w).product
          (Reconcile r env inst product w).world).world,
      e.isCreate = false ∧ e.isDelete = false) ∧
    ((Reconcile r env inst product w).world.samples "cluster" = none →
      ∀ e ∈ eventsSince (Reconcile r env inst product w).world
        (Reconcile r env2 inst (Reconcile r env inst product w).product
          (Reconcile r env inst product w).world).world,
      e.isMutating = false) ∧
    (∀ spec, (Reconcile r env inst product w).world.samples "cluster" = some spec →
      (eventsSince (Reconcile r env inst product w).world
        (Reconcile r env2 inst (Reconcile r env inst product w).product
          (Reconcile r env inst product w).world).world).filter Event.isMutating =
        [Event.update (.samplesConfig ⟨"cluster", spec⟩),
         Event.update (.samplesConfig ⟨"cluster", spec⟩)]) := by
  obtain ⟨_, hs2, hs3, hworld, hprod⟩ := Reconcile_completed r env inst product w hFirst
  generalize (Reconcile r env inst product w).world = w3 at hworld ⊢
  generalize (Reconcile r env inst product w).product = p1 at hprod ⊢
  generalize (reconcileConfigMap r env w).2 = w1 at hs2 hs3 hworld
  obtain ⟨data, fc, isList, Mis, hd, hu, hg, hMis, c2, cov2, _, _, own2⟩ :=
    reconcileImageStreams_completed r env inst w1 hs2
  generalize (reconcileImageStreams r env inst w1).2 = w2 at hs3 hworld c2 cov2 own2
  obtain ⟨Mt, hL, c3, cov3, keepcov3, keepown3, own3⟩ :=
    reconcileTemplates_completed r env inst w2 hs3
  rw [← hworld] at c3 cov3 keepcov3 keepown3 own3
  clear hworld hs2 hs3 hFirst
  have hd2 : w2.configMaps (templatesConfigMapName, r.OperatorNamespace) = some data := by
    rw [c2]; exact hd
  have hd3 : w3.configMaps (templatesConfigMapName, r.OperatorNamespace) = some data := by
    rw [c3]; exact hd2
  have hlabIs := loadImageStreams_labelled r inst hStamp isList [] Mis (by simp) hMis
  -- the second pass, step by step
  have e1 := reconcileConfigMap_hit r env2 w3 data hQuiet hd3
  have e2 := reconcileImageStreams_settled r env2 inst (logCall w3 (cacheLookup r)) hQuiet
    data fc isList Mis hd3 hu hg hMis
    (registryCovers_of_samples w3 _ _ _ rfl (keepcov3 _ _ cov2))
    (fun p hp => ⟨(own2 p hp).1,
      ownedAt_of_resources w3 _ _ rfl (keepown3 _ ((own2 p hp).2 (hlabIs p hp)))⟩)
  obtain ⟨e3a, hlabT⟩ := loadTemplates_replay r env env2 inst hStamp hQuiet data
    (consoleTemplates ++ quickstartTemplates) [] Mt w2
    { logCall w3 (cacheLookup r) with
      log := ((logCall w3 (cacheLookup r)).log ++
        (cacheLookup r :: registryEvents (logCall w3 (cacheLookup r)) ++
          lookupEvents (env2.rangeOrder.order Mis))) }
    hd2 hd3 (by simp) hL
  have e3 := reconcileTemplates_settled r env2 inst _ hQuiet Mt e3a
    (registryCovers_of_samples w3 _ _ _ rfl cov3)
    (fun p hp => ⟨(own3 p hp).1,
      ownedAt_of_resources w3 _ _ rfl ((own3 p hp).2 (hlabT p hp))⟩)
  have hpass : Reconcile r env2 inst p1 w3 =
      ⟨.ret (PhaseCompleted, none), p1,
        { w3 with log := (w3.log ++ settledEvents r w3 (env2.rangeOrder.order Mis)
            (env2.rangeOrder.order Mt)) }⟩ := by
    rw [Reconcile_steps, e1]
    simp only [e2, e3]
    simp [hprod, settledEvents, registryEvents, logCall]
  rw [hpass]
  have hev := eventsSince_append w3
    { w3 with log := (w3.log ++ settledEvents r w3 (env2.rangeOrder.order Mis)
        (env2.rangeOrder.order Mt)) } _ rfl
  rw [hev]
  obtain ⟨f1, f2, f3⟩ := settledEvents_facts r w3 (env2.rangeOrder.order Mis)
    (env2.rangeOrder.order Mt)
  exact ⟨rfl, ⟨rfl, rfl, rfl⟩, rfl, f1, f2, f3⟩

set_option maxRecDepth 100000 in
/-- Counterexample to C6 as stated: on a fresh cluster in which the shared registry object
exists, the first pass of `fuseReconciler` fetches and caches the 25 files, declares and
creates the image stream and the 24 templates and returns `PhaseCompleted` without error;
the second pass, run on the resulting cluster with nothing changed, returns
`PhaseCompleted` too and issues two `Update` calls on the registry. -/
theorem C6_idempotence_counterexample :
    registryWorld.samples "cluster" =
      some { SkippedImagestreams := ["jenkins"], SkippedTemplates := ["nodejs-example"] } ∧
    firstPass.result = .ret (PhaseCompleted, none) ∧
    firstPass.world.samples "cluster" = some settledSpec ∧
    secondPass.result = .ret (PhaseCompleted, none) ∧
    (eventsSince firstPass.world secondPass.world).filter Event.isMutating =
      [Event.update (.samplesConfig ⟨"cluster", settledSpec⟩),
       Event.update (.samplesConfig ⟨"cluster", settledSpec⟩)] ∧
    ¬ (∀ e ∈ eventsSince firstPass.world secondPass.world, e.isMutating = false) := by
  decide

set_option maxRecDepth 100000 in
/-- Witness for C6 as amended: the pass of `fuseReconciler` over `registryWorld`, twice. -/
theorem C6_idempotence_witness :
    (Reconcile fuseReconciler quietEnv sampleInstallation sampleProduct
      registryWorld).result = .ret (PhaseCompleted, none) ∧
    secondPass.result = .ret (PhaseCompleted, none) ∧
    sameStore firstPass.world secondPass.world ∧
    (∀ e ∈ eventsSince firstPass.world secondPass.world,
      e.isCreate = false ∧ e.isDelete = false) :=
  have h := C6_idempotence fuseReconciler quietEnv quietEnv sampleInstallation sampleProduct
    registryWorld
    (fun content ns res h => by
      simp only [fuseReconciler] at h
      split at h
      · cases h; rfl
      · cases h)
    (by decide) (fun _ _ => rfl)
  ⟨by decide, h.1, h.2.1, h.2.2.2.1⟩

set_option maxRecDepth 100000 in
/-- Witness for C10: the three steps of the sample pass over an empty cluster complete, and
the pass stamps the versions of the config. -/
theorem C10_reconcile_order_witness :
    (Reconcile sampleReconciler quietEnv sampleInstallation sampleProduct emptyWorld).result
      = .ret (PhaseCompleted, none) ∧
    (Reconcile sampleReconciler quietEnv sampleInstallation sampleProduct emptyWorld).product
      = { sampleProduct with Version := "master", OperatorVersion := "1.5.0" } :=
  have h := (C10_reconcile_order sampleReconciler quietEnv sampleInstallation sampleProduct
    emptyWorld).2.2.2.1 (by decide) (by decide) (by decide)
  ⟨h.1, h.2.2⟩

/-! ## Absent resource and absent registry -/

/-- C12 (absent resource).  For a resource whose lookup answers not-found,
`createResourceIfNotExist` issues the lookup and exactly one `Create` of the manifest, no
`Delete`; when the `Create` succeeds it returns no error and the store holds the manifest,
when it fails it returns an error and the store is unchanged.  When the lookup fails with
an error other than not-found, it returns an error and issues no mutating call. -/
theorem C12_absent_resource (r : Reconciler) (env : Env) (w : World) (resource : Resource)
    (hConv : r.unstructuredErr resource = none) :
    (env.fault w.log (Event.get resource.Kind resource.Name resource.Namespace) = none →
      w.resources (resKey resource) = none →
      eventsSince w (createResourceIfNotExist r env w resource).2 =
        [Event.get resource.Kind resource.Name resource.Namespace,
         Event.create (.resource resource)] ∧
      (∀ e ∈ eventsSince w (createResourceIfNotExist r env w resource).2, e.isDelete = false) ∧
      ((CreateResource env
          (logCall w (Event.get resource.Kind resource.Name resource.Namespace)) resource).1
          = none →
        (createResourceIfNotExist r env w resource).1 = none ∧
        (createResourceIfNotExist r env w resource).2.resources (resKey resource)
          = some (resource.Labels, resource.Body)) ∧
      ((CreateResource env
          (logCall w (Event.get resource.Kind resource.Name resource.Namespace)) resource).1
          ≠ none →
        (createResourceIfNotExist r env w resource).1 ≠ none ∧
        sameStore w (createResourceIfNotExist r env w resource).2)) ∧
    (∀ m, env.fault w.log (Event.get resource.Kind resource.Name resource.Namespace) = some m →
      (createResourceIfNotExist r env w resource).1
        = some (Wrap (Errorf m) "failed to get resource") ∧
      eventsSince w (createResourceIfNotExist r env w resource).2 =
        [Event.get resource.Kind resource.Name resource.Namespace] ∧
      (∀ e ∈ eventsSince w (createResourceIfNotExist r env w resource).2,
        e.isMutating = false) ∧
      sameStore w (createResourceIfNotExist r env w resource).2) := by
  constructor
  · intro hf hl
    cases hc : env.fault (w.log ++ [Event.get resource.Kind resource.Name resource.Namespace])
        (Event.create (.resource resource)) with
    | some m =>
      have hout : createResourceIfNotExist r env w resource =
          (some (Wrap (Errorf m) "failed to create resource"),
            { w with log := w.log ++ [Event.get resource.Kind resource.Name resource.Namespace,
                Event.create (.resource resource)] }) := by
        simp [createResourceIfNotExist, UnstructuredFromRuntimeObject, GetResource,
          CreateResource, hConv, hf, hl, hc, logCall, notFoundError]
      have hcre : (CreateResource env
          (logCall w (Event.get resource.Kind resource.Name resource.Namespace)) resource).1
          = some (Errorf m) := by
        simp [CreateResource, logCall, hc]
      rw [hout, hcre, eventsSince_append w _ _ rfl]
      exact ⟨rfl, by simp [Event.isDelete], fun h => (by cases h),
        fun _ => ⟨by simp, rfl, rfl, rfl⟩⟩
    | none =>
      have hout : createResourceIfNotExist r env w resource =
          (none,
            { w with
              log := w.log ++ [Event.get resource.Kind resource.Name resource.Namespace,
                Event.create (.resource resource)]
              resources := Function.update w.resources (resKey resource)
                (some (resource.Labels, resource.Body)) }) := by
        simp [createResourceIfNotExist, UnstructuredFromRuntimeObject, GetResource,
          CreateResource, hConv, hf, hl, hc, logCall, notFoundError]
      have hcre : (CreateResource env
          (logCall w (Event.get resource.Kind resource.Name resource.Namespace)) resource).1
          = none := by
        simp [CreateResource, logCall, hc, hl]
      rw [hout, hcre, eventsSince_append w _ _ rfl]
      exact ⟨rfl, by simp [Event.isDelete], fun _ => ⟨rfl, by simp⟩, fun h => (h rfl).elim⟩
  · intro m hf
    have hout : createResourceIfNotExist r env w resource =
        (some (Wrap (Errorf m) "failed to get resource"),
          logCall w (Event.get resource.Kind resource.Name resource.Namespace)) := by
      simp [createResourceIfNotExist, UnstructuredFromRuntimeObject, GetResource, hConv, hf,
        Errorf]
    rw [hout, eventsSince_append w _ _ rfl]
    exact ⟨rfl, rfl,
      by simp [Event.isMutating, Event.isCreate, Event.isDelete, Event.isUpdate],
      rfl, rfl, rfl⟩

/-- Witness for C12: `foo` is absent from an empty cluster, first with a quiet store and
then with every lookup refused. -/
theorem C12_absent_resource_witness :
    emptyWorld.resources (resKey fooManifest) = none ∧
    (createResourceIfNotExist sampleReconciler quietEnv emptyWorld fooManifest).1 = none ∧
    (createResourceIfNotExist sampleReconciler quietEnv emptyWorld fooManifest).2.resources
      (resKey fooManifest) = some (fooManifest.Labels, fooManifest.Body) ∧
    (createResourceIfNotExist sampleReconciler getRefusedEnv emptyWorld fooManifest).1
      = some (Wrap (Errorf "connection refused") "failed to get resource") :=
  have h := C12_absent_resource sampleReconciler quietEnv emptyWorld fooManifest rfl
  have h' := C12_absent_resource sampleReconciler getRefusedEnv emptyWorld fooManifest rfl
  ⟨rfl, ((h.1 rfl rfl).2.2.1 rfl).1, ((h.1 rfl rfl).2.2.1 rfl).2,
    (h'.2 "connection refused" rfl).1⟩

theorem CreateConfigMap_keeps (env : Env) (w : World) (c : ConfigMap) :
    (CreateConfigMap env w c).2.samples = w.samples ∧
    (CreateConfigMap env w c).2.resources = w.resources ∧
    (CreateConfigMap env w c).2.log = w.log ++ [Event.create (.configMap c)] := by
  unfold CreateConfigMap
  simp only
  cases env.fault w.log (Event.create (.configMap c)) with
  | some m => exact ⟨rfl, rfl, rfl⟩
  | none =>
    cases w.configMaps (c.Name, c.Namespace) with
    | none => exact ⟨rfl, rfl, rfl⟩
    | some d => exact ⟨rfl, rfl, rfl⟩

theorem reconcileConfigMap_keeps (r : Reconciler) (env : Env) (w : World) :
    (reconcileConfigMap r env w).2.samples = w.samples ∧
    (reconcileConfigMap r env w).2.resources = w.resources := by
  have hw := getTemplatesConfigMap_world r env w
  obtain ⟨evs, -, -, -, fs, fr⟩ := fetchFiles_world r fileNames []
    (logCall w (Event.get "ConfigMap" templatesConfigMapName r.OperatorNamespace))
  unfold reconcileConfigMap
  rcases hres : getTemplatesConfigMap r env w with ⟨⟨cfgMap, oerr⟩, w1⟩
  rw [hres] at hw
  simp only at hw
  subst hw
  cases oerr with
  | none => exact ⟨rfl, rfl⟩
  | some err =>
    simp only
    by_cases hnf : err.notFound = true
    · simp only [hnf, Bool.not_true, Bool.false_eq_true, if_false]
      rcases hff : fetchFiles r fileNames []
        (logCall w (Event.get "ConfigMap" templatesConfigMapName r.OperatorNamespace))
        with ⟨res, w2⟩
      rw [hff] at fs fr
      simp only at fs fr
      cases res with
      | error e => exact ⟨fs, fr⟩
      | ok d =>
        simp only
        obtain ⟨cs, cr, -⟩ := CreateConfigMap_keeps env w2 { cfgMap with Data := d }
        rcases hc : CreateConfigMap env w2 { cfgMap with Data := d } with ⟨cres, w3⟩
        rw [hc] at cs cr
        simp only at cs cr
        cases cres with
        | none => exact ⟨cs.trans fs, cr.trans fr⟩
        | some e => exact ⟨cs.trans fs, cr.trans fr⟩
    · simp only [hnf, Bool.not_false, if_true]
      exact ⟨rfl, rfl⟩

theorem updateClusterSampleCR_absent (env : Env) (w : World) (key : String)
    (value : List String)
    (hGet : env.fault w.log (Event.get "Config" "cluster" "") = none)
    (hAbsent : w.samples "cluster" = none) :
    updateClusterSampleCR env w key value =
      (none, logCall w (Event.get "Config" "cluster" "")) := by
  simp [updateClusterSampleCR, GetSamplesConfig, hGet, hAbsent, notFoundError]

/-- C11 (registry absent).  When the lookup of the shared registry object `cluster` answers
not-found, `updateClusterSampleCR` returns no error for every category and name list,
issues the lookup only (no `Update`, no other mutating call) and leaves every store
unchanged.  Consequently, when the registry is absent and its lookup is never refused, a
pass whose other steps all succeed (the cache step, the decoding and loading of both
batches, and both create loops) returns `PhaseCompleted` and stamps the versions. -/
theorem C11_registry_absent (r : Reconciler) (env : Env) (inst : Installation)
    (product : InstallationProductStatus) (w : World)
    (hAbsent : w.samples "cluster" = none)
    (hGet : env.fault w.log (Event.get "Config" "cluster" "") = none) :
    (∀ (key : String) (value : List String),
      (updateClusterSampleCR env w key value).1 = none ∧
      eventsSince w (updateClusterSampleCR env w key value).2
        = [Event.get "Config" "cluster" ""] ∧
      (∀ e ∈ eventsSince w (updateClusterSampleCR env w key value).2, e.isMutating = false) ∧
      sameStore w (updateClusterSampleCR env w key value).2) ∧
    ((∀ log, env.fault log (Event.get "Config" "cluster" "") = none) →
      ∀ (w1 wa w2 wt w3 : World) (cfgMap : ConfigMap) (fc : List (String × Json))
        (isList : List Json) (imageStreams templates : List (String × Resource)),
      reconcileConfigMap r env w = ((PhaseCompleted, none), w1) →
      getTemplatesConfigMap r env w1 = ((cfgMap, none), wa) →
      r.jsonUnmarshal (GoMap.getD cfgMap.Data imageStreamFileName) = .ok fc →
      getResourcesFromList fc = .ret isList →
      loadImageStreams r inst isList [] = .ok imageStreams →
      createResources r env (env.rangeOrder.order imageStreams)
        (logCall wa (Event.get "Config" "cluster" "")) = (none, w2) →
      loadTemplates r env inst (consoleTemplates ++ quickstartTemplates) [] w2
        = (.ok templates, wt) →
      createResources r env (env.rangeOrder.order templates)
        (logCall wt (Event.get "Config" "cluster" "")) = (none, w3) →
      Reconcile r env inst product w =
        ⟨.ret (PhaseCompleted, none),
          { product with
            Version := r.Config.ProductVersion, OperatorVersion := r.Config.OperatorVersion },
          w3⟩) := by
  constructor
  · intro key value
    rw [updateClusterSampleCR_absent env w key value hGet hAbsent,
      eventsSince_append w _ _ rfl]
    exact ⟨rfl, rfl,
      by simp [Event.isMutating, Event.isCreate, Event.isDelete, Event.isUpdate],
      rfl, rfl, rfl⟩
  · intro hQ w1 wa w2 wt w3 cfgMap fc isList imageStreams templates h1 hg hu hl hM hC1 hL hC2
    have hw1 : w1.samples = w.samples := by
      have := (reconcileConfigMap_keeps r env w).1
      rw [h1] at this
      exact this
    have hwa : wa.samples "cluster" = none := by
      have := getTemplatesConfigMap_world r env w1
      rw [hg] at this
      simp only at this
      rw [this]
      simp only [logCall]
      rw [hw1]
      exact hAbsent
    have hw2 : w2.samples "cluster" = none := by
      have := (createResources_effect r env (env.rangeOrder.order imageStreams)
        (logCall wa (Event.get "Config" "cluster" ""))).2.1
      rw [hC1] at this
      simp only [logCall] at this
      rw [this]
      exact hwa
    have hwt : wt.samples "cluster" = none := by
      have := (loadTemplates_sameStore r env inst (consoleTemplates ++ quickstartTemplates) []
        w2).2.1
      rw [hL] at this
      simp only at this
      rw [this]
      exact hw2
    have hU1 := updateClusterSampleCR_absent env wa "SkippedImagestreams"
      (getKeysFromMap env imageStreams) (hQ _) hwa
    have hU2 := updateClusterSampleCR_absent env wt "SkippedTemplates"
      (getKeysFromMap env templates) (hQ _) hwt
    have hIS : reconcileImageStreams r env inst w1 = (.ret (PhaseCompleted, none), w2) := by
      unfold reconcileImageStreams
      rw [hg]
      simp only [hu, hl, hM, hU1, hC1]
    have hT : reconcileTemplates r env inst w2 = ((PhaseCompleted, none), w3) := by
      unfold reconcileTemplates
      simp only [hL, hU2, hC2]
    rw [Reconcile_steps, h1]
    simp only [hIS, hT]
    simp

set_option maxRecDepth 100000 in
/-- Witness for C11: the sample pass over `cachedWorld`, where the registry is absent. -/
theorem C11_registry_absent_witness :
    cachedWorld.samples "cluster" = none ∧
    (updateClusterSampleCR quietEnv cachedWorld "SkippedTemplates" ["fuse-apicurito"]).1
      = none ∧
    sameStore cachedWorld
      (updateClusterSampleCR quietEnv cachedWorld "SkippedTemplates" ["fuse-apicurito"]).2 ∧
    (Reconcile sampleReconciler quietEnv sampleInstallation sampleProduct cachedWorld).result
      = .ret (PhaseCompleted, none) :=
  have h := C11_registry_absent sampleReconciler quietEnv sampleInstallation sampleProduct
    cachedWorld rfl rfl
  have hpass := h.2 (fun _ => rfl) cachedWorld1 cachedWorld2 cachedWorld3 cachedWorld4
    cachedWorld5 ⟨templatesConfigMapName, "integreatly", [("stale", "data")]⟩
    [("items", Json.arr [])] [] [] [("", blankTemplate)] rfl rfl rfl rfl rfl rfl rfl rfl
  ⟨rfl, (h.1 "SkippedTemplates" ["fuse-apicurito"]).1,
    (h.1 "SkippedTemplates" ["fuse-apicurito"]).2.2.2, congrArg Pass.result hpass⟩

/-! ## Decoded lists: `getResourcesFromList` -/

theorem getResourcesFromList_array (listObj : List (String × Json)) (xs : List Json)
    (h : GoMap.get? listObj "items" = some (.arr xs)) :
    getResourcesFromList listObj = .ret xs := by
  simp [getResourcesFromList, h]

theorem getResourcesFromList_missing (listObj : List (String × Json))
    (h : GoMap.get? listObj "items" = none) :
    getResourcesFromList listObj = .panic "reflect: call of reflect.Value.Len on zero Value" := by
  simp [getResourcesFromList, h]

set_option maxRecDepth 100000 in
/-- C16 (totality of `getResourcesFromList`), evaluated where it fails: on a decoded object
without an `items` key, with a null, numeric or boolean `items`, and with a non-empty
object as `items`, the function panics; `reconcileImageStreams` and `Reconcile` panic
with it when the decoded image stream file has no `items` key. -/
theorem C16_getResourcesFromList_panics :
    getResourcesFromList [("kind", Json.str "List")]
      = .panic "reflect: call of reflect.Value.Len on zero Value" ∧
    getResourcesFromList [("items", Json.null)]
      = .panic "reflect: call of reflect.Value.Len on zero Value" ∧
    getResourcesFromList [("items", Json.num "5")]
      = .panic "reflect: call of reflect.Value.Len on float64 Value" ∧
    getResourcesFromList [("items", Json.bool true)]
      = .panic "reflect: call of reflect.Value.Len on bool Value" ∧
    getResourcesFromList [("items", Json.obj [("a", Json.null)])]
      = .panic "reflect: call of reflect.Value.Index on map Value" ∧
    (reconcileImageStreams bareObjectReconciler quietEnv sampleInstallation cachedWorld).1
      = .panic "reflect: call of reflect.Value.Len on zero Value" ∧
    (Reconcile bareObjectReconciler quietEnv sampleInstallation sampleProduct cachedWorld).result
      = .panic "reflect: call of reflect.Value.Len on zero Value" :=
  ⟨rfl, rfl, rfl, rfl, rfl, by decide, by decide⟩

/-! ## Product status lookup -/

theorem findProductStatus_ret_some (l : List (StageName × Option InstallationStageStatus))
    (p : ProductName) (found : Option InstallationProductStatus)
    (h : findProductStatus l p = .ret (some found)) :
    ∃ e ∈ l, ∃ stage, e.2 = some stage ∧ GoMap.get? stage.Products p = some found := by
  induction l with
  | nil => cases h
  | cons e rest ih =>
    obtain ⟨name, stage⟩ := e
    cases stage with
    | none => cases h
    | some stage =>
      unfold findProductStatus at h
      cases hs : GoMap.get? stage.Products p with
      | some x =>
        rw [hs] at h
        simp only [Outcome.ret.injEq, Option.some.injEq] at h
        subst h
        exact ⟨(name, some stage), List.mem_cons_self _ _, stage, rfl, hs⟩
      | none =>
        rw [hs] at h
        obtain ⟨e, he, hfound⟩ := ih h
        exact ⟨e, List.mem_cons_of_mem _ he, hfound⟩

theorem findProductStatus_ret_none (l : List (StageName × Option InstallationStageStatus))
    (p : ProductName) (h : findProductStatus l p = .ret none) :
    ∀ e ∈ l, ∃ stage, e.2 = some stage ∧ GoMap.get? stage.Products p = none := by
  induction l with
  | nil => intro e he; cases he
  | cons e rest ih =>
    obtain ⟨name, stage⟩ := e
    cases stage with
    | none => cases h
    | some stage =>
      unfold findProductStatus at h
      cases hs : GoMap.get? stage.Products p with
      | some x => rw [hs] at h; cases h
      | none =>
        rw [hs] at h
        intro e he
        rcases List.mem_cons.mp he with rfl | he
        · exact ⟨stage, rfl, hs⟩
        · exact ih h e he

theorem findProductStatus_panic (l : List (StageName × Option InstallationStageStatus))
    (p : ProductName) (m : String) (h : findProductStatus l p = .panic m) :
    m = nilDereference ∧ ∃ e ∈ l, e.2 = none := by
  induction l with
  | nil => cases h
  | cons e rest ih =>
    obtain ⟨name, stage⟩ := e
    cases stage with
    | none =>
      simp only [findProductStatus, Outcome.panic.injEq] at h
      exact ⟨h.symm, (name, none), List.mem_cons_self _ _, rfl⟩
    | some stage =>
      unfold findProductStatus at h
      cases hs : GoMap.get? stage.Products p with
      | some x => rw [hs] at h; cases h
      | none =>
        rw [hs] at h
        obtain ⟨hm, e, he, hnil⟩ := ih h
        exact ⟨hm, e, List.mem_cons_of_mem _ he, hnil⟩

/-- On an installation without a nil stage pointer `GetProductStatusObject` does what C15
says, for every iteration order of the stages and product name `p`: the installation is
not modified; if the `Products` map of some stage contains `p`, the call returns the entry
stored under `p` in one of the stages (the nil pointer when that entry is nil); otherwise
it returns the fresh status with `Name = p`, `Status = PhaseNone` and every other field
zero. -/
theorem GetProductStatusObject_stages_present (ord : MapOrder (Option InstallationStageStatus))
    (i : Installation) (p : ProductName)
    (hStages : ∀ e ∈ i.Status.Stages, e.2 ≠ none) :
    (GetProductStatusObject ord i p).2 = i ∧
    ((∃ e ∈ i.Status.Stages, ∃ stage, e.2 = some stage ∧ GoMap.get? stage.Products p ≠ none) →
      ∃ e ∈ i.Status.Stages, ∃ stage found, e.2 = some stage ∧
        GoMap.get? stage.Products p = some found ∧
        (GetProductStatusObject ord i p).1 = .ret found) ∧
    ((∀ e ∈ i.Status.Stages, ∀ stage, e.2 = some stage → GoMap.get? stage.Products p = none) →
      (GetProductStatusObject ord i p).1 =
        .ret (some { Name := p, OperatorVersion := "", Version := "", Host := "", Type_ := "",
                     Mobile := false, Status := PhaseNone })) := by
  unfold GetProductStatusObject
  cases h : findProductStatus (ord.order i.Status.Stages) p with
  | panic m =>
    obtain ⟨-, e, he, hnil⟩ := findProductStatus_panic _ p m h
    exact (hStages e ((ord.isPerm _).mem_iff.mp he) hnil).elim
  | ret res =>
    cases res with
    | some found =>
      obtain ⟨e, he, stage, hst, hfound⟩ := findProductStatus_ret_some _ p found h
      have hmem : e ∈ i.Status.Stages := (ord.isPerm _).mem_iff.mp he
      refine ⟨rfl, fun _ => ⟨e, hmem, stage, found, hst, hfound, rfl⟩, fun hall => ?_⟩
      rw [hall e hmem stage hst] at hfound
      cases hfound
    | none =>
      have hnone := findProductStatus_ret_none _ p h
      refine ⟨rfl, fun hex => ?_, fun _ => rfl⟩
      obtain ⟨e, he, stage, hst, hne⟩ := hex
      obtain ⟨stage', hst', hget⟩ := hnone e ((ord.isPerm _).mem_iff.mpr he)
      rw [hst] at hst'
      cases hst'
      exact (hne hget).elim

/-- On an installation with a nil stage pointer in which no stage contains `p`, the call
panics in every iteration order of the stages. -/
theorem GetProductStatusObject_nil_stage (ord : MapOrder (Option InstallationStageStatus))
    (i : Installation) (p : ProductName)
    (hNil : ∃ e ∈ i.Status.Stages, e.2 = none)
    (hAbsent : ∀ e ∈ i.Status.Stages, ∀ stage, e.2 = some stage →
      GoMap.get? stage.Products p = none) :
    (GetProductStatusObject ord i p).1 = .panic nilDereference := by
  unfold GetProductStatusObject
  cases h : findProductStatus (ord.order i.Status.Stages) p with
  | panic m =>
    obtain ⟨hm, -⟩ := findProductStatus_panic _ p m h
    rw [hm]
  | ret res =>
    cases res with
    | some found =>
      obtain ⟨e, he, stage, hst, hfound⟩ := findProductStatus_ret_some _ p found h
      rw [hAbsent e ((ord.isPerm _).mem_iff.mp he) stage hst] at hfound
      cases hfound
    | none =>
      obtain ⟨e, he, hnil⟩ := hNil
      obtain ⟨stage, hst, -⟩ :=
        findProductStatus_ret_none _ p h e ((ord.isPerm _).mem_iff.mpr he)
      rw [hnil] at hst
      cases hst

/-- C15 (`GetProductStatusObject`), evaluated where it fails.  On an installation whose
only stage entry holds the nil pointer the call panics for every product name and every
iteration order of the stages, where the claim promises the fresh status.  On an
installation with a nil `bootstrap` stage and `rhsso` stored in the `authentication` stage
the call panics when `bootstrap` is visited first and returns the stored status when
`authentication` is visited first.  A nil entry stored under the product name is returned
as it is, and on the installation without a nil stage pointer the call returns the stored
status and the fresh status as the claim says. -/
theorem C15_GetProductStatusObject_nil_stage_panics :
    (∀ (ord : MapOrder (Option InstallationStageStatus)) (p : ProductName),
      (GetProductStatusObject ord onlyNilStageInstallation p).1 = .panic nilDereference) ∧
    (GetProductStatusObject listedStages nilStageInstallation "rhsso").1
      = .panic nilDereference ∧
    (GetProductStatusObject listedStages nilStageInstallation "fuse").1
      = .panic nilDereference ∧
    (GetProductStatusObject reverseStages nilStageInstallation "rhsso").1
      = .ret (some rhssoStatus) ∧
    (GetProductStatusObject reverseStages nilStageInstallation "fuse").1
      = .panic nilDereference ∧
    (GetProductStatusObject listedStages nilProductInstallation "rhsso").1 = .ret none ∧
    (GetProductStatusObject reverseStages stagedInstallation "rhsso").1
      = .ret (some rhssoStatus) ∧
    (GetProductStatusObject reverseStages stagedInstallation "fuse").1 =
      .ret (some { Name := "fuse", OperatorVersion := "", Version := "", Host := "",
                   Type_ := "", Mobile := false, Status := PhaseNone }) := by
  refine ⟨fun ord p => ?_, by decide, by decide, by decide, by decide, by decide, by decide,
    by decide⟩
  apply GetProductStatusObject_nil_stage
  · exact ⟨("bootstrap", none), List.mem_cons_self _ _, rfl⟩
  · intro e he stage hst
    simp only [onlyNilStageInstallation, List.mem_singleton] at he
    subst he
    cases hst

/-! ## Template batch: conversion failure -/

theorem loadTemplates_log (r : Reconciler) (env : Env) (inst : Installation)
    (l : List String) :
    ∀ (acc : List (String × Resource)) (w : World),
      ∃ n, (loadTemplates r env inst l acc w).2 =
        { w with log := w.log ++ List.replicate n (cacheLookup r) } := by
  induction l with
  | nil => intro acc w; exact ⟨0, by simp [loadTemplates]⟩
  | cons fileName rest ih =>
    intro acc w
    have hw := getTemplatesConfigMap_world r env w
    unfold loadTemplates
    rcases hres : getTemplatesConfigMap r env w with ⟨⟨cfgMap, oerr⟩, w1⟩
    rw [hres] at hw
    simp only at hw
    subst hw
    cases oerr with
    | some e => exact ⟨1, rfl⟩
    | none =>
      simp only
      cases loadTemplate r inst cfgMap fileName with
      | error e => exact ⟨1, rfl⟩
      | ok no =>
        obtain ⟨name, obj⟩ := no
        obtain ⟨n, hn⟩ := ih (GoMap.set acc name obj)
          (logCall w (Event.get "ConfigMap" templatesConfigMapName r.OperatorNamespace))
        refine ⟨n + 1, ?_⟩
        simp only
        rw [hn]
        simp [logCall, List.replicate_succ, cacheLookup]

theorem loadTemplates_fails (r : Reconciler) (env : Env) (inst : Installation)
    (data : List (String × String)) (f : String) (e : GoError)
    (hf : loadTemplate r inst ⟨templatesConfigMapName, r.OperatorNamespace, data⟩ f = .error e)
    (l : List String) :
    ∀ (acc : List (String × Resource)) (w : World),
      w.configMaps (templatesConfigMapName, r.OperatorNamespace) = some data → f ∈ l →
      ∃ err, (loadTemplates r env inst l acc w).1 = .error err := by
  induction l with
  | nil => intro acc w _ hmem; cases hmem
  | cons fileName rest ih =>
    intro acc w hd hmem
    unfold loadTemplates
    rcases hres : getTemplatesConfigMap r env w with ⟨⟨cfgMap, oerr⟩, w1⟩
    cases oerr with
    | some e' => exact ⟨_, rfl⟩
    | none =>
      obtain ⟨hd', hcm, hw1⟩ := getTemplatesConfigMap_ok r env w cfgMap w1 hres
      rw [hd] at hd'
      cases hd'
      simp only
      cases hb : loadTemplate r inst cfgMap fileName with
      | error e' => exact ⟨_, rfl⟩
      | ok no =>
        obtain ⟨name, obj⟩ := no
        simp only
        subst hw1
        rcases List.mem_cons.mp hmem with rfl | hmem'
        · rw [hcm] at hb
          rw [hb] at hf
          cases hf
        · exact ih _ _ hd hmem'

theorem loadTemplate_yaml_fails (r : Reconciler) (inst : Installation) (cfgMap : ConfigMap)
    (fileName : String) (e : GoError)
    (hExt : Ext fileName = ".yml" ∨ Ext fileName = ".yaml")
    (hYaml : r.yamlToJSON (GoMap.getD cfgMap.Data fileName) = .error e) :
    loadTemplate r inst cfgMap fileName =
      .error (Wrap e ("failed to convert yaml to json " ++ fileName)) := by
  unfold loadTemplate
  simp only [hExt, if_true, hYaml]

theorem yaml_template_files :
    ∀ f ∈ consoleTemplates ++ quickstartTemplates,
      (Ext f = ".yml" ∨ Ext f = ".yaml") ↔ f = "fuse-apicurito.yml" := by
  decide

theorem loadTemplates_cons_quiet (r : Reconciler) (env : Env) (inst : Installation)
    (hQuiet : ∀ log ev, env.fault log ev = none) (data : List (String × String))
    (f : String) (rest : List String) (acc : List (String × Resource)) (w : World)
    (hd : w.configMaps (templatesConfigMapName, r.OperatorNamespace) = some data) :
    loadTemplates r env inst (f :: rest) acc w =
      match loadTemplate r inst ⟨templatesConfigMapName, r.OperatorNamespace, data⟩ f with
      | .error err => (.error err, logCall w (cacheLookup r))
      | .ok (name, obj) =>
        loadTemplates r env inst rest (GoMap.set acc name obj) (logCall w (cacheLookup r)) := by
  rw [loadTemplates, getTemplatesConfigMap_quiet r env w data hQuiet hd]

/-- C13 as amended (conversion failure).  Only `fuse-apicurito.yml` of the template files
is converted from YAML.  When that conversion fails on the cached content,
`reconcileTemplates` returns `PhaseFailed` with an error, and the whole batch is aborted:
the step issues nothing but reads of the templates config map (no registry declaration, no
`Create` or `Delete` of any template) and leaves every store unchanged.  With a quiet
store and the two files read before it loading, the error is the wrapped conversion
error. -/
theorem C13_conversion_failure_aborts (r : Reconciler) (env : Env) (inst : Installation)
    (w : World) (data : List (String × String)) (e : GoError)
    (hData : w.configMaps (templatesConfigMapName, r.OperatorNamespace) = some data)
    (hYaml : r.yamlToJSON (GoMap.getD data "fuse-apicurito.yml") = .error e) :
    (∀ f ∈ consoleTemplates ++ quickstartTemplates,
      (Ext f = ".yml" ∨ Ext f = ".yaml") ↔ f = "fuse-apicurito.yml") ∧
    (∃ err, (reconcileTemplates r env inst w).1 = (PhaseFailed, some err)) ∧
    (∀ ev ∈ eventsSince w (reconcileTemplates r env inst w).2, ev = cacheLookup r) ∧
    (∀ ev ∈ eventsSince w (reconcileTemplates r env inst w).2, ev.isMutating = false) ∧
    sameStore w (reconcileTemplates r env inst w).2 ∧
    ((∀ log ev, env.fault log ev = none) →
      (∀ f ∈ ["fuse-console-cluster-os4.json", "fuse-console-namespace-os4.json"],
        ∃ x, loadTemplate r inst ⟨templatesConfigMapName, r.OperatorNamespace, data⟩ f
          = .ok x) →
      (reconcileTemplates r env inst w).1 =
        (PhaseFailed, some (Wrap e "failed to convert yaml to json fuse-apicurito.yml"))) := by
  have hfail : loadTemplate r inst ⟨templatesConfigMapName, r.OperatorNamespace, data⟩
      "fuse-apicurito.yml" =
      .error (Wrap e ("failed to convert yaml to json " ++ "fuse-apicurito.yml")) :=
    loadTemplate_yaml_fails r inst _ _ e (Or.inl (by decide)) hYaml
  obtain ⟨err, herr⟩ := loadTemplates_fails r env inst data "fuse-apicurito.yml" _ hfail
    (consoleTemplates ++ quickstartTemplates) [] w hData (by decide)
  obtain ⟨n, hn⟩ := loadTemplates_log r env inst (consoleTemplates ++ quickstartTemplates) [] w
  have hout : reconcileTemplates r env inst w =
      ((PhaseFailed, some err),
        { w with log := w.log ++ List.replicate n (cacheLookup r) }) := by
    unfold reconcileTemplates
    simp only
    rcases hL : loadTemplates r env inst (consoleTemplates ++ quickstartTemplates) [] w
      with ⟨res, w1⟩
    rw [hL] at herr hn
    simp only at herr hn
    subst herr
    subst hn
    rfl
  refine ⟨yaml_template_files, ⟨err, by rw [hout]⟩, ?_, ?_, by rw [hout]; exact ⟨rfl, rfl, rfl⟩,
    ?_⟩
  · rw [hout, eventsSince_append w _ _ rfl]
    intro ev hev
    exact List.eq_of_mem_replicate hev
  · rw [hout, eventsSince_append w _ _ rfl]
    intro ev hev
    rw [List.eq_of_mem_replicate hev]
    rfl
  · intro hQuiet hsib
    obtain ⟨x1, h1⟩ := hsib "fuse-console-cluster-os4.json" (by simp)
    obtain ⟨x2, h2⟩ := hsib "fuse-console-namespace-os4.json" (by simp)
    have hl : consoleTemplates ++ quickstartTemplates =
        "fuse-console-cluster-os4.json" :: "fuse-console-namespace-os4.json" ::
          "fuse-apicurito.yml" :: quickstartTemplates := rfl
    unfold reconcileTemplates
    simp only
    rw [hl, loadTemplates_cons_quiet r env inst hQuiet data _ _ _ w hData, h1]
    simp only
    rw [loadTemplates_cons_quiet r env inst hQuiet data _ _ _ (logCall w (cacheLookup r)) hData,
      h2]
    simp only
    rw [loadTemplates_cons_quiet r env inst hQuiet data _ _ _
      (logCall (logCall w (cacheLookup r)) (cacheLookup r)) hData, hfail]
    rfl

set_option maxRecDepth 100000 in
/-- Witness for C13 as amended: the YAML converter rejects the cached `fuse-apicurito.yml`. -/
theorem C13_conversion_failure_aborts_witness :
    templatesWorld.configMaps (templatesConfigMapName, yamlBrokenReconciler.OperatorNamespace)
      = some consoleData ∧
    (reconcileTemplates yamlBrokenReconciler quietEnv sampleInstallation templatesWorld).1 =
      (PhaseFailed, some (Wrap (Errorf "yaml: did not find expected key")
        "failed to convert yaml to json fuse-apicurito.yml")) ∧
    sameStore templatesWorld
      (reconcileTemplates yamlBrokenReconciler quietEnv sampleInstallation templatesWorld).2 :=
  have h := C13_conversion_failure_aborts yamlBrokenReconciler quietEnv sampleInstallation
    templatesWorld consoleData (Errorf "yaml: did not find expected key") (by decide) rfl
  ⟨by decide,
    h.2.2.2.2.2 (fun _ _ => rfl)
      (fun f hf => by
        simp only [List.mem_cons, List.mem_singleton, List.not_mem_nil, or_false] at hf
        rcases hf with rfl | rfl <;> exact ⟨_, rfl⟩),
    h.2.2.2.2.1⟩

set_option maxRecDepth 100000 in
/-- Counterexample to C13 as stated: the conversion of `fuse-apicurito.yml` fails; its
sibling `fuse-console-cluster-os4.json` loads, yet after the step the sibling template does
not exist and the step has issued no `Create`, `Delete` or `Update`. -/
theorem C13_conversion_failure_counterexample :
    (reconcileTemplates yamlBrokenReconciler quietEnv sampleInstallation templatesWorld).1 =
      (PhaseFailed, some (Wrap (Errorf "yaml: did not find expected key")
        "failed to convert yaml to json fuse-apicurito.yml")) ∧
    loadTemplate yamlBrokenReconciler sampleInstallation
      ⟨templatesConfigMapName, "integreatly", consoleData⟩ "fuse-console-cluster-os4.json" =
      .ok ("fuse-console-cluster",
        { Kind := "Template", Name := "fuse-console-cluster", Namespace := "openshift",
          Labels := [("integreatly", "true")], Body := "fuse-console-cluster" }) ∧
    templatesWorld.resources ("Template", "fuse-console-cluster", "openshift") = none ∧
    (reconcileTemplates yamlBrokenReconciler quietEnv sampleInstallation
      templatesWorld).2.resources ("Template", "fuse-console-cluster", "openshift") = none ∧
    (eventsSince templatesWorld
      (reconcileTemplates yamlBrokenReconciler quietEnv sampleInstallation
        templatesWorld).2).filter Event.isMutating = [] := by
  refine ⟨by decide, rfl, rfl, by decide, by decide⟩

/-! ## Order of the registry declaration and the resource calls -/

theorem GetResource_world (env : Env) (w : World) (u : Resource) :
    (GetResource env w u).2 = logCall w (Event.get u.Kind u.Name u.Namespace) := by
  unfold GetResource
  simp only
  cases env.fault w.log (Event.get u.Kind u.Name u.Namespace) with
  | some m => rfl
  | none =>
    cases w.resources (resKey u) with
    | none => rfl
    | some c => rfl

theorem CreateResource_log (env : Env) (w : World) (res : Resource) :
    (CreateResource env w res).2.log = w.log ++ [Event.create (.resource res)] := by
  unfold CreateResource
  simp only
  cases env.fault w.log (Event.create (.resource res)) with
  | some m => rfl
  | none =>
    cases w.resources (resKey res) with
    | none => rfl
    | some c => rfl

theorem DeleteResource_log (env : Env) (w : World) (res : Resource) :
    (DeleteResource env w res).2.log = w.log ++ [Event.delete (.resource res)] := by
  unfold DeleteResource
  simp only
  cases env.fault w.log (Event.delete (.resource res)) with
  | some m => rfl
  | none =>
    cases w.resources (resKey res) with
    | none => rfl
    | some c => rfl

theorem createResourceIfNotExist_log (r : Reconciler) (env : Env) (w : World)
    (resource : Resource) :
    ∃ res, (createResourceIfNotExist r env w resource).2.log = w.log ++ res ∧
      ∀ e ∈ res, e.isResourceCall = true := by
  unfold createResourceIfNotExist
  cases UnstructuredFromRuntimeObject r resource with
  | error e => exact ⟨[], by simp, by simp⟩
  | ok u =>
    simp only
    have hg := GetResource_world env w u
    rcases hres : GetResource env w u with ⟨gres, w1⟩
    rw [hres] at hg
    simp only at hg
    subst hg
    cases gres with
    | error err =>
      simp only
      by_cases hnf : err.notFound = true
      · simp only [hnf, Bool.not_true, Bool.false_eq_true, if_false]
        have hc := CreateResource_log env (logCall w (Event.get u.Kind u.Name u.Namespace))
          resource
        rcases hcr : CreateResource env (logCall w (Event.get u.Kind u.Name u.Namespace))
          resource with ⟨cres, w2⟩
        rw [hcr] at hc
        simp only at hc
        refine ⟨[Event.get u.Kind u.Name u.Namespace, Event.create (.resource resource)], ?_, ?_⟩
        · cases cres <;> simp [hc, logCall]
        · intro e he
          simp only [List.mem_cons, List.mem_singleton, List.not_mem_nil, or_false] at he
          rcases he with rfl | rfl <;> rfl
      · simp only [hnf, Bool.not_false, if_true]
        exact ⟨[Event.get u.Kind u.Name u.Namespace], rfl, by simp [Event.isResourceCall]⟩
    | ok live =>
      simp only
      by_cases hlab : resourceHasLabel live.Labels "integreatly" "true" = true
      · simp only [hlab, Bool.not_true, Bool.false_eq_true, if_false]
        exact ⟨[Event.get u.Kind u.Name u.Namespace], rfl, by simp [Event.isResourceCall]⟩
      · simp only [hlab, Bool.not_false, if_true]
        have hd := DeleteResource_log env (logCall w (Event.get u.Kind u.Name u.Namespace))
          resource
        rcases hdr : DeleteResource env (logCall w (Event.get u.Kind u.Name u.Namespace))
          resource with ⟨dres, w2⟩
        rw [hdr] at hd
        simp only at hd
        cases dres with
        | some e =>
          refine ⟨[Event.get u.Kind u.Name u.Namespace, Event.delete (.resource resource)],
            by simp [hd, logCall], ?_⟩
          intro e he
          simp only [List.mem_cons, List.mem_singleton, List.not_mem_nil, or_false] at he
          rcases he with rfl | rfl <;> rfl
        | none =>
          simp only
          have hc := CreateResource_log env w2 resource
          rcases hcr : CreateResource env w2 resource with ⟨cres, w3⟩
          rw [hcr] at hc
          simp only at hc
          refine ⟨[Event.get u.Kind u.Name u.Namespace, Event.delete (.resource resource),
            Event.create (.resource resource)], ?_, ?_⟩
          · cases cres <;> simp [hc, hd, logCall]
          · intro e he
            simp only [List.mem_cons, List.mem_singleton, List.not_mem_nil, or_false] at he
            rcases he with rfl | rfl | rfl <;> rfl

theorem createResources_log (r : Reconciler) (env : Env) (l : List (String × Resource)) :
    ∀ w : World, ∃ res, (createResources r env l w).2.log = w.log ++ res ∧
      ∀ e ∈ res, e.isResourceCall = true := by
  induction l with
  | nil => intro w; exact ⟨[], by simp [createResources], by simp⟩
  | cons p rest ih =>
    intro w
    obtain ⟨name, obj⟩ := p
    obtain ⟨res1, h1, hr1⟩ := createResourceIfNotExist_log r env w obj
    unfold createResources
    rcases hres : createResourceIfNotExist r env w obj with ⟨oerr, w'⟩
    rw [hres] at h1
    simp only at h1
    cases oerr with
    | some e => exact ⟨res1, h1, hr1⟩
    | none =>
      simp only
      obtain ⟨res2, h2, hr2⟩ := ih w'
      refine ⟨res1 ++ res2, by rw [h2, h1, List.append_assoc], ?_⟩
      intro e he
      rcases List.mem_append.mp he with he | he
      · exact hr1 e he
      · exact hr2 e he

theorem updateClusterSampleCR_log (env : Env) (w : World) (key : String)
    (value : List String) :
    ∃ reg, (updateClusterSampleCR env w key value).2.log = w.log ++ reg ∧
      ∀ e ∈ reg, e.isRegistryCall = true := by
  cases hf : env.fault w.log (Event.get "Config" "cluster" "") with
  | some m =>
    refine ⟨[Event.get "Config" "cluster" ""], ?_, by simp [Event.isRegistryCall]⟩
    simp [updateClusterSampleCR, GetSamplesConfig, hf, Errorf, logCall]
  | none =>
    cases hl : w.samples "cluster" with
    | none =>
      refine ⟨[Event.get "Config" "cluster" ""], ?_, by simp [Event.isRegistryCall]⟩
      rw [updateClusterSampleCR_absent env w key value hf hl]
      rfl
    | some spec =>
      refine ⟨[Event.get "Config" "cluster" "",
        Event.update (.samplesConfig (skipNames key value ⟨"cluster", spec⟩))], ?_,
        by simp [Event.isRegistryCall]⟩
      rw [updateClusterSampleCR_found env w key value spec hf hl]
      cases env.fault (w.log ++ [Event.get "Config" "cluster" ""])
        (Event.update (.samplesConfig (skipNames key value ⟨"cluster", spec⟩))) <;> rfl

/-- The log of a batch after its reads: the registry calls, then the resource calls. -/
theorem batch_log (r : Reconciler) (env : Env) (w : World) (key : String)
    (M : List (String × Resource)) :
    ∃ reg res,
      (∀ e ∈ reg, e.isRegistryCall = true) ∧ (∀ e ∈ res, e.isResourceCall = true) ∧
      (updateClusterSampleCR env w key (getKeysFromMap env M)).2.log = w.log ++ reg ∧
      (createResources r env (env.rangeOrder.order M)
        (updateClusterSampleCR env w key (getKeysFromMap env M)).2).2.log
        = w.log ++ reg ++ res := by
  obtain ⟨reg, h1, hreg⟩ := updateClusterSampleCR_log env w key (getKeysFromMap env M)
  obtain ⟨res, h2, hres⟩ := createResources_log r env (env.rangeOrder.order M)
    (updateClusterSampleCR env w key (getKeysFromMap env M)).2
  exact ⟨reg, res, hreg, hres, h1, by rw [h2, h1]⟩

theorem reconcileTemplates_log (r : Reconciler) (env : Env) (inst : Installation)
    (w : World) :
    ∃ evs, (reconcileTemplates r env inst w).2.log = w.log ++ evs ∧ declaredFirst r evs := by
  obtain ⟨n, hn⟩ := loadTemplates_log r env inst (consoleTemplates ++ quickstartTemplates) [] w
  unfold reconcileTemplates
  simp only
  rcases hL : loadTemplates r env inst (consoleTemplates ++ quickstartTemplates) [] w
    with ⟨lres, w1⟩
  rw [hL] at hn
  simp only at hn
  subst hn
  have hreads : ∀ e ∈ List.replicate n (cacheLookup r), e = cacheLookup r :=
    fun e he => List.eq_of_mem_replicate he
  cases lres with
  | error e =>
    exact ⟨List.replicate n (cacheLookup r), rfl,
      List.replicate n (cacheLookup r), [], [], by simp, hreads, by simp, by simp⟩
  | ok M =>
    simp only
    obtain ⟨reg, res, hreg, hres, h1, h2⟩ := batch_log r env
      { w with log := w.log ++ List.replicate n (cacheLookup r) } "SkippedTemplates" M
    rcases hU : updateClusterSampleCR env
      { w with log := w.log ++ List.replicate n (cacheLookup r) } "SkippedTemplates"
      (getKeysFromMap env M) with ⟨ures, w2⟩
    rw [hU] at h1 h2
    simp only at h1 h2
    cases ures with
    | some e =>
      exact ⟨List.replicate n (cacheLookup r) ++ reg, by simp only [h1, List.append_assoc],
        List.replicate n (cacheLookup r), reg, [], by simp, hreads, hreg, by simp⟩
    | none =>
      simp only
      rcases hC : createResources r env (env.rangeOrder.order M) w2 with ⟨cres, w3⟩
      rw [hC] at h2
      simp only at h2
      have hlog : w3.log = w.log ++ (List.replicate n (cacheLookup r) ++ reg ++ res) := by
        simp only [h2, List.append_assoc]
      cases cres with
      | some e =>
        exact ⟨_, hlog, List.replicate n (cacheLookup r), reg, res, rfl, hreads, hreg, hres⟩
      | none =>
        exact ⟨_, hlog, List.replicate n (cacheLookup r), reg, res, rfl, hreads, hreg, hres⟩

theorem reconcileImageStreams_log (r : Reconciler) (env : Env) (inst : Installation)
    (w : World) :
    ∃ evs, (reconcileImageStreams r env inst w).2.log = w.log ++ evs ∧
      declaredFirst r evs := by
  have hw := getTemplatesConfigMap_world r env w
  have hread : ∀ e ∈ [cacheLookup r], e = cacheLookup r := by simp
  have stop : ∃ evs, (logCall w (cacheLookup r)).log = w.log ++ evs ∧ declaredFirst r evs :=
    ⟨[cacheLookup r], rfl, [cacheLookup r], [], [], by simp, hread, by simp, by simp⟩
  unfold reconcileImageStreams
  rcases hres : getTemplatesConfigMap r env w with ⟨⟨cfgMap, oerr⟩, w1⟩
  rw [hres] at hw
  simp only at hw
  subst hw
  cases oerr with
  | some e => exact stop
  | none =>
    simp only
    cases r.jsonUnmarshal (GoMap.getD cfgMap.Data imageStreamFileName) with
    | error e => exact stop
    | ok fc =>
      simp only
      cases getResourcesFromList fc with
      | panic m => exact stop
      | ret isList =>
        simp only
        cases loadImageStreams r inst isList [] with
        | error e => exact stop
        | ok M =>
          simp only
          obtain ⟨reg, res, hreg, hres', h1, h2⟩ := batch_log r env
            (logCall w (cacheLookup r)) "SkippedImagestreams" M
          rcases hU : updateClusterSampleCR env (logCall w (cacheLookup r))
            "SkippedImagestreams" (getKeysFromMap env M) with ⟨ures, w2⟩
          have hU' : updateClusterSampleCR env
              (logCall w (Event.get "ConfigMap" templatesConfigMapName r.OperatorNamespace))
              "SkippedImagestreams" (getKeysFromMap env M) = (ures, w2) := hU
          rw [hU] at h1 h2
          simp only at h1 h2
          rw [hU']
          cases ures with
          | some e =>
            exact ⟨[cacheLookup r] ++ reg, by simp [h1, logCall],
              [cacheLookup r], reg, [], by simp, hread, hreg, by simp⟩
          | none =>
            simp only
            rcases hC : createResources r env (env.rangeOrder.order M) w2 with ⟨cres, w3⟩
            rw [hC] at h2
            simp only at h2
            have hlog : w3.log = w.log ++ ([cacheLookup r] ++ reg ++ res) := by
              simp [h2, logCall]
            cases cres with
            | some e => exact ⟨_, hlog, [cacheLookup r], reg, res, rfl, hread, hreg, hres'⟩
            | none => exact ⟨_, hlog, [cacheLookup r], reg, res, rfl, hread, hreg, hres'⟩

theorem reconcileConfigMap_log (r : Reconciler) (env : Env) (w : World) :
    ∃ evs, (reconcileConfigMap r env w).2.log = w.log ++ evs ∧
      ∀ e ∈ evs, e.isUpdate = false ∧ e.isResourceApply = false := by
  have hw := getTemplatesConfigMap_world r env w
  obtain ⟨fevs, hflog, hfetch, -⟩ := fetchFiles_world r fileNames []
    (logCall w (Event.get "ConfigMap" templatesConfigMapName r.OperatorNamespace))
  have hget : ∀ e ∈ [Event.get "ConfigMap" templatesConfigMapName r.OperatorNamespace],
      e.isUpdate = false ∧ e.isResourceApply = false := by
    intro e he
    simp only [List.mem_singleton] at he
    subst he
    exact ⟨rfl, rfl⟩
  have hfe : ∀ e ∈ fevs, e.isUpdate = false ∧ e.isResourceApply = false := by
    intro e he
    have := hfetch e he
    cases e <;> simp_all [Event.isFetch, Event.isUpdate, Event.isResourceApply]
  unfold reconcileConfigMap
  rcases hres : getTemplatesConfigMap r env w with ⟨⟨cfgMap, oerr⟩, w1⟩
  rw [hres] at hw
  simp only at hw
  subst hw
  cases oerr with
  | none => exact ⟨_, rfl, hget⟩
  | some err =>
    simp only
    by_cases hnf : err.notFound = true
    · simp only [hnf, Bool.not_true, Bool.false_eq_true, if_false]
      rcases hff : fetchFiles r fileNames []
        (logCall w (Event.get "ConfigMap" templatesConfigMapName r.OperatorNamespace))
        with ⟨res, w2⟩
      rw [hff] at hflog
      simp only at hflog
      have hcat : ∀ e ∈ Event.get "ConfigMap" templatesConfigMapName r.OperatorNamespace :: fevs,
          e.isUpdate = false ∧ e.isResourceApply = false := by
        intro e he
        rcases List.mem_cons.mp he with rfl | he
        · exact ⟨rfl, rfl⟩
        · exact hfe e he
      cases res with
      | error e => exact ⟨_ :: fevs, by simp [hflog, logCall], hcat⟩
      | ok d =>
        simp only
        obtain ⟨-, -, cl⟩ := CreateConfigMap_keeps env w2 { cfgMap with Data := d }
        rcases hc : CreateConfigMap env w2 { cfgMap with Data := d } with ⟨cres, w3⟩
        rw [hc] at cl
        simp only at cl
        have hlog : w3.log = w.log ++
            (Event.get "ConfigMap" templatesConfigMapName r.OperatorNamespace :: fevs ++
              [Event.create (.configMap { cfgMap with Data := d })]) := by
          simp [cl, hflog, logCall]
        have hall : ∀ e ∈ Event.get "ConfigMap" templatesConfigMapName r.OperatorNamespace ::
            fevs ++ [Event.create (.configMap { cfgMap with Data := d })],
            e.isUpdate = false ∧ e.isResourceApply = false := by
          intro e he
          rcases List.mem_append.mp he with he | he
          · exact hcat e he
          · simp only [List.mem_singleton] at he
            subst he
            exact ⟨rfl, rfl⟩
        cases cres with
        | none => exact ⟨_, hlog, hall⟩
        | some e => exact ⟨_, hlog, hall⟩
    · simp only [hnf, Bool.not_false, if_true]
      exact ⟨_, rfl, hget⟩

theorem registryCall_not_apply (e : Event) (h : e.isRegistryCall = true) :
    e.isResourceApply = false := by
  cases e with
  | get _ _ _ => rfl
  | create o => simp [Event.isRegistryCall] at h
  | delete o => simp [Event.isRegistryCall] at h
  | update o => rfl
  | httpGet _ => rfl

theorem resourceCall_not_update (e : Event) (h : e.isResourceCall = true) :
    e.isUpdate = false := by
  cases e with
  | get _ _ _ => rfl
  | create o => rfl
  | delete o => rfl
  | update o => simp [Event.isResourceCall] at h
  | httpGet _ => rfl

theorem noApplyBeforeUpdate_of_no_apply (l : List Event)
    (h : ∀ a ∈ l, a.isResourceApply = false) : noApplyBeforeUpdate l := by
  unfold noApplyBeforeUpdate
  induction l with
  | nil => exact List.Pairwise.nil
  | cons a rest ih =>
    refine List.pairwise_cons.mpr ⟨fun u _ hu => ?_, ih fun x hx => h x (List.mem_cons_of_mem _ hx)⟩
    rw [h a (List.mem_cons_self _ _)] at hu
    exact Bool.false_ne_true hu.1

theorem noApplyBeforeUpdate_of_no_update (l : List Event)
    (h : ∀ u ∈ l, u.isUpdate = false) : noApplyBeforeUpdate l := by
  unfold noApplyBeforeUpdate
  induction l with
  | nil => exact List.Pairwise.nil
  | cons a rest ih =>
    refine List.pairwise_cons.mpr ⟨fun u hu hau => ?_, ih fun x hx => h x (List.mem_cons_of_mem _ hx)⟩
    rw [h u (List.mem_cons_of_mem _ hu)] at hau
    exact Bool.false_ne_true hau.2

theorem noApplyBeforeUpdate_of_declaredFirst (r : Reconciler) (evs : List Event)
    (h : declaredFirst r evs) : noApplyBeforeUpdate evs := by
  obtain ⟨reads, reg, res, rfl, hreads, hreg, hres⟩ := h
  have hfront : ∀ a ∈ reads ++ reg, a.isResourceApply = false := by
    intro a ha
    rcases List.mem_append.mp ha with ha | ha
    · rw [hreads a ha]; rfl
    · exact registryCall_not_apply a (hreg a ha)
  have hback : ∀ u ∈ res, u.isUpdate = false :=
    fun u hu => resourceCall_not_update u (hres u hu)
  unfold noApplyBeforeUpdate
  rw [List.pairwise_append]
  refine ⟨noApplyBeforeUpdate_of_no_apply _ hfront, noApplyBeforeUpdate_of_no_update _ hback,
    fun a ha u _ hau => ?_⟩
  rw [hfront a ha] at hau
  exact Bool.false_ne_true hau.1

theorem declaredFirst_nil (r : Reconciler) : declaredFirst r [] :=
  ⟨[], [], [], rfl, by simp, by simp, by simp⟩

theorem Reconcile_world (r : Reconciler) (env : Env) (inst : Installation)
    (product : InstallationProductStatus) (w : World) :
    (Reconcile r env inst product w).world = (reconcileConfigMap r env w).2 ∨
    (Reconcile r env inst product w).world =
      (reconcileImageStreams r env inst (reconcileConfigMap r env w).2).2 ∨
    (Reconcile r env inst product w).world =
      (reconcileTemplates r env inst
        (reconcileImageStreams r env inst (reconcileConfigMap r env w).2).2).2 := by
  rw [Reconcile_steps]
  split
  · exact Or.inl rfl
  · split
    · exact Or.inr (Or.inl rfl)
    · split
      · exact Or.inr (Or.inl rfl)
      · split
        · exact Or.inr (Or.inr rfl)
        · exact Or.inr (Or.inr rfl)

theorem UnstructuredFromRuntimeObject_eq (r : Reconciler) (res u : Resource)
    (h : UnstructuredFromRuntimeObject r res = .ok u) : u = res := by
  unfold UnstructuredFromRuntimeObject at h
  cases hu : r.unstructuredErr res with
  | some e => rw [hu] at h; cases h
  | none => rw [hu] at h; cases h; rfl

theorem createResourceIfNotExist_calls (r : Reconciler) (env : Env) (w : World)
    (obj : Resource) :
    ∃ res, (createResourceIfNotExist r env w obj).2.log = w.log ++ res ∧
      (∀ e ∈ res, e.appliesTo obj) ∧
      ((createResourceIfNotExist r env w obj).1 = none →
        Event.get obj.Kind obj.Name obj.Namespace ∈ res) := by
  unfold createResourceIfNotExist
  cases hU : UnstructuredFromRuntimeObject r obj with
  | error e => exact ⟨[], by simp, by simp, by simp⟩
  | ok u =>
    have hu := UnstructuredFromRuntimeObject_eq r obj u hU
    subst hu
    simp only
    have hg := GetResource_world env w u
    rcases hres : GetResource env w u with ⟨gres, w1⟩
    rw [hres] at hg
    simp only at hg
    subst hg
    have one : ∀ e ∈ [Event.get u.Kind u.Name u.Namespace], e.appliesTo u := by
      intro e he
      simp only [List.mem_singleton] at he
      exact Or.inl he
    cases gres with
    | error err =>
      simp only
      by_cases hnf : err.notFound = true
      · simp only [hnf, Bool.not_true, Bool.false_eq_true, if_false]
        have hc := CreateResource_log env (logCall w (Event.get u.Kind u.Name u.Namespace)) u
        rcases hcr : CreateResource env (logCall w (Event.get u.Kind u.Name u.Namespace))
          u with ⟨cres, w2⟩
        rw [hcr] at hc
        simp only at hc
        refine ⟨[Event.get u.Kind u.Name u.Namespace, Event.create (.resource u)], ?_, ?_,
          fun _ => List.mem_cons_self _ _⟩
        · cases cres <;> simp [hc, logCall]
        · intro e he
          simp only [List.mem_cons, List.mem_singleton, List.not_mem_nil, or_false] at he
          rcases he with rfl | rfl
          · exact Or.inl rfl
          · exact Or.inr (Or.inl rfl)
      · simp only [hnf, Bool.not_false, if_true]
        exact ⟨[Event.get u.Kind u.Name u.Namespace], rfl, one, fun _ => List.mem_cons_self _ _⟩
    | ok live =>
      simp only
      by_cases hlab : resourceHasLabel live.Labels "integreatly" "true" = true
      · simp only [hlab, Bool.not_true, Bool.false_eq_true, if_false]
        exact ⟨[Event.get u.Kind u.Name u.Namespace], rfl, one, fun _ => List.mem_cons_self _ _⟩
      · simp only [hlab, Bool.not_false, if_true]
        have hd := DeleteResource_log env (logCall w (Event.get u.Kind u.Name u.Namespace)) u
        rcases hdr : DeleteResource env (logCall w (Event.get u.Kind u.Name u.Namespace))
          u with ⟨dres, w2⟩
        rw [hdr] at hd
        simp only at hd
        cases dres with
        | some e =>
          refine ⟨[Event.get u.Kind u.Name u.Namespace, Event.delete (.resource u)],
            by simp [hd, logCall], ?_, fun _ => List.mem_cons_self _ _⟩
          intro e he
          simp only [List.mem_cons, List.mem_singleton, List.not_mem_nil, or_false] at he
          rcases he with rfl | rfl
          · exact Or.inl rfl
          · exact Or.inr (Or.inr rfl)
        | none =>
          simp only
          have hc := CreateResource_log env w2 u
          rcases hcr : CreateResource env w2 u with ⟨cres, w3⟩
          rw [hcr] at hc
          simp only at hc
          refine ⟨[Event.get u.Kind u.Name u.Namespace, Event.delete (.resource u),
            Event.create (.resource u)], ?_, ?_, fun _ => List.mem_cons_self _ _⟩
          · cases cres <;> simp [hc, hd, logCall]
          · intro e he
            simp only [List.mem_cons, List.mem_singleton, List.not_mem_nil, or_false] at he
            rcases he with rfl | rfl | rfl
            · exact Or.inl rfl
            · exact Or.inr (Or.inr rfl)
            · exact Or.inr (Or.inl rfl)

theorem createResources_calls (r : Reconciler) (env : Env) (l : List (String × Resource)) :
    ∀ w : World, ∃ res, (createResources r env l w).2.log = w.log ++ res ∧
      (∀ e ∈ res, ∃ p ∈ l, e.appliesTo p.2) ∧
      ((createResources r env l w).1 = none →
        ∀ p ∈ l, Event.get p.2.Kind p.2.Name p.2.Namespace ∈ res) := by
  induction l with
  | nil => intro w; exact ⟨[], by simp [createResources], by simp, by simp⟩
  | cons p rest ih =>
    intro w
    obtain ⟨name, obj⟩ := p
    obtain ⟨res1, h1, hr1, hg1⟩ := createResourceIfNotExist_calls r env w obj
    unfold createResources
    rcases hres : createResourceIfNotExist r env w obj with ⟨oerr, w'⟩
    rw [hres] at h1 hg1
    simp only at h1 hg1
    cases oerr with
    | some e =>
      refine ⟨res1, h1, fun e he => ⟨(name, obj), List.mem_cons_self _ _, hr1 e he⟩, ?_⟩
      intro h
      cases h
    | none =>
      simp only
      obtain ⟨res2, h2, hr2, hg2⟩ := ih w'
      refine ⟨res1 ++ res2, by rw [h2, h1, List.append_assoc], ?_, ?_⟩
      · intro e he
        rcases List.mem_append.mp he with he | he
        · exact ⟨(name, obj), List.mem_cons_self _ _, hr1 e he⟩
        · obtain ⟨p, hp, hap⟩ := hr2 e he
          exact ⟨p, List.mem_cons_of_mem _ hp, hap⟩
      · intro hnone p hp
        rcases List.mem_cons.mp hp with rfl | hp
        · exact List.mem_append_left _ (hg1 rfl)
        · exact List.mem_append_right _ (hg2 hnone p hp)

theorem updateClusterSampleCR_calls (env : Env) (w : World) (key : String)
    (value : List String) :
    ∃ reg, (updateClusterSampleCR env w key value).2.log = w.log ++ reg ∧
      declarationCalls key value w reg ∧
      ((updateClusterSampleCR env w key value).1 = none →
        ∀ spec, w.samples "cluster" = some spec →
          reg = [Event.get "Config" "cluster" "",
            Event.update (.samplesConfig (skipNames key value ⟨"cluster", spec⟩))]) := by
  cases hf : env.fault w.log (Event.get "Config" "cluster" "") with
  | some m =>
    refine ⟨[Event.get "Config" "cluster" ""], ?_, Or.inl rfl, ?_⟩
    · simp [updateClusterSampleCR, GetSamplesConfig, hf, Errorf, logCall]
    · simp [updateClusterSampleCR, GetSamplesConfig, hf, Errorf]
  | none =>
    cases hl : w.samples "cluster" with
    | none =>
      refine ⟨[Event.get "Config" "cluster" ""], ?_, Or.inl rfl,
        fun _ spec h => by cases h⟩
      rw [updateClusterSampleCR_absent env w key value hf hl]
      rfl
    | some spec =>
      refine ⟨[Event.get "Config" "cluster" "",
        Event.update (.samplesConfig (skipNames key value ⟨"cluster", spec⟩))], ?_,
        Or.inr ⟨spec, hl, rfl⟩, fun _ spec' h => by cases h; rfl⟩
      rw [updateClusterSampleCR_found env w key value spec hf hl]
      cases env.fault (w.log ++ [Event.get "Config" "cluster" ""])
        (Event.update (.samplesConfig (skipNames key value ⟨"cluster", spec⟩))) <;> rfl

/-- The calls of a batch after its reads: the registry declaration, then the resource
calls. -/
theorem batch_calls (r : Reconciler) (env : Env) (w : World) (key : String)
    (M : List (String × Resource)) :
    ∃ reg res,
      declarationCalls key (getKeysFromMap env M) w reg ∧
      ((updateClusterSampleCR env w key (getKeysFromMap env M)).1 = none →
        ∀ spec, w.samples "cluster" = some spec →
          reg = [Event.get "Config" "cluster" "",
            Event.update (.samplesConfig
              (skipNames key (getKeysFromMap env M) ⟨"cluster", spec⟩))]) ∧
      (∀ e ∈ res, ∃ p ∈ M, e.appliesTo p.2) ∧
      ((createResources r env (env.rangeOrder.order M)
          (updateClusterSampleCR env w key (getKeysFromMap env M)).2).1 = none →
        ∀ p ∈ M, Event.get p.2.Kind p.2.Name p.2.Namespace ∈ res) ∧
      (updateClusterSampleCR env w key (getKeysFromMap env M)).2.log = w.log ++ reg ∧
      (createResources r env (env.rangeOrder.order M)
        (updateClusterSampleCR env w key (getKeysFromMap env M)).2).2.log
        = w.log ++ reg ++ res := by
  obtain ⟨reg, h1, hreg, hupd⟩ := updateClusterSampleCR_calls env w key (getKeysFromMap env M)
  obtain ⟨res, h2, hres, hall⟩ := createResources_calls r env (env.rangeOrder.order M)
    (updateClusterSampleCR env w key (getKeysFromMap env M)).2
  refine ⟨reg, res, hreg, hupd, ?_, ?_, h1, by rw [h2, h1]⟩
  · intro e he
    obtain ⟨p, hp, hap⟩ := hres e he
    exact ⟨p, (env.rangeOrder.isPerm _).mem_iff.mp hp, hap⟩
  · intro hnone p hp
    exact hall hnone p ((env.rangeOrder.isPerm _).mem_iff.mpr hp)

theorem loadTemplates_ok_log (r : Reconciler) (env : Env) (inst : Installation)
    (l : List String) :
    ∀ (acc M : List (String × Resource)) (w : World),
      (loadTemplates r env inst l acc w).1 = .ok M →
      (loadTemplates r env inst l acc w).2 =
        { w with log := w.log ++ List.replicate l.length (cacheLookup r) } := by
  induction l with
  | nil => intro acc M w _; simp [loadTemplates]
  | cons fileName rest ih =>
    intro acc M w
    have hw := getTemplatesConfigMap_world r env w
    unfold loadTemplates
    rcases hres : getTemplatesConfigMap r env w with ⟨⟨cfgMap, oerr⟩, w1⟩
    rw [hres] at hw
    simp only at hw
    subst hw
    cases oerr with
    | some e => intro h; cases h
    | none =>
      simp only
      cases loadTemplate r inst cfgMap fileName with
      | error e => intro h; cases h
      | ok no =>
        obtain ⟨name, obj⟩ := no
        simp only
        intro h
        rw [ih (GoMap.set acc name obj) M _ h]
        simp [logCall, List.replicate_succ, cacheLookup]

theorem reconcileTemplates_calls (r : Reconciler) (env : Env) (inst : Installation)
    (w : World) (M : List (String × Resource))
    (hL : (loadTemplates r env inst (consoleTemplates ++ quickstartTemplates) [] w).1 = .ok M) :
    declaredThenApplied r env "SkippedTemplates" M w
      (consoleTemplates ++ quickstartTemplates).length
      ((updateClusterSampleCR env
        (loadTemplates r env inst (consoleTemplates ++ quickstartTemplates) [] w).2
        "SkippedTemplates" (getKeysFromMap env M)).1 = none)
      ((reconcileTemplates r env inst w).1 = (PhaseCompleted, none))
      (eventsSince w (reconcileTemplates r env inst w).2) := by
  have hlog := loadTemplates_ok_log r env inst (consoleTemplates ++ quickstartTemplates) [] M w hL
  unfold reconcileTemplates
  simp only
  rcases hLT : loadTemplates r env inst (consoleTemplates ++ quickstartTemplates) [] w
    with ⟨lres, w1⟩
  rw [hLT] at hL hlog
  simp only at hL hlog
  subst hL
  subst hlog
  simp only
  obtain ⟨reg, res, hreg, hupd, hres, hall, h1, h2⟩ := batch_calls r env
    { w with log := w.log ++
        List.replicate (consoleTemplates ++ quickstartTemplates).length (cacheLookup r) }
    "SkippedTemplates" M
  rcases hU : updateClusterSampleCR env
    { w with log := w.log ++
        List.replicate (consoleTemplates ++ quickstartTemplates).length (cacheLookup r) }
    "SkippedTemplates" (getKeysFromMap env M) with ⟨ures, w2⟩
  rw [hU] at h1 h2 hupd hall
  simp only at h1 h2 hupd hall
  cases ures with
  | some e =>
    refine ⟨reg, [], ?_, hreg, by simp, by simp, by simp, fun h => by simp at h⟩
    apply eventsSince_append
    simp only [h1, List.append_assoc, List.append_nil]
  | none =>
    simp only
    rcases hC : createResources r env (env.rangeOrder.order M) w2 with ⟨cres, w3⟩
    rw [hC] at h2 hall
    simp only at h2 hall
    have hev : eventsSince w w3 =
        List.replicate (consoleTemplates ++ quickstartTemplates).length (cacheLookup r)
          ++ reg ++ res := by
      apply eventsSince_append
      simp only [h2, List.append_assoc]
    cases cres with
    | some e =>
      exact ⟨reg, res, hev, hreg, hres, fun _ => trivial, fun _ => hupd rfl,
        fun h => by simp at h⟩
    | none =>
      exact ⟨reg, res, hev, hreg, hres, fun _ => trivial, fun _ => hupd rfl,
        fun _ => hall rfl⟩

theorem reconcileImageStreams_calls (r : Reconciler) (env : Env) (inst : Installation)
    (w : World) (cfgMap : ConfigMap) (fc : List (String × Json)) (isList : List Json)
    (M : List (String × Resource))
    (hCfg : (getTemplatesConfigMap r env w).1 = (cfgMap, none))
    (hDecode : r.jsonUnmarshal (GoMap.getD cfgMap.Data imageStreamFileName) = .ok fc)
    (hItems : getResourcesFromList fc = .ret isList)
    (hLoad : loadImageStreams r inst isList [] = .ok M) :
    declaredThenApplied r env "SkippedImagestreams" M w 1
      ((updateClusterSampleCR env (getTemplatesConfigMap r env w).2
        "SkippedImagestreams" (getKeysFromMap env M)).1 = none)
      ((reconcileImageStreams r env inst w).1 = .ret (PhaseCompleted, none))
      (eventsSince w (reconcileImageStreams r env inst w).2) := by
  have hw := getTemplatesConfigMap_world r env w
  unfold reconcileImageStreams
  rcases hres : getTemplatesConfigMap r env w with ⟨⟨cfgMap', oerr⟩, w1⟩
  rw [hres] at hw hCfg
  simp only at hw hCfg
  subst hw
  simp only [Prod.mk.injEq] at hCfg
  obtain ⟨hc1, hc2⟩ := hCfg
  subst hc1
  subst hc2
  simp only [hDecode, hItems, hLoad]
  obtain ⟨reg, res, hreg, hupd, hres', hall, h1, h2⟩ := batch_calls r env
    (logCall w (Event.get "ConfigMap" templatesConfigMapName r.OperatorNamespace))
    "SkippedImagestreams" M
  rcases hU : updateClusterSampleCR env
    (logCall w (Event.get "ConfigMap" templatesConfigMapName r.OperatorNamespace))
    "SkippedImagestreams" (getKeysFromMap env M) with ⟨ures, w2⟩
  rw [hU] at h1 h2 hupd hall
  simp only at h1 h2 hupd hall
  cases ures with
  | some e =>
    refine ⟨reg, [], ?_, hreg, by simp, by simp, by simp, fun h => by simp at h⟩
    apply eventsSince_append
    simp [h1, logCall, cacheLookup]
  | none =>
    simp only
    rcases hC : createResources r env (env.rangeOrder.order M) w2 with ⟨cres, w3⟩
    rw [hC] at h2 hall
    simp only at h2 hall
    have hev : eventsSince w w3 = List.replicate 1 (cacheLookup r) ++ reg ++ res := by
      apply eventsSince_append
      simp [h2, logCall, cacheLookup]
    cases cres with
    | some e =>
      exact ⟨reg, res, hev, hreg, hres', fun _ => trivial, fun _ => hupd rfl,
        fun h => by simp at h⟩
    | none =>
      exact ⟨reg, res, hev, hreg, hres', fun _ => trivial, fun _ => hupd rfl,
        fun _ => hall rfl⟩

/-- C14 as amended (order within a batch).  In both batches the registry declaration comes
before the resources are applied.  Once a batch has loaded its manifests `M`, its events
are exactly: the reads of the templates config map (one for the image streams, one per
template file for the templates); then the declaration of `updateClusterSampleCR`, which is
the lookup of the registry object and, when it is found, the `Update` that adds the names
of all manifests of `M` to the list of the category of the batch (`SkippedImagestreams` for
the image streams, `SkippedTemplates` for the templates, console and quickstart alike);
then calls of `createResourceIfNotExist` (lookup, `Create`, `Delete`) for manifests of `M`.
A resource call is issued only when the declaration returned no error, and a batch that
completes has looked up every manifest of `M` after the declaration.  In every run of a
batch, loaded or not, the events are config map reads, then registry calls, then resource
calls, so no `Create` or `Delete` of a resource comes before the registry `Update` of its
batch.  The events of a pass are those of the cache step (no `Update`, no resource `Create`
or `Delete`), then of the image stream batch, then of the template batch. -/
theorem C14_declaration_precedes_apply (r : Reconciler) (env : Env) (inst : Installation)
    (product : InstallationProductStatus) (w : World) :
    (∀ w1, declaredFirst r (eventsSince w1 (reconcileImageStreams r env inst w1).2) ∧
      noApplyBeforeUpdate (eventsSince w1 (reconcileImageStreams r env inst w1).2)) ∧
    (∀ w1, declaredFirst r (eventsSince w1 (reconcileTemplates r env inst w1).2) ∧
      noApplyBeforeUpdate (eventsSince w1 (reconcileTemplates r env inst w1).2)) ∧
    (∃ evC evIS evT,
      eventsSince w (Reconcile r env inst product w).world = evC ++ evIS ++ evT ∧
      (∀ e ∈ evC, e.isUpdate = false ∧ e.isResourceApply = false) ∧
      declaredFirst r evIS ∧ noApplyBeforeUpdate evIS ∧
      declaredFirst r evT ∧ noApplyBeforeUpdate evT ∧
      (evC = eventsSince w (reconcileConfigMap r env w).2) ∧
      (evIS = [] ∨ evIS = eventsSince (reconcileConfigMap r env w).2
        (reconcileImageStreams r env inst (reconcileConfigMap r env w).2).2) ∧
      (evT = [] ∨ evT = eventsSince
        (reconcileImageStreams r env inst (reconcileConfigMap r env w).2).2
        (reconcileTemplates r env inst
          (reconcileImageStreams r env inst (reconcileConfigMap r env w).2).2).2)) ∧
    (∀ w1 cfgMap fc isList M,
      (getTemplatesConfigMap r env w1).1 = (cfgMap, none) →
      r.jsonUnmarshal (GoMap.getD cfgMap.Data imageStreamFileName) = .ok fc →
      getResourcesFromList fc = .ret isList →
      loadImageStreams r inst isList [] = .ok M →
      declaredThenApplied r env "SkippedImagestreams" M w1 1
        ((updateClusterSampleCR env (getTemplatesConfigMap r env w1).2
          "SkippedImagestreams" (getKeysFromMap env M)).1 = none)
        ((reconcileImageStreams r env inst w1).1 = .ret (PhaseCompleted, none))
        (eventsSince w1 (reconcileImageStreams r env inst w1).2)) ∧
    (∀ w1 M,
      (loadTemplates r env inst (consoleTemplates ++ quickstartTemplates) [] w1).1 = .ok M →
      declaredThenApplied r env "SkippedTemplates" M w1
        (consoleTemplates ++ quickstartTemplates).length
        ((updateClusterSampleCR env
          (loadTemplates r env inst (consoleTemplates ++ quickstartTemplates) [] w1).2
          "SkippedTemplates" (getKeysFromMap env M)).1 = none)
        ((reconcileTemplates r env inst w1).1 = (PhaseCompleted, none))
        (eventsSince w1 (reconcileTemplates r env inst w1).2)) := by
  have hIS : ∀ w1, declaredFirst r (eventsSince w1 (reconcileImageStreams r env inst w1).2) ∧
      noApplyBeforeUpdate (eventsSince w1 (reconcileImageStreams r env inst w1).2) := by
    intro w1
    obtain ⟨evs, hlog, hd⟩ := reconcileImageStreams_log r env inst w1
    rw [eventsSince_append w1 _ evs hlog]
    exact ⟨hd, noApplyBeforeUpdate_of_declaredFirst r evs hd⟩
  have hT : ∀ w1, declaredFirst r (eventsSince w1 (reconcileTemplates r env inst w1).2) ∧
      noApplyBeforeUpdate (eventsSince w1 (reconcileTemplates r env inst w1).2) := by
    intro w1
    obtain ⟨evs, hlog, hd⟩ := reconcileTemplates_log r env inst w1
    rw [eventsSince_append w1 _ evs hlog]
    exact ⟨hd, noApplyBeforeUpdate_of_declaredFirst r evs hd⟩
  refine ⟨hIS, hT, ?_,
    fun w1 cfgMap fc isList M h1 h2 h3 h4 =>
      reconcileImageStreams_calls r env inst w1 cfgMap fc isList M h1 h2 h3 h4,
    fun w1 M h => reconcileTemplates_calls r env inst w1 M h⟩
  obtain ⟨evC, hC, hCp⟩ := reconcileConfigMap_log r env w
  obtain ⟨evIS, hI, hId⟩ := reconcileImageStreams_log r env inst (reconcileConfigMap r env w).2
  obtain ⟨evT, hTl, hTd⟩ := reconcileTemplates_log r env inst
    (reconcileImageStreams r env inst (reconcileConfigMap r env w).2).2
  have hnil := declaredFirst_nil r
  have hCe := eventsSince_append w _ evC hC
  have hIe := eventsSince_append (reconcileConfigMap r env w).2 _ evIS hI
  have hTe := eventsSince_append
    (reconcileImageStreams r env inst (reconcileConfigMap r env w).2).2 _ evT hTl
  rcases Reconcile_world r env inst product w with hw | hw | hw
  · refine ⟨evC, [], [], ?_, hCp, hnil, noApplyBeforeUpdate_of_declaredFirst r _ hnil, hnil,
      noApplyBeforeUpdate_of_declaredFirst r _ hnil, hCe.symm, Or.inl rfl, Or.inl rfl⟩
    apply eventsSince_append
    rw [hw, hC]
    simp
  · refine ⟨evC, evIS, [], ?_, hCp, hId, noApplyBeforeUpdate_of_declaredFirst r _ hId, hnil,
      noApplyBeforeUpdate_of_declaredFirst r _ hnil, hCe.symm, Or.inr hIe.symm, Or.inl rfl⟩
    apply eventsSince_append
    rw [hw, hI, hC]
    simp
  · refine ⟨evC, evIS, evT, ?_, hCp, hId, noApplyBeforeUpdate_of_declaredFirst r _ hId, hTd,
      noApplyBeforeUpdate_of_declaredFirst r _ hTd, hCe.symm, Or.inr hIe.symm,
      Or.inr hTe.symm⟩
    apply eventsSince_append
    rw [hw, hTl, hI, hC]
    simp

set_option maxRecDepth 100000 in
/-- Witness for C14 as amended: the template batch and the image stream batch of
`fuseReconciler` on the cluster of `firstPass` after its cache step, where the config map
is stored and the registry exists. -/
theorem C14_declaration_precedes_apply_witness :
    (loadTemplates fuseReconciler quietEnv sampleInstallation
      (consoleTemplates ++ quickstartTemplates) [] fuseCachedWorld).1 = .ok fuseTemplates ∧
    declaredThenApplied fuseReconciler quietEnv "SkippedTemplates" fuseTemplates
      fuseCachedWorld (consoleTemplates ++ quickstartTemplates).length
      ((updateClusterSampleCR quietEnv
        (loadTemplates fuseReconciler quietEnv sampleInstallation
          (consoleTemplates ++ quickstartTemplates) [] fuseCachedWorld).2
        "SkippedTemplates" (getKeysFromMap quietEnv fuseTemplates)).1 = none)
      ((reconcileTemplates fuseReconciler quietEnv sampleInstallation fuseCachedWorld).1
        = (PhaseCompleted, none))
      (eventsSince fuseCachedWorld
        (reconcileTemplates fuseReconciler quietEnv sampleInstallation fuseCachedWorld).2) ∧
    loadImageStreams fuseReconciler sampleInstallation [javaImageStream] []
      = .ok fuseImageStreams ∧
    declaredThenApplied fuseReconciler quietEnv "SkippedImagestreams" fuseImageStreams
      fuseCachedWorld 1
      ((updateClusterSampleCR quietEnv
        (getTemplatesConfigMap fuseReconciler quietEnv fuseCachedWorld).2
        "SkippedImagestreams" (getKeysFromMap quietEnv fuseImageStreams)).1 = none)
      ((reconcileImageStreams fuseReconciler quietEnv sampleInstallation fuseCachedWorld).1
        = .ret (PhaseCompleted, none))
      (eventsSince fuseCachedWorld
        (reconcileImageStreams fuseReconciler quietEnv sampleInstallation
          fuseCachedWorld).2) :=
  have h := C14_declaration_precedes_apply fuseReconciler quietEnv sampleInstallation
    sampleProduct registryWorld
  have hT : (loadTemplates fuseReconciler quietEnv sampleInstallation
      (consoleTemplates ++ quickstartTemplates) [] fuseCachedWorld).1 = .ok fuseTemplates := by
    rfl
  have hI : loadImageStreams fuseReconciler sampleInstallation [javaImageStream] []
      = .ok fuseImageStreams := by rfl
  ⟨hT, h.2.2.2.2 fuseCachedWorld fuseTemplates hT, hI,
    h.2.2.2.1 fuseCachedWorld ⟨templatesConfigMapName, "integreatly", fuseData⟩
      [("apiVersion", .str "v1"), ("items", .arr [javaImageStream]), ("kind", .str "List")]
      [javaImageStream] fuseImageStreams (by decide) (by rfl) rfl hI⟩

set_option maxRecDepth 100000 in
/-- Counterexample to C14 as stated: in the first pass of `fuseReconciler` over a fresh
cluster in which the registry exists, the `Update` that declares the image stream comes
before the `Create` of the image stream, and the `Update` that declares the templates
comes before the `Create` of every template; so a registry `Update` does precede a
resource `Create` of its category. -/
theorem C14_declaration_order_counterexample :
    firstPass.result = .ret (PhaseCompleted, none) ∧
    (eventsSince registryWorld firstPass.world).filter Event.isMutating =
      Event.create (.configMap ⟨templatesConfigMapName, "integreatly", fuseData⟩) ::
      Event.update (.samplesConfig ⟨"cluster", declaredSpec⟩) ::
      Event.create (.resource javaImageStreamResource) ::
      Event.update (.samplesConfig ⟨"cluster", settledSpec⟩) ::
      fuseTemplates.map (fun p => Event.create (.resource p.2)) ∧
    ¬ (eventsSince registryWorld firstPass.world).Pairwise
        (fun u a => ¬ (u.isUpdate = true ∧ a.isResourceApply = true)) := by
  decide
end Fuse
